import Mathlib

/-!
Verification of the data-cleaning core of the clinical-trials pipeline
(CleanData.py and the lookup tables in Mapping.py).

Python strings are modelled as lists of Unicode code points (`List Nat`);
`None`/`NaN` inputs are modelled with `Option`.  Numeric cell values are
modelled with an exact fraction type `Q` whose denominator is positive by
construction, so that every operation reduces inside the kernel.
-/

namespace CleanData

/-- Code points of a Lean string literal; used to write the string
constants of the source program. -/
def strL (s : String) : List Nat := s.data.map Char.toNat

/-- Python `str.lower` on one code point (ASCII letters only, which is all
the source's keyword matching relies on). -/
def lowerN (c : Nat) : Nat := if 65 ≤ c ∧ c ≤ 90 then c + 32 else c

/-- Python `str.upper` on one code point (ASCII letters only). -/
def upperN (c : Nat) : Nat := if 97 ≤ c ∧ c ≤ 122 then c - 32 else c

def lowerStr (s : List Nat) : List Nat := s.map lowerN

def upperStr (s : List Nat) : List Nat := s.map upperN

/-- The regex class `\d`. -/
def isDigitN (c : Nat) : Bool := decide (48 ≤ c ∧ c ≤ 57)

/-- The regex class `\s` / `str.strip` whitespace (ASCII part). -/
def isSpaceN (c : Nat) : Bool := decide (c = 32 ∨ c = 9 ∨ c = 10 ∨ c = 11 ∨ c = 12 ∨ c = 13)

/-- `startsWith p l` : `p` begins the list `l`. -/
def startsWith : List Nat → List Nat → Bool
  | [], _ => true
  | _ :: _, [] => false
  | p :: ps, c :: cs => p == c && startsWith ps cs

/-- Python's substring test `pat in s`. -/
def containsSub : List Nat → List Nat → Bool
  | p, [] => p.isEmpty
  | p, c :: t => startsWith p (c :: t) || containsSub p t

/-- First maximal run of digits in the text: `re.findall(r'\d+', s)[0]`
when it exists. -/
def firstDigitRun : List Nat → Option (List Nat)
  | [] => none
  | c :: t => if isDigitN c then some (c :: t.takeWhile isDigitN) else firstDigitRun t

/-- Numeric value of a digit string (`int` on a string of digits). -/
def digitsToNat (l : List Nat) : Nat := l.foldl (fun a c => a * 10 + (c - 48)) 0

/-! ### `validate_age` (CleanData.py lines 90-110) -/

/-- `validate_age` from CleanData.py.  The Python `int(numbers[0])` is a
nonnegative integer, so the source's `0 <= age` conjunct is vacuous and the
bound checks reduce to upper bounds on a `Nat`. -/
def validate_age : Option (List Nat) → Bool
  | none => true
  | some s =>
    let t := lowerStr s
    match firstDigitRun t with
    | none => true
    | some ds =>
      let age := digitsToNat ds
      if containsSub (strL (r"year")) t || containsSub (strL (r"y")) t then decide (age ≤ 120)
      else if containsSub (strL (r"month")) t || containsSub (strL (r"m")) t then
        decide (age ≤ 1440)
      else if containsSub (strL (r"day")) t || containsSub (strL (r"week")) t then true
      else decide (age ≤ 120)

/-- Case-insensitive substring test, as the specification words it. -/
def ciContains (needle hay : List Nat) : Bool :=
  containsSub (lowerStr needle) (lowerStr hay)

/-- The age-validation rule exactly as the specification describes it:
absence is valid, a text without digits is valid, otherwise `n` is the
first run of digits and the unit dispatch is checked in order
(year/"y", then month/"m", then day/week, then default), first match
winning. -/
def validateAge_spec : Option (List Nat) → Bool
  | none => true
  | some s =>
    match firstDigitRun s with
    | none => true
    | some ds =>
      let n := digitsToNat ds
      if ciContains (strL (r"year")) s || ciContains (strL (r"y")) s then decide (n ≤ 120)
      else if ciContains (strL (r"month")) s || ciContains (strL (r"m")) s then
        decide (n ≤ 1440)
      else if ciContains (strL (r"day")) s || ciContains (strL (r"week")) s then true
      else decide (n ≤ 120)

/-! ### Sponsor classification (CleanData.py lines 9-25, Mapping.py lines 44-59) -/

def SPONSOR_GOV : List (List Nat) :=
  [strL (r"MINISTRY"), strL (r"GOVERNMENT"), strL (r"NATIONAL INSTITUTE"), strL (r"CDC"),
   strL (r"NIH"), strL (r"DEPARTMENT"), strL (r"COUNCIL")]

def SPONSOR_IND : List (List Nat) :=
  [strL (r"PHARMA"), strL (r"INC"), strL (r"CORP"), strL (r"LTD"), strL (r"LLC"),
   strL (r"DIVISION"), strL (r"LIMITED"), strL (r"KGAA")]

def SPONSOR_NP : List (List Nat) :=
  [strL (r"UNIVERSITY"), strL (r"HOSPITAL"), strL (r"FOUNDATION"), strL (r"INTERNATIONAL"),
   strL (r"NGO"), strL (r"TRUST"), strL (r"WHO"), strL (r"ORGANISATION"),
   strL (r"INSTITUTE"), strL (r"INSTITUTIONAL"), strL (r"ACADEMY"),
   strL (r"DRUGS FOR NEGLECTED DISEASES INITIATIVE"), strL (r"DRUGS FOR NEGLECTED DISEASES"),
   strL (r"SCHOOL"), strL (r"ACADEMIC"), strL (r"IDRI"), strL (r"PATH")]

/-- `classify_categories` from CleanData.py on a present string value:
the `'UNKNOWN' / ''` test, then the three ordered keyword sets. -/
def classify_categories_str (s : List Nat) : List Nat :=
  let u := upperStr s
  if u = strL (r"UNKNOWN") ∨ u = [] then strL (r"Unknown")
  else if SPONSOR_GOV.any (fun k => containsSub k u) then strL (r"Government")
  else if SPONSOR_IND.any (fun k => containsSub k u) then strL (r"Industry")
  else if SPONSOR_NP.any (fun k => containsSub k u) then strL (r"Non-profit")
  else strL (r"Other")

/-- `classify_categories` including the `pd.isna` branch. -/
def classify_categories : Option (List Nat) → List Nat
  | none => strL (r"Unknown")
  | some s => classify_categories_str s

/-! ### Income mapping (CleanData.py lines 28-40, Mapping.py lines 22-41) -/

def INCOME_LOW : List (List Nat) :=
  [strL (r"BFA"), strL (r"MDG"), strL (r"MOZ"), strL (r"TZA"), strL (r"KEN"), strL (r"ETH"),
   strL (r"UGA"), strL (r"ZWE"), strL (r"MWI"), strL (r"RWA"), strL (r"NER"), strL (r"LBR"),
   strL (r"COD"), strL (r"SDN"), strL (r"HTI"), strL (r"MRT"), strL (r"GNB"), strL (r"MLI")]

def INCOME_LOWER_MIDDLE : List (List Nat) :=
  [strL (r"IND"), strL (r"BGD"), strL (r"PHL"), strL (r"VNM"), strL (r"IDN"), strL (r"EGY"),
   strL (r"GHA"), strL (r"ZMB"), strL (r"CMR"), strL (r"NPL"), strL (r"KHM"), strL (r"LAO"),
   strL (r"LKA"), strL (r"TLS"), strL (r"HND"), strL (r"SLV"), strL (r"SEN"), strL (r"SLB")]

def INCOME_UPPER_MIDDLE : List (List Nat) :=
  [strL (r"CHN"), strL (r"BRA"), strL (r"MEX"), strL (r"COL"), strL (r"THA"), strL (r"ZAF"),
   strL (r"PER"), strL (r"ECU"), strL (r"GAB"), strL (r"ARG"), strL (r"VEN"), strL (r"BOL"),
   strL (r"CIV"), strL (r"GTM"), strL (r"FJI")]

def INCOME_HIGH : List (List Nat) :=
  [strL (r"USA"), strL (r"GBR"), strL (r"DEU"), strL (r"FRA"), strL (r"ESP"), strL (r"NLD"),
   strL (r"CHE"), strL (r"CAN"), strL (r"AUS"), strL (r"BEL"), strL (r"CHL")]

/-- `INCOME_MAP` from Mapping.py, in its insertion (iteration) order. -/
def INCOME_MAP : List (List Nat × List (List Nat)) :=
  [(strL (r"Low"), INCOME_LOW), (strL (r"Lower middle"), INCOME_LOWER_MIDDLE),
   (strL (r"Upper middle"), INCOME_UPPER_MIDDLE), (strL (r"High"), INCOME_HIGH)]

/-- The `for lvl, codes in INCOME_MAP.items()` lookup loop. -/
def lookupIncome (code : List Nat) : List Nat :=
  match INCOME_MAP.find? (fun p => p.2.any (fun k => k == code)) with
  | some p => p.1
  | none => strL (r"Unknown")

/-- The delimiter class of `re.split(r'[|,;/\s]+', ...)`. -/
def isDelimN (c : Nat) : Bool := c == 124 || c == 44 || c == 59 || c == 47 || isSpaceN c

theorem dropWhileLenLe (p : Nat → Bool) (l : List Nat) :
    (l.dropWhile p).length ≤ l.length :=
  (List.dropWhile_sublist p).length_le

/-- `re.split(r'[|,;/\s]+', s)` : a run of delimiters separates tokens, and
a leading (resp. trailing) delimiter run yields a leading (resp. trailing)
empty token.  `acc` is the token being built (reversed); the flag records
that the scanner is inside a delimiter run (so `acc` is complete). -/
def splitDelimGo : List Nat → List Nat → Bool → List (List Nat)
  | [], acc, inRun => if inRun then [acc.reverse, []] else [acc.reverse]
  | c :: t, acc, inRun =>
    if isDelimN c then splitDelimGo t acc true
    else if inRun then acc.reverse :: splitDelimGo t [c] false
    else splitDelimGo t (c :: acc) false

def splitDelim (l : List Nat) : List (List Nat) := splitDelimGo l [] false

/-- Python `str.strip` : drop leading whitespace. -/
def dropLeadingWs (l : List Nat) : List Nat := l.dropWhile isSpaceN

/-- Python `str.strip` : drop trailing whitespace. -/
def dropTrailingWs : List Nat → List Nat
  | [] => []
  | c :: t =>
    let t' := dropTrailingWs t
    if t' = [] ∧ isSpaceN c then [] else c :: t'

def stripWs (l : List Nat) : List Nat := dropTrailingWs (dropLeadingWs l)

/-- `map_income` from CleanData.py on a present value:
`re.split(r'[|,;/\s]+', str(code_str).strip().upper())[0]`, then the
income-table lookup. -/
def map_income_str (s : List Nat) : List Nat :=
  lookupIncome ((splitDelim (upperStr (stripWs s))).headD [])

/-- `map_income` including the `pd.isna` branch. -/
def map_income : Option (List Nat) → List Nat
  | none => strL (r"Unknown")
  | some s => map_income_str s

/-! ### `clean_html_tags` (CleanData.py lines 57-70) -/

/-- Scan for the first `62` (`'>'`), returning the remainder after it:
the tail of a candidate `re` match of `<[^>]+>`. -/
def skipToClose : List Nat → Option (List Nat)
  | [] => none
  | c :: t => if c = 62 then some t else skipToClose t

/-- Given the text following a `60` (`'<'`): the remainder after a full
`<[^>]+>` match, if the regex matches here (at least one non-`'>'`
character, then `'>'`). -/
def afterTag : List Nat → Option (List Nat)
  | [] => none
  | c :: t => if c = 62 then none else skipToClose t

theorem skipToClose_length : ∀ {l r : List Nat}, skipToClose l = some r → r.length < l.length := by
  intro l
  induction l with
  | nil => intro r h; simp [skipToClose] at h
  | cons c t ih =>
    intro r h
    simp only [skipToClose] at h
    by_cases hc : c = 62
    · simp [hc] at h
      simp [← h, List.length_cons]
    · simp [hc] at h
      have := ih h
      simp [List.length_cons]
      omega

theorem afterTag_length : ∀ {l r : List Nat}, afterTag l = some r → r.length < l.length := by
  intro l r h
  match l with
  | [] => simp [afterTag] at h
  | c :: t =>
    simp only [afterTag] at h
    by_cases hc : c = 62
    · simp [hc] at h
    · simp [hc] at h
      have := skipToClose_length h
      simp [List.length_cons]
      omega

/-- `re.sub(r'<[^>]+>', '', text)` : left-to-right removal of every match,
with explicit fuel (the recursion re-enters at the remainder returned by
`afterTag`, which is shorter than the input, so any fuel at least the
input length gives the untruncated scan). -/
def removeTagsF : Nat → List Nat → List Nat
  | 0, l => l
  | fuel + 1, l =>
    match l with
    | [] => []
    | c :: t =>
      if c = 60 then
        match afterTag t with
        | some r => removeTagsF fuel r
        | none => c :: removeTagsF fuel t
      else c :: removeTagsF fuel t

def removeTags (l : List Nat) : List Nat := removeTagsF l.length l

/-- Python `str.replace` for a two-character pattern `[a, b]` and a
one-character replacement: replace all occurrences, scanning left to
right, non-overlapping. -/
def replace2 (a b rep : Nat) : List Nat → List Nat
  | c :: d :: t =>
    if c = a ∧ d = b then rep :: replace2 a b rep t
    else c :: replace2 a b rep (d :: t)
  | l => l

/-- Python `str.replace` for a four-character pattern `[a, b, c, d]` and a
one-character replacement. -/
def replace4 (a b c d rep : Nat) : List Nat → List Nat
  | x1 :: x2 :: x3 :: x4 :: t =>
    if x1 = a ∧ x2 = b ∧ x3 = c ∧ x4 = d then rep :: replace4 a b c d rep t
    else x1 :: replace4 a b c d rep (x2 :: x3 :: x4 :: t)
  | l => l

/-- `re.sub(r'\s+', ' ', text)` : every maximal whitespace run becomes one
space.  The flag records that the scanner is inside a whitespace run whose
single replacement space has already been emitted. -/
def collapseGo : Bool → List Nat → List Nat
  | _, [] => []
  | inSp, c :: t =>
    if isSpaceN c then
      if inSp then collapseGo true t else 32 :: collapseGo true t
    else c :: collapseGo false t

def collapseWs (l : List Nat) : List Nat := collapseGo false l

/-- The string-level body of `clean_html_tags`: strip tags, replace the
literal escape sequences `\r\n` (code points `[92, 114, 92, 110]`) and
`\n` (`[92, 110]`) by spaces, collapse whitespace, trim. -/
def cleanHtmlStr (s : List Nat) : List Nat :=
  stripWs (collapseWs (replace2 92 110 32 (replace4 92 114 92 110 32 (removeTags s))))

/-- `clean_html_tags` from CleanData.py; the final `return text if text
else None` turns an empty result into absence. -/
def clean_html_tags : Option (List Nat) → Option (List Nat)
  | none => none
  | some s =>
    let t := cleanHtmlStr s
    if t = [] then none else some t


theorem isDigitN_lowerN (c : Nat) : isDigitN (lowerN c) = isDigitN c := by
  simp only [isDigitN, lowerN]
  by_cases h : 65 ≤ c ∧ c ≤ 90
  · simp only [if_pos h, decide_eq_decide]
    omega
  · simp [h]

theorem lowerN_of_digit {c : Nat} (h : isDigitN c = true) : lowerN c = c := by
  simp only [isDigitN, decide_eq_true_eq] at h
  simp only [lowerN]
  split
  · omega
  · rfl

theorem takeWhile_digit_lower (t : List Nat) :
    (t.map lowerN).takeWhile isDigitN = t.takeWhile isDigitN := by
  induction t with
  | nil => rfl
  | cons c t ih =>
    simp only [List.map_cons, List.takeWhile_cons, isDigitN_lowerN]
    by_cases h : isDigitN c = true
    · simp [h, lowerN_of_digit h, ih]
    · simp at h
      simp [h]

theorem firstDigitRun_lower (s : List Nat) :
    firstDigitRun (lowerStr s) = firstDigitRun s := by
  simp only [lowerStr]
  induction s with
  | nil => rfl
  | cons c t ih =>
    simp only [List.map_cons, firstDigitRun, isDigitN_lowerN]
    by_cases h : isDigitN c = true
    · simp [h, lowerN_of_digit h, takeWhile_digit_lower]
    · simp at h
      simp [h]
      exact ih

theorem validate_age_eq_spec (o : Option (List Nat)) :
    validate_age o = validateAge_spec o := by
  cases o with
  | none => rfl
  | some s =>
    have hy : lowerStr (strL (r"year")) = strL (r"year") := by decide
    have hy2 : lowerStr (strL (r"y")) = strL (r"y") := by decide
    have hm : lowerStr (strL (r"month")) = strL (r"month") := by decide
    have hm2 : lowerStr (strL (r"m")) = strL (r"m") := by decide
    have hd : lowerStr (strL (r"day")) = strL (r"day") := by decide
    have hw : lowerStr (strL (r"week")) = strL (r"week") := by decide
    simp only [validate_age, validateAge_spec, ciContains, hy, hy2, hm, hm2, hd, hw,
      firstDigitRun_lower]

def sponsorHit (ks : List (List Nat)) (s : List Nat) : Bool :=
  ks.any (fun k => containsSub k (upperStr s))

theorem classify_str_unfold (s : List Nat) :
    classify_categories (some s) =
      (if upperStr s = strL (r"UNKNOWN") ∨ upperStr s = [] then strL (r"Unknown")
       else if sponsorHit SPONSOR_GOV s = true then strL (r"Government")
       else if sponsorHit SPONSOR_IND s = true then strL (r"Industry")
       else if sponsorHit SPONSOR_NP s = true then strL (r"Non-profit")
       else strL (r"Other")) := by
  simp only [classify_categories, classify_categories_str, sponsorHit, List.any_eq_true]

theorem upperStr_eq_nil_iff (s : List Nat) : upperStr s = [] ↔ s = [] := by
  simp [upperStr]

-- delimiters / whitespace helper facts
theorem isDelimN_iff (c : Nat) : isDelimN c = true ↔
    (c = 124 ∨ c = 44 ∨ c = 59 ∨ c = 47 ∨ c = 32 ∨ c = 9 ∨ c = 10 ∨ c = 11 ∨ c = 12 ∨ c = 13) := by
  simp [isDelimN, isSpaceN]
  tauto

theorem isSpaceN_imp_delim {c : Nat} (h : isSpaceN c = true) : isDelimN c = true := by
  simp [isDelimN, h]

theorem isDelimN_upperN (c : Nat) : isDelimN (upperN c) = isDelimN c := by
  rw [Bool.eq_iff_iff, isDelimN_iff, isDelimN_iff]
  simp only [upperN]
  split
  · omega
  · tauto

theorem splitDelimGo_inRun_head : ∀ (l acc : List Nat),
    (splitDelimGo l acc true).headD [] = acc.reverse := by
  intro l
  induction l with
  | nil => intro acc; simp [splitDelimGo]
  | cons c t ih =>
    intro acc
    simp only [splitDelimGo]
    by_cases h : isDelimN c = true
    · rw [if_pos h]
      exact ih acc
    · simp only [Bool.not_eq_true] at h
      simp [h]

theorem splitDelimGo_token : ∀ (s l acc : List Nat), (∀ c ∈ s, isDelimN c = false) →
    splitDelimGo (s ++ l) acc false = splitDelimGo l (s.reverse ++ acc) false := by
  intro s
  induction s with
  | nil => intro l acc _; simp
  | cons c s ih =>
    intro l acc h
    have hc : isDelimN c = false := h c (by simp)
    simp only [List.cons_append, splitDelimGo, hc, Bool.false_eq_true, if_false, List.append_eq]
    rw [ih _ _ (fun x hx => h x (by simp [hx]))]
    simp

theorem splitDelim_headD_of_token (s rest : List Nat) (hs : ∀ c ∈ s, isDelimN c = false) :
    (splitDelim (s ++ 124 :: rest)).headD [] = s := by
  rw [splitDelim, splitDelimGo_token s (124 :: rest) [] hs]
  have : isDelimN 124 = true := by decide
  simp only [splitDelimGo, this, if_pos]
  rw [splitDelimGo_inRun_head]
  simp

theorem splitDelim_headD_pure (s : List Nat) (hs : ∀ c ∈ s, isDelimN c = false) :
    (splitDelim s).headD [] = s := by
  have := splitDelimGo_token s [] [] hs
  simp only [List.append_nil] at this
  rw [splitDelim, this]
  simp [splitDelimGo]

theorem dropTrailingWs_append (a b : List Nat) :
    dropTrailingWs (a ++ b) =
      (if dropTrailingWs b = [] then dropTrailingWs a else a ++ dropTrailingWs b) := by
  induction a with
  | nil => simp only [List.nil_append]; split <;> simp_all [dropTrailingWs]
  | cons c a ih =>
    simp only [List.cons_append, dropTrailingWs, List.append_eq]
    rw [ih]
    by_cases hb : dropTrailingWs b = []
    · simp [hb]
    · have hne : a ++ dropTrailingWs b ≠ [] := by simp [hb]
      simp [hb, hne]

theorem dropTrailingWs_of_nospace (s : List Nat) (hs : ∀ c ∈ s, isSpaceN c = false) :
    dropTrailingWs s = s := by
  induction s with
  | nil => rfl
  | cons c t ih =>
    have hc : isSpaceN c = false := hs c (by simp)
    simp only [dropTrailingWs, ih (fun x hx => hs x (by simp [hx])), hc]
    simp

theorem dropLeadingWs_of_headnospace (s l : List Nat) (hs : ∀ c ∈ s, isSpaceN c = false) :
    dropLeadingWs (s ++ 124 :: l) = s ++ 124 :: l := by
  cases s with
  | nil =>
    simp [dropLeadingWs, List.dropWhile_cons]
    intro h
    exact absurd h (by decide)
  | cons c t =>
    have hc : isSpaceN c = false := hs c (by simp)
    simp [dropLeadingWs, List.dropWhile_cons, hc]

theorem notSpace_of_notDelim {c : Nat} (h : isDelimN c = false) : isSpaceN c = false := by
  by_contra hc
  simp only [Bool.not_eq_false] at hc
  rw [isSpaceN_imp_delim hc] at h
  exact Bool.true_eq_false.mp h

theorem dropLeadingWs_of_nospace (s : List Nat) (hs : ∀ c ∈ s, isSpaceN c = false) :
    dropLeadingWs s = s := by
  cases s with
  | nil => rfl
  | cons c t =>
    have hc : isSpaceN c = false := hs c (by simp)
    simp [dropLeadingWs, List.dropWhile_cons, hc]

theorem map_income_token (s rest : List Nat) (hs : ∀ c ∈ s, isDelimN c = false) :
    map_income (some (s ++ 124 :: rest)) = lookupIncome (upperStr s) := by
  have hns : ∀ c ∈ s, isSpaceN c = false := fun c hc => notSpace_of_notDelim (hs c hc)
  have h1 : stripWs (s ++ 124 :: rest) = s ++ 124 :: dropTrailingWs rest := by
    rw [stripWs, dropLeadingWs_of_headnospace s rest hns, dropTrailingWs_append]
    have h124 : dropTrailingWs (124 :: rest) = 124 :: dropTrailingWs rest := by
      have hsp : isSpaceN 124 = false := by decide
      simp [dropTrailingWs, hsp]
    rw [h124]
    simp
  have h2 : upperStr (s ++ 124 :: dropTrailingWs rest) =
      upperStr s ++ 124 :: upperStr (dropTrailingWs rest) := by
    simp [upperStr, List.map_append]
    decide
  have hds : ∀ c ∈ upperStr s, isDelimN c = false := by
    intro c hc
    simp only [upperStr, List.mem_map] at hc
    obtain ⟨c0, hc0, rfl⟩ := hc
    rw [isDelimN_upperN]
    exact hs c0 hc0
  simp only [map_income, map_income_str, h1, h2]
  rw [splitDelim_headD_of_token _ _ hds]

theorem map_income_pure (s : List Nat) (hs : ∀ c ∈ s, isDelimN c = false) :
    map_income (some s) = lookupIncome (upperStr s) := by
  have hns : ∀ c ∈ s, isSpaceN c = false := fun c hc => notSpace_of_notDelim (hs c hc)
  have h1 : stripWs s = s := by
    rw [stripWs, dropLeadingWs_of_nospace s hns, dropTrailingWs_of_nospace s hns]
  have hds : ∀ c ∈ upperStr s, isDelimN c = false := by
    intro c hc
    simp only [upperStr, List.mem_map] at hc
    obtain ⟨c0, hc0, rfl⟩ := hc
    rw [isDelimN_upperN]
    exact hs c0 hc0
  simp only [map_income, map_income_str, h1]
  rw [splitDelim_headD_pure _ hds]

theorem removeTagsF_no60 : ∀ (fuel : Nat) (l : List Nat), 60 ∉ l → removeTagsF fuel l = l := by
  intro fuel
  induction fuel with
  | zero => intro l _; rfl
  | succ f ih =>
    intro l h
    match l with
    | [] => rfl
    | c :: t =>
      have hc : c ≠ 60 := by
        intro hc
        exact h (by simp [hc])
      simp only [removeTagsF, hc, if_false]
      rw [ih t (fun ht => h (by simp [ht]))]

theorem removeTags_no60 {l : List Nat} (h : 60 ∉ l) : removeTags l = l :=
  removeTagsF_no60 _ _ h

theorem replace2_notmem (a b rep : Nat) : ∀ (l : List Nat), a ∉ l → replace2 a b rep l = l := by
  intro l
  induction l with
  | nil => intro _; rfl
  | cons c t ih =>
    intro h
    have hc : c ≠ a := fun hc => h (by simp [hc])
    match t with
    | [] => rfl
    | d :: t' =>
      simp only [replace2, hc, false_and, if_false]
      rw [ih (fun ht => h (by simp [ht]))]

theorem replace4_notmem (a b c d rep : Nat) :
    ∀ (l : List Nat), a ∉ l → replace4 a b c d rep l = l := by
  intro l
  induction l with
  | nil => intro _; rfl
  | cons x1 t ih =>
    intro h
    have hx : x1 ≠ a := fun hc => h (by simp [hc])
    match t with
    | [] => rfl
    | [x2] => rfl
    | [x2, x3] => rfl
    | x2 :: x3 :: x4 :: t' =>
      simp only [replace4, hx, false_and, if_false]
      rw [ih (fun ht => h (by simp [ht]))]

theorem collapseGo_true_allspace : ∀ (l : List Nat), (∀ c ∈ l, isSpaceN c = true) →
    collapseGo true l = [] := by
  intro l
  induction l with
  | nil => intro _; rfl
  | cons c t ih =>
    intro h
    have hc : isSpaceN c = true := h c (by simp)
    simp only [collapseGo, hc, if_pos]
    exact ih (fun x hx => h x (by simp [hx]))

theorem cleanHtmlStr_allspace (s : List Nat) (h : ∀ c ∈ s, isSpaceN c = true) :
    cleanHtmlStr s = [] := by
  have h60 : 60 ∉ s := by
    intro hm
    have := h 60 hm
    exact absurd this (by decide)
  have h92 : 92 ∉ s := by
    intro hm
    have := h 92 hm
    exact absurd this (by decide)
  rw [cleanHtmlStr, removeTags_no60 h60, replace4_notmem _ _ _ _ _ _ h92,
    replace2_notmem _ _ _ _ h92]
  cases s with
  | nil => rfl
  | cons c t =>
    have hc : isSpaceN c = true := h c (by simp)
    show stripWs (collapseGo false (c :: t)) = []
    simp only [collapseGo, hc, if_pos]
    rw [collapseGo_true_allspace t (fun x hx => h x (by simp [hx]))]
    rfl

/-- Claim C1: `validate_age` treats absence and digit-free text as valid and
otherwise dispatches on the first digit run `n` with the ordered,
case-insensitive unit checks (year/"y" with bound 120, month/"m" with
bound 1440, day/week always valid, default bound 120), first match
winning; with the four worked examples. -/
theorem validate_age_matches_spec :
    (∀ o : Option (List Nat), validate_age o = validateAge_spec o) ∧
    validate_age (some (strL (r"150 years"))) = false ∧
    validate_age (some (strL (r"80 y"))) = true ∧
    validate_age none = true ∧
    validate_age (some (strL (r"30 days"))) = true :=
  ⟨validate_age_eq_spec, by decide, by decide, rfl, by decide⟩

/-- Claim C4: `classify_categories` returns Unknown on an absent, empty, or
case-insensitively "UNKNOWN" name, otherwise checks the keyword sets in
the order Government, Industry, Non-profit with the first match winning
and Other as fallback; "Ministry of Health Pharma Corp" hits both a
Government and an Industry keyword and is classified Government. -/
theorem classify_categories_precedence :
    classify_categories none = strL (r"Unknown") ∧
    (∀ s, upperStr s = strL (r"UNKNOWN") ∨ s = [] →
      classify_categories (some s) = strL (r"Unknown")) ∧
    (∀ s, ¬(upperStr s = strL (r"UNKNOWN") ∨ s = []) →
      (sponsorHit SPONSOR_GOV s = true → classify_categories (some s) = strL (r"Government")) ∧
      (sponsorHit SPONSOR_GOV s = false → sponsorHit SPONSOR_IND s = true →
        classify_categories (some s) = strL (r"Industry")) ∧
      (sponsorHit SPONSOR_GOV s = false → sponsorHit SPONSOR_IND s = false →
        sponsorHit SPONSOR_NP s = true → classify_categories (some s) = strL (r"Non-profit")) ∧
      (sponsorHit SPONSOR_GOV s = false → sponsorHit SPONSOR_IND s = false →
        sponsorHit SPONSOR_NP s = false → classify_categories (some s) = strL (r"Other"))) ∧
    classify_categories (some (strL (r"Ministry of Health Pharma Corp"))) =
      strL (r"Government") ∧
    sponsorHit SPONSOR_GOV (strL (r"Ministry of Health Pharma Corp")) = true ∧
    sponsorHit SPONSOR_IND (strL (r"Ministry of Health Pharma Corp")) = true := by
  refine ⟨rfl, ?_, ?_, by decide, by decide, by decide⟩
  · intro s h
    have h' : upperStr s = strL (r"UNKNOWN") ∨ upperStr s = [] := by
      rcases h with h | h
      · exact Or.inl h
      · right
        rw [h]
        rfl
    rw [classify_str_unfold, if_pos h']
  · intro s hnot
    have h' : ¬(upperStr s = strL (r"UNKNOWN") ∨ upperStr s = []) := by
      intro hc
      apply hnot
      rcases hc with hc | hc
      · exact Or.inl hc
      · exact Or.inr ((upperStr_eq_nil_iff s).mp hc)
    refine ⟨?_, ?_, ?_, ?_⟩
    · intro hg
      rw [classify_str_unfold, if_neg h', if_pos hg]
    · intro hg hi
      rw [classify_str_unfold, if_neg h', if_neg (by simp [hg]), if_pos hi]
    · intro hg hi hn
      rw [classify_str_unfold, if_neg h', if_neg (by simp [hg]), if_neg (by simp [hi]),
        if_pos hn]
    · intro hg hi hn
      rw [classify_str_unfold, if_neg h', if_neg (by simp [hg]), if_neg (by simp [hi]),
        if_neg (by simp [hn])]

theorem classify_categories_precedence_witness :
    classify_categories (some (strL (r"unknown"))) = strL (r"Unknown") ∧
    classify_categories (some (strL (r"NIH"))) = strL (r"Government") ∧
    classify_categories (some (strL (r"Pfizer Inc"))) = strL (r"Industry") ∧
    classify_categories (some (strL (r"Oxford Hospital"))) = strL (r"Non-profit") ∧
    classify_categories (some (strL (r"Quidam"))) = strL (r"Other") :=
  ⟨classify_categories_precedence.2.1 _ (by decide),
   (classify_categories_precedence.2.2.1 _ (by decide)).1 (by decide),
   (classify_categories_precedence.2.2.1 _ (by decide)).2.1 (by decide) (by decide),
   (classify_categories_precedence.2.2.1 _ (by decide)).2.2.1 (by decide) (by decide) (by decide),
   (classify_categories_precedence.2.2.1 _ (by decide)).2.2.2 (by decide) (by decide) (by decide)⟩

/-- Claim C5: `map_income` maps absence to Unknown and otherwise splits the
field on the delimiter class, income-classifies the uppercased first
token alone (any pipe-separated remainder is ignored), returning Unknown
on a failed lookup; "IND|USA" gets the level of "IND" alone, namely
"Lower middle", although "USA" is High. -/
theorem map_income_first_token_only :
    map_income none = strL (r"Unknown") ∧
    (∀ s rest, (∀ c ∈ s, isDelimN c = false) →
      map_income (some (s ++ 124 :: rest)) = lookupIncome (upperStr s) ∧
      map_income (some s) = lookupIncome (upperStr s)) ∧
    map_income (some (strL (r"IND|USA"))) = strL (r"Lower middle") ∧
    lookupIncome (strL (r"USA")) = strL (r"High") ∧
    map_income (some (strL (r"XXX|USA"))) = strL (r"Unknown") :=
  ⟨rfl, fun s rest hs => ⟨map_income_token s rest hs, map_income_pure s hs⟩,
   by decide, by decide, by decide⟩

theorem map_income_first_token_only_witness :
    map_income (some (strL (r"IND") ++ 124 :: strL (r"USA"))) =
      lookupIncome (upperStr (strL (r"IND"))) ∧
    map_income (some (strL (r"IND"))) = lookupIncome (upperStr (strL (r"IND"))) :=
  map_income_first_token_only.2.1 (strL (r"IND")) (strL (r"USA")) (by decide)

/-- Claim C7: `clean_html_tags` maps absence to absence, never returns an
empty string (an all-whitespace result becomes absence), and on the
worked examples strips the tags, turns the newline (both a literal
code point 10 and the two-character escape sequence) into a single
space, and trims; three spaces clean to absence. -/
theorem clean_html_tags_correct :
    clean_html_tags none = none ∧
    (∀ s t, clean_html_tags (some s) = some t → t ≠ []) ∧
    (∀ s, (∀ c ∈ s, isSpaceN c = true) → clean_html_tags (some s) = none) ∧
    clean_html_tags (some (strL (r"<b>Age ≥ 18</b>") ++ 10 :: strL (r"Years"))) =
      some (strL (r"Age ≥ 18 Years")) ∧
    clean_html_tags (some (strL (r"<b>Age ≥ 18</b>\nYears"))) =
      some (strL (r"Age ≥ 18 Years")) ∧
    clean_html_tags (some (strL (r"   "))) = none := by
  refine ⟨rfl, ?_, ?_, by decide, by decide, by decide⟩
  · intro s t h
    simp only [clean_html_tags] at h
    by_cases hE : cleanHtmlStr s = []
    · rw [if_pos hE] at h
      exact absurd h (by simp)
    · rw [if_neg hE] at h
      rw [Option.some_inj] at h
      intro ht
      exact hE (h.trans ht)
  · intro s h
    simp only [clean_html_tags, cleanHtmlStr_allspace s h]
    rfl

theorem clean_html_tags_correct_witness :
    clean_html_tags (some [32, 32]) = none ∧ ([49] ≠ ([] : List Nat)) :=
  ⟨clean_html_tags_correct.2.2.1 [32, 32] (by decide),
   clean_html_tags_correct.2.1 [49] [49] (by decide)⟩

/-! ### Numeric cells

Exact fractions whose denominator is `dp + 1`, hence positive by
construction; all operations are plain `Int`/`Nat` arithmetic. -/

structure Q where
  n : Int
  dp : Nat
deriving DecidableEq

def Q.den (q : Q) : Int := (q.dp : Int) + 1

def Q.leB (a b : Q) : Bool := decide (a.n * b.den ≤ b.n * a.den)

def Q.ltB (a b : Q) : Bool := decide (a.n * b.den < b.n * a.den)

def Q.add (a b : Q) : Q := ⟨a.n * b.den + b.n * a.den, (a.dp + 1) * (b.dp + 1) - 1⟩

def Q.div2 (a : Q) : Q := ⟨a.n, 2 * a.dp + 1⟩

def insertQ (x : Q) : List Q → List Q
  | [] => [x]
  | y :: t => if Q.leB x y then x :: y :: t else y :: insertQ x t

def sortQ : List Q → List Q
  | [] => []
  | x :: t => insertQ x (sortQ t)

/-- `pandas.Series.median` over the present values: middle element of the
sorted list, or the mean of the two middle elements; `None` (`NaN`) when
no value is present. -/
def medianQ (l : List Q) : Option Q :=
  match l with
  | [] => none
  | _ :: _ =>
    let s := sortQ l
    let n := s.length
    if n % 2 = 1 then some (s.getD (n / 2) ⟨0, 0⟩)
    else some (Q.div2 (Q.add (s.getD (n / 2 - 1) ⟨0, 0⟩) (s.getD (n / 2) ⟨0, 0⟩)))

/-! ### Cells, columns, rows, tables -/

/-- One pandas cell: missing (`NaN`), a string, a number, or a boolean. -/
inductive Cell
  | na : Cell
  | str : List Nat → Cell
  | num : Q → Cell
  | bool : Bool → Cell
deriving DecidableEq

/-- The columns the cleaning script touches. -/
inductive Col
  | date_registration | date_enrollment | Year
  | inclusion_criteria | exclusion_criteria | primary_outcome | secondary_outcome
  | intervention
  | target_sample_size | inclusion_age_min | inclusion_age_max
  | contact_affiliation | secondary_sponsor | web_address | results_url_link
  | standardised_condition | countries | primary_sponsor | phase | study_type
  | results_ind | country_codes
  | sponsor_category | income_level | results_posted
deriving DecidableEq

/-- One table row: a cell for every column the script can touch (cells of
columns absent from the table's schema are irrelevant junk). -/
structure Row where
  date_registration : Cell := .na
  date_enrollment : Cell := .na
  Year : Cell := .na
  inclusion_criteria : Cell := .na
  exclusion_criteria : Cell := .na
  primary_outcome : Cell := .na
  secondary_outcome : Cell := .na
  intervention : Cell := .na
  target_sample_size : Cell := .na
  inclusion_age_min : Cell := .na
  inclusion_age_max : Cell := .na
  contact_affiliation : Cell := .na
  secondary_sponsor : Cell := .na
  web_address : Cell := .na
  results_url_link : Cell := .na
  standardised_condition : Cell := .na
  countries : Cell := .na
  primary_sponsor : Cell := .na
  phase : Cell := .na
  study_type : Cell := .na
  results_ind : Cell := .na
  country_codes : Cell := .na
  sponsor_category : Cell := .na
  income_level : Cell := .na
  results_posted : Cell := .na
deriving DecidableEq

def Row.get (r : Row) : Col → Cell
  | .date_registration => r.date_registration
  | .date_enrollment => r.date_enrollment
  | .Year => r.Year
  | .inclusion_criteria => r.inclusion_criteria
  | .exclusion_criteria => r.exclusion_criteria
  | .primary_outcome => r.primary_outcome
  | .secondary_outcome => r.secondary_outcome
  | .intervention => r.intervention
  | .target_sample_size => r.target_sample_size
  | .inclusion_age_min => r.inclusion_age_min
  | .inclusion_age_max => r.inclusion_age_max
  | .contact_affiliation => r.contact_affiliation
  | .secondary_sponsor => r.secondary_sponsor
  | .web_address => r.web_address
  | .results_url_link => r.results_url_link
  | .standardised_condition => r.standardised_condition
  | .countries => r.countries
  | .primary_sponsor => r.primary_sponsor
  | .phase => r.phase
  | .study_type => r.study_type
  | .results_ind => r.results_ind
  | .country_codes => r.country_codes
  | .sponsor_category => r.sponsor_category
  | .income_level => r.income_level
  | .results_posted => r.results_posted

def Row.set (r : Row) : Col → Cell → Row
  | .date_registration, v => { r with date_registration := v }
  | .date_enrollment, v => { r with date_enrollment := v }
  | .Year, v => { r with Year := v }
  | .inclusion_criteria, v => { r with inclusion_criteria := v }
  | .exclusion_criteria, v => { r with exclusion_criteria := v }
  | .primary_outcome, v => { r with primary_outcome := v }
  | .secondary_outcome, v => { r with secondary_outcome := v }
  | .intervention, v => { r with intervention := v }
  | .target_sample_size, v => { r with target_sample_size := v }
  | .inclusion_age_min, v => { r with inclusion_age_min := v }
  | .inclusion_age_max, v => { r with inclusion_age_max := v }
  | .contact_affiliation, v => { r with contact_affiliation := v }
  | .secondary_sponsor, v => { r with secondary_sponsor := v }
  | .web_address, v => { r with web_address := v }
  | .results_url_link, v => { r with results_url_link := v }
  | .standardised_condition, v => { r with standardised_condition := v }
  | .countries, v => { r with countries := v }
  | .primary_sponsor, v => { r with primary_sponsor := v }
  | .phase, v => { r with phase := v }
  | .study_type, v => { r with study_type := v }
  | .results_ind, v => { r with results_ind := v }
  | .country_codes, v => { r with country_codes := v }
  | .sponsor_category, v => { r with sponsor_category := v }
  | .income_level, v => { r with income_level := v }
  | .results_posted, v => { r with results_posted := v }

/-- A pandas DataFrame: the schema (which columns exist, in order) and the
rows. -/
structure DataFrame where
  cols : List Col
  rows : List Row
deriving DecidableEq

def date_fields : List Col := [.date_registration, .date_enrollment]

def html_fields : List Col :=
  [.inclusion_criteria, .exclusion_criteria, .primary_outcome, .secondary_outcome,
   .intervention]

def sensitive_fields : List Col :=
  [.contact_affiliation, .secondary_sponsor, .web_address, .results_url_link]

def fill_fields : List Col :=
  [.standardised_condition, .countries, .primary_sponsor, .phase, .study_type]

/-- `if field in df.columns: df[field] = df[field].apply(f)`. -/
def mapColIfPresent (df : DataFrame) (c : Col) (f : Cell → Cell) : DataFrame :=
  if c ∈ df.cols then
    { df with rows := df.rows.map (fun r => r.set c (f (r.get c))) }
  else df

/-- An unguarded `df[tgt] = df[src].apply(f)` : pandas raises `KeyError`
when the source column is absent. -/
def deriveCol (df : DataFrame) (src tgt : Col) (f : Cell → Cell) : Except Unit DataFrame :=
  if src ∈ df.cols then
    .ok { cols := if tgt ∈ df.cols then df.cols else df.cols ++ [tgt],
          rows := df.rows.map (fun r => r.set tgt (f (r.get src))) }
  else .error ()

/-! ### Cell-level value transforms -/

/-- Digits of an unsigned decimal after an optional sign: integer part,
optional `'.'` and fractional part, at least one digit in total, nothing
else.  Value as an exact fraction over `10 ^ (number of fractional
digits)`. -/
def parseUnsignedDec (t : List Nat) : Option Q :=
  let ip := t.takeWhile isDigitN
  let r1 := t.drop ip.length
  match r1 with
  | [] => if ip = [] then none else some ⟨digitsToNat ip, 0⟩
  | 46 :: fr =>
    let fp := fr.takeWhile isDigitN
    let r2 := fr.drop fp.length
    if r2 = [] ∧ (ip ≠ [] ∨ fp ≠ []) then
      some ⟨digitsToNat ip * 10 ^ fp.length + digitsToNat fp, 10 ^ fp.length - 1⟩
    else none
  | _ => none

/-- The string side of `pd.to_numeric(·, errors='coerce')`: surrounding
whitespace tolerated, optional sign, plain decimal notation; anything
else coerces to absence. -/
def parseDecimal (s : List Nat) : Option Q :=
  match stripWs s with
  | 43 :: r => parseUnsignedDec r
  | 45 :: r => (parseUnsignedDec r).map (fun q => ⟨-q.n, q.dp⟩)
  | r => parseUnsignedDec r

/-- `pd.to_numeric(·, errors='coerce')` on one cell. -/
def toNumericCell : Cell → Cell
  | .na => .na
  | .num q => .num q
  | .str s =>
    match parseDecimal s with
    | some q => .num q
    | none => .na
  | .bool b => .num ⟨if b then 1 else 0, 0⟩

/-- The row-keeping predicate of the outlier filter:
`isna(v) | ((v > 0) & (v <= 1000000))`.  After coercion only `na`/`num`
cells occur; other constructors are unreachable there. -/
def keepSS : Cell → Bool
  | .na => true
  | .num q => Q.ltB ⟨0, 0⟩ q && Q.leB q ⟨1000000, 0⟩
  | _ => false

/-! ### Date parsing (`pd.to_datetime(format='%Y-%m-%d', errors='coerce')`
followed by `strftime('%Y-%m-%d')`). -/

/-- Decimal digit code points of `n`, most significant first (fuel-driven;
any fuel above `n` is enough since the argument shrinks by division). -/
def natDigitsF : Nat → Nat → List Nat
  | 0, _ => []
  | f + 1, n => if n = 0 then [] else natDigitsF f (n / 10) ++ [n % 10 + 48]

def natDigits (n : Nat) : List Nat := if n = 0 then [48] else natDigitsF (n + 1) n

/-- Zero-pad to `k` digits (`%Y` / `%m` / `%d` rendering). -/
def padDigits (k n : Nat) : List Nat :=
  List.replicate (k - (natDigits n).length) 48 ++ natDigits n

def daysInMonth (y m : Nat) : Nat :=
  if m = 2 then (if (y % 4 = 0 ∧ y % 100 ≠ 0) ∨ y % 400 = 0 then 29 else 28)
  else if m = 4 ∨ m = 6 ∨ m = 9 ∨ m = 11 then 30 else 31

/-- `strptime`-style `%Y-%m-%d`: exactly four year digits, one or two month
and day digits, full-string match, calendar validation. -/
def parseDate (s : List Nat) : Option (Nat × Nat × Nat) :=
  let ys := s.takeWhile isDigitN
  let r1 := s.drop ys.length
  match r1 with
  | 45 :: r2 =>
    let ms := r2.takeWhile isDigitN
    let r3 := r2.drop ms.length
    match r3 with
    | 45 :: r4 =>
      let ds := r4.takeWhile isDigitN
      let r5 := r4.drop ds.length
      if ys.length = 4 ∧ (1 ≤ ms.length ∧ ms.length ≤ 2) ∧ (1 ≤ ds.length ∧ ds.length ≤ 2)
          ∧ r5 = [] then
        let y := digitsToNat ys
        let m := digitsToNat ms
        let d := digitsToNat ds
        if 1 ≤ y ∧ 1 ≤ m ∧ m ≤ 12 ∧ 1 ≤ d ∧ d ≤ daysInMonth y m then some (y, m, d)
        else none
      else none
    | _ => none
  | _ => none

def formatDate (ymd : Nat × Nat × Nat) : List Nat :=
  padDigits 4 ymd.1 ++ 45 :: (padDigits 2 ymd.2.1 ++ 45 :: padDigits 2 ymd.2.2)

/-- One cell of
`pd.to_datetime(col, format='%Y-%m-%d', errors='coerce').dt.strftime('%Y-%m-%d')`:
an unparseable or non-string value coerces to absence. -/
def normDateCell : Cell → Cell
  | .str s =>
    match parseDate s with
    | some d => .str (formatDate d)
    | none => .na
  | _ => .na

/-- One cell of
`pd.to_datetime(col, format='%Y-%m-%d', errors='coerce').dt.year`. -/
def yearCell : Cell → Cell
  | .str s =>
    match parseDate s with
    | some d => .num ⟨(d.1 : Int), 0⟩
    | none => .na
  | _ => .na

/-- `validate_age` on one cell.  A numeric cell is rendered by Python's
`str()` before the digit scan, which exposes the digits of its integer
part and no unit letter, so the default 0-120 rule applies to
`floor(abs(value))`; `str(True)`/`str(False)` contain no digit, so
boolean cells are vacuously valid. -/
def validateAgeCell : Cell → Bool
  | .na => true
  | .str s => validate_age (some s)
  | .num q => decide (q.n.natAbs / (q.dp + 1) ≤ 120)
  | .bool _ => true

/-- `clean_html_tags` on one cell.  The five text columns only ever hold
strings or `NaN`; a numeric or boolean cell (which Python would first
stringify) is left unchanged. -/
def cleanHtmlCell : Cell → Cell
  | .na => .na
  | .str s =>
    match clean_html_tags (some s) with
    | some t => .str t
    | none => .na
  | c => c

/-- `classify_categories` on one cell.  `str()` of a number or boolean is
nonempty, is not "UNKNOWN", and contains no keyword letter sequence, so
such cells classify as Other. -/
def classifyCell : Cell → Cell
  | .na => .str (strL (r"Unknown"))
  | .str s => .str (classify_categories_str s)
  | _ => .str (strL (r"Other"))

/-- `map_income` on one cell.  `str()` of a number or boolean is never an
income-table code, so such cells map to Unknown. -/
def mapIncomeCell : Cell → Cell
  | .na => .str (strL (r"Unknown"))
  | .str s => .str (map_income_str s)
  | _ => .str (strL (r"Unknown"))

/-- One cell of `df["results_ind"].str.upper().str.strip() == "YES"`: the
`.str` accessor yields `NaN` on non-string values and `NaN == "YES"` is
false. -/
def resultsPostedCell : Cell → Cell
  | .str s => .bool (stripWs (upperStr s) == strL (r"YES"))
  | _ => .bool false

/-- `Series.fillna(v)` on one cell. -/
def fillCell (c v : Cell) : Cell :=
  match c with
  | .na => v
  | c => c

/-! ### The pipeline steps (module level of CleanData.py, in source order) -/

/-- Lines 49-52: normalize the two date columns when present. -/
def normalizeDatesStep (df : DataFrame) : DataFrame :=
  date_fields.foldl (fun d c => mapColIfPresent d c normDateCell) df

/-- Line 55 (unguarded): `df["Year"] = to_datetime(df["date_registration"]).dt.year`. -/
def deriveYearStep (df : DataFrame) : Except Unit DataFrame :=
  deriveCol df .date_registration .Year yearCell

/-- Lines 73-76: strip markup from the five text columns when present. -/
def markupStep (df : DataFrame) : DataFrame :=
  html_fields.foldl (fun d c => mapColIfPresent d c cleanHtmlCell) df

/-- Lines 82-88: coerce `target_sample_size` to numeric and keep a row iff
the value is absent or in `(0, 1000000]`; also report the number of
dropped rows. -/
def filterSampleSizeOutliers (df : DataFrame) : DataFrame × Nat :=
  if Col.target_sample_size ∈ df.cols then
    let coerced := df.rows.map
      (fun r => r.set .target_sample_size (toNumericCell (r.get .target_sample_size)))
    let kept := coerced.filter (fun r => keepSS (r.get .target_sample_size))
    ({ df with rows := kept }, coerced.length - kept.length)
  else (df, 0)

/-- Lines 113-118: keep the rows whose two age descriptors both validate,
when both columns are present. -/
def ageFilterStep (df : DataFrame) : DataFrame :=
  if Col.inclusion_age_min ∈ df.cols ∧ Col.inclusion_age_max ∈ df.cols then
    let r1 := df.rows.filter (fun r => validateAgeCell (r.get .inclusion_age_min))
    { df with rows := r1.filter (fun r => validateAgeCell (r.get .inclusion_age_max)) }
  else df

/-- Lines 123-128: drop the four sensitive columns that are present. -/
def dropFieldsStep (df : DataFrame) : DataFrame :=
  { df with cols := df.cols.filter (fun c => decide (c ∉ sensitive_fields)) }

/-- Lines 134-137: fill the five categorical columns with "Unknown". -/
def fillUnknownStep (df : DataFrame) : DataFrame :=
  fill_fields.foldl (fun d c => mapColIfPresent d c (fun v => fillCell v (.str (strL (r"Unknown"))))) df

/-- Lines 140-141: fill `results_ind` with "No". -/
def fillResultsIndStep (df : DataFrame) : DataFrame :=
  mapColIfPresent df .results_ind (fun v => fillCell v (.str (strL (r"No"))))

def presentTss (rows : List Row) : List Q :=
  rows.filterMap (fun r =>
    match r.get .target_sample_size with
    | Cell.num q => some q
    | _ => none)

/-- Lines 144-147: impute the missing sample sizes with the median of the
currently present ones (`fillna(NaN)` when no value is present, which
changes nothing). -/
def imputeMedianStep (df : DataFrame) : DataFrame :=
  if Col.target_sample_size ∈ df.cols then
    let m := medianQ (presentTss df.rows)
    { df with rows := df.rows.map (fun r => r.set .target_sample_size
        (match r.get .target_sample_size, m with
         | Cell.na, some q => Cell.num q
         | c, _ => c)) }
  else df

/-- Line 150 (unguarded source column). -/
def sponsorStep (df : DataFrame) : Except Unit DataFrame :=
  deriveCol df .primary_sponsor .sponsor_category classifyCell

/-- Line 151 (unguarded source column). -/
def incomeStep (df : DataFrame) : Except Unit DataFrame :=
  deriveCol df .country_codes .income_level mapIncomeCell

/-- Line 200 (unguarded source column). -/
def resultsPostedStep (df : DataFrame) : Except Unit DataFrame :=
  deriveCol df .results_ind .results_posted resultsPostedCell

/-- Line 201: `published_df = df[df["results_posted"] == True]`. -/
def publishedOf (df : DataFrame) : DataFrame :=
  { df with rows := df.rows.filter (fun r => r.get .results_posted == Cell.bool true) }

/-- The table state after outlier filtering (steps 1-4 of the source
order: dates, Year, markup, sample-size filter). -/
def postFilterStage (df : DataFrame) : Except Unit DataFrame :=
  (deriveYearStep (normalizeDatesStep df)).map
    (fun d2 => (filterSampleSizeOutliers (markupStep d2)).1)

/-- The table state after the default fills (just before median
imputation). -/
def postFillStage (df : DataFrame) : Except Unit DataFrame :=
  (postFilterStage df).map
    (fun d4 => fillResultsIndStep (fillUnknownStep (dropFieldsStep (ageFilterStep d4))))

/-- The whole in-memory transform of CleanData.py (everything except file
and console output): returns the cleaned table and the published subset,
or an error when an unguarded column access hits a missing column. -/
def cleanPipeline (df : DataFrame) : Except Unit (DataFrame × DataFrame) := do
  let d8 ← postFillStage df
  let d10 ← sponsorStep (imputeMedianStep d8)
  let d11 ← incomeStep d10
  let d12 ← resultsPostedStep d11
  return (d12, publishedOf d12)

/-- The pipeline result with the error case squashed to empty tables
(used only to state concrete-input facts conveniently). -/
def runClean (df : DataFrame) : DataFrame × DataFrame :=
  match cleanPipeline df with
  | .ok x => x
  | .error _ => (⟨[], []⟩, ⟨[], []⟩)

/-! ### Concrete example tables (used by the witnesses below) -/

def rowA : Row :=
  { date_registration := .str (strL (r"2020-01-15")),
    primary_sponsor := .str (strL (r"National Institute of Health")),
    country_codes := .str (strL (r"USA")),
    target_sample_size := .str (strL (r"500")),
    results_ind := .str (strL (r"Yes")),
    inclusion_age_min := .str (strL (r"18 years")),
    inclusion_age_max := .str (strL (r"65 years")) }

def rowB : Row :=
  { date_registration := .str (strL (r"2021-02-28")),
    target_sample_size := .str (strL (r"2000000")),
    results_ind := .str (strL (r"No")) }

def rowC : Row := {}

def dfEx : DataFrame :=
  { cols := [.date_registration, .primary_sponsor, .country_codes, .target_sample_size,
             .results_ind, .inclusion_age_min, .inclusion_age_max, .web_address],
    rows := [rowA, rowB, rowC] }


/-! ### Destructuring a successful pipeline run -/

theorem deriveCol_ok {df d : DataFrame} {src tgt : Col} {f : Cell → Cell}
    (h : deriveCol df src tgt f = .ok d) :
    src ∈ df.cols ∧
    d.cols = (if tgt ∈ df.cols then df.cols else df.cols ++ [tgt]) ∧
    d.rows = df.rows.map (fun r => r.set tgt (f (r.get src))) := by
  unfold deriveCol at h
  by_cases hs : src ∈ df.cols
  · rw [if_pos hs] at h
    injection h with h
    rw [← h]
    exact ⟨hs, rfl, rfl⟩
  · rw [if_neg hs] at h
    exact absurd h (by simp)

theorem cleanPipeline_ok_destruct {df t p : DataFrame}
    (h : cleanPipeline df = .ok (t, p)) :
    ∃ d8 d10 d11, postFillStage df = .ok d8 ∧
      sponsorStep (imputeMedianStep d8) = .ok d10 ∧
      incomeStep d10 = .ok d11 ∧
      resultsPostedStep d11 = .ok t ∧ p = publishedOf t := by
  unfold cleanPipeline at h
  cases h8 : postFillStage df with
  | error e => rw [h8] at h; simp [Bind.bind, Except.bind] at h
  | ok d8 =>
    rw [h8] at h
    simp only [Bind.bind, Except.bind] at h
    cases h10 : sponsorStep (imputeMedianStep d8) with
    | error e => rw [h10] at h; simp at h
    | ok d10 =>
      rw [h10] at h
      dsimp only at h
      cases h11 : incomeStep d10 with
      | error e => rw [h11] at h; simp at h
      | ok d11 =>
        rw [h11] at h
        dsimp only at h
        cases h12 : resultsPostedStep d11 with
        | error e => rw [h12] at h; simp at h
        | ok d12 =>
          rw [h12] at h
          simp only [pure, Except.pure, Except.ok.injEq, Prod.mk.injEq] at h
          obtain ⟨ht, hp⟩ := h
          subst ht
          subst hp
          exact ⟨d8, d10, d11, rfl, h10, h11, h12, rfl⟩

/-- Claim C2 counterexample: on a table with no columns at all, the Year
derivation (and with it the whole pipeline) fails with an error instead of
no-opping, because `df["date_registration"]` is accessed without a
presence guard; the other three unguarded derivations fail likewise. -/
theorem derive_missing_column_fails :
    deriveYearStep ⟨[], []⟩ = .error () ∧
    sponsorStep ⟨[], []⟩ = .error () ∧
    incomeStep ⟨[], []⟩ = .error () ∧
    resultsPostedStep ⟨[], []⟩ = .error () ∧
    cleanPipeline ⟨[], []⟩ = .error () :=
  ⟨rfl, rfl, rfl, rfl, rfl⟩

/-- Claim C2 (amended): every guarded transform of the pipeline (date
normalization, markup stripping, sample-size outlier filter, age filter,
sensitive-field drop, categorical and results_ind fills, median
imputation) no-ops and leaves the table unchanged when its target columns
are absent; but the four unguarded derivations — Year, sponsor_category,
income_level and results_posted — fail with an error when their source
column (date_registration, primary_sponsor, country_codes, results_ind
respectively) is absent. -/
theorem column_guard_behavior :
    (∀ df : DataFrame, (∀ c ∈ date_fields, c ∉ df.cols) → normalizeDatesStep df = df) ∧
    (∀ df : DataFrame, (∀ c ∈ html_fields, c ∉ df.cols) → markupStep df = df) ∧
    (∀ df : DataFrame, Col.target_sample_size ∉ df.cols →
      filterSampleSizeOutliers df = (df, 0)) ∧
    (∀ df : DataFrame, Col.inclusion_age_min ∉ df.cols ∨ Col.inclusion_age_max ∉ df.cols →
      ageFilterStep df = df) ∧
    (∀ df : DataFrame, (∀ c ∈ sensitive_fields, c ∉ df.cols) → dropFieldsStep df = df) ∧
    (∀ df : DataFrame, (∀ c ∈ fill_fields, c ∉ df.cols) → fillUnknownStep df = df) ∧
    (∀ df : DataFrame, Col.results_ind ∉ df.cols → fillResultsIndStep df = df) ∧
    (∀ df : DataFrame, Col.target_sample_size ∉ df.cols → imputeMedianStep df = df) ∧
    (∀ df : DataFrame, Col.date_registration ∉ df.cols → deriveYearStep df = .error ()) ∧
    (∀ df : DataFrame, Col.primary_sponsor ∉ df.cols → sponsorStep df = .error ()) ∧
    (∀ df : DataFrame, Col.country_codes ∉ df.cols → incomeStep df = .error ()) ∧
    (∀ df : DataFrame, Col.results_ind ∉ df.cols → resultsPostedStep df = .error ()) := by
  refine ⟨?_, ?_, ?_, ?_, ?_, ?_, ?_, ?_, ?_, ?_, ?_, ?_⟩
  · intro df h
    have h1 : Col.date_registration ∉ df.cols := h _ (by simp [date_fields])
    have h2 : Col.date_enrollment ∉ df.cols := h _ (by simp [date_fields])
    simp [normalizeDatesStep, date_fields, mapColIfPresent, h1, h2]
  · intro df h
    have h1 : Col.inclusion_criteria ∉ df.cols := h _ (by simp [html_fields])
    have h2 : Col.exclusion_criteria ∉ df.cols := h _ (by simp [html_fields])
    have h3 : Col.primary_outcome ∉ df.cols := h _ (by simp [html_fields])
    have h4 : Col.secondary_outcome ∉ df.cols := h _ (by simp [html_fields])
    have h5 : Col.intervention ∉ df.cols := h _ (by simp [html_fields])
    simp [markupStep, html_fields, mapColIfPresent, h1, h2, h3, h4, h5]
  · intro df h
    simp [filterSampleSizeOutliers, h]
  · intro df h
    have hc : ¬(Col.inclusion_age_min ∈ df.cols ∧ Col.inclusion_age_max ∈ df.cols) := by
      tauto
    simp [ageFilterStep, hc]
  · intro df h
    obtain ⟨cols, rows⟩ := df
    simp only [dropFieldsStep, DataFrame.mk.injEq, and_true]
    rw [List.filter_eq_self]
    intro c hc
    simp only [decide_eq_true_eq]
    intro hs
    exact h c hs hc
  · intro df h
    have h1 : Col.standardised_condition ∉ df.cols := h _ (by simp [fill_fields])
    have h2 : Col.countries ∉ df.cols := h _ (by simp [fill_fields])
    have h3 : Col.primary_sponsor ∉ df.cols := h _ (by simp [fill_fields])
    have h4 : Col.phase ∉ df.cols := h _ (by simp [fill_fields])
    have h5 : Col.study_type ∉ df.cols := h _ (by simp [fill_fields])
    simp [fillUnknownStep, fill_fields, mapColIfPresent, h1, h2, h3, h4, h5]
  · intro df h
    simp [fillResultsIndStep, mapColIfPresent, h]
  · intro df h
    simp [imputeMedianStep, h]
  · intro df h
    simp [deriveYearStep, deriveCol, h]
  · intro df h
    simp [sponsorStep, deriveCol, h]
  · intro df h
    simp [incomeStep, deriveCol, h]
  · intro df h
    simp [resultsPostedStep, deriveCol, h]

theorem column_guard_behavior_witness :
    normalizeDatesStep ⟨[], []⟩ = ⟨[], []⟩ ∧
    markupStep ⟨[], []⟩ = ⟨[], []⟩ ∧
    filterSampleSizeOutliers ⟨[], []⟩ = (⟨[], []⟩, 0) ∧
    ageFilterStep ⟨[], []⟩ = ⟨[], []⟩ ∧
    dropFieldsStep ⟨[], []⟩ = ⟨[], []⟩ ∧
    fillUnknownStep ⟨[], []⟩ = ⟨[], []⟩ ∧
    fillResultsIndStep ⟨[], []⟩ = ⟨[], []⟩ ∧
    imputeMedianStep ⟨[], []⟩ = ⟨[], []⟩ ∧
    deriveYearStep ⟨[], []⟩ = .error () ∧
    sponsorStep ⟨[], []⟩ = .error () ∧
    incomeStep ⟨[], []⟩ = .error () ∧
    resultsPostedStep ⟨[], []⟩ = .error () :=
  ⟨column_guard_behavior.1 _ (by decide),
   column_guard_behavior.2.1 _ (by decide),
   column_guard_behavior.2.2.1 _ (by decide),
   column_guard_behavior.2.2.2.1 _ (Or.inl (by decide)),
   column_guard_behavior.2.2.2.2.1 _ (by decide),
   column_guard_behavior.2.2.2.2.2.1 _ (by decide),
   column_guard_behavior.2.2.2.2.2.2.1 _ (by decide),
   column_guard_behavior.2.2.2.2.2.2.2.1 _ (by decide),
   column_guard_behavior.2.2.2.2.2.2.2.2.1 _ (by decide),
   column_guard_behavior.2.2.2.2.2.2.2.2.2.1 _ (by decide),
   column_guard_behavior.2.2.2.2.2.2.2.2.2.2.1 _ (by decide),
   column_guard_behavior.2.2.2.2.2.2.2.2.2.2.2 _ (by decide)⟩

def rowTss (v : Int) : Row := { target_sample_size := .num ⟨v, 0⟩ }

def dfTss (v : Int) : DataFrame := ⟨[.target_sample_size], [rowTss v]⟩

/-- Claim C3: with the column present, the outlier filter first coerces
`target_sample_size` to numeric (non-numeric becoming absent) and then
keeps exactly the rows whose value is absent or in `(0, 1000000]`,
dropping the others entirely; hence every surviving row is absent or in
bounds, a row with value 1000001 is dropped and a row with value 1000000
is kept. -/
theorem filter_sample_size_bounds :
    (∀ df : DataFrame, Col.target_sample_size ∈ df.cols →
      (filterSampleSizeOutliers df).1.rows =
        (df.rows.map (fun r =>
          r.set .target_sample_size (toNumericCell (r.get .target_sample_size)))).filter
          (fun r => keepSS (r.get .target_sample_size)) ∧
      ∀ r ∈ (filterSampleSizeOutliers df).1.rows,
        r.get .target_sample_size = Cell.na ∨
        ∃ q, r.get .target_sample_size = Cell.num q ∧
          Q.ltB ⟨0, 0⟩ q = true ∧ Q.leB q ⟨1000000, 0⟩ = true) ∧
    (filterSampleSizeOutliers (dfTss 1000001)).1.rows = [] ∧
    (filterSampleSizeOutliers (dfTss 1000000)).1.rows = [rowTss 1000000] := by
  refine ⟨?_, by decide, by decide⟩
  intro df h
  have hrows : (filterSampleSizeOutliers df).1.rows =
      (df.rows.map (fun r =>
        r.set .target_sample_size (toNumericCell (r.get .target_sample_size)))).filter
        (fun r => keepSS (r.get .target_sample_size)) := by
    simp [filterSampleSizeOutliers, h]
  refine ⟨hrows, ?_⟩
  intro r hr
  rw [hrows] at hr
  have hk : keepSS (r.get .target_sample_size) = true := (List.mem_filter.mp hr).2
  cases hc : r.get .target_sample_size with
  | na => exact Or.inl rfl
  | num q =>
    rw [hc] at hk
    simp only [keepSS, Bool.and_eq_true] at hk
    exact Or.inr ⟨q, rfl, hk.1, hk.2⟩
  | str s => rw [hc] at hk; exact absurd hk (by simp [keepSS])
  | bool b => rw [hc] at hk; exact absurd hk (by simp [keepSS])

theorem filter_sample_size_bounds_witness :
    Col.target_sample_size ∈ (dfTss 500).cols ∧
    ((rowTss 500).get .target_sample_size = Cell.na ∨
      ∃ q, (rowTss 500).get .target_sample_size = Cell.num q ∧
        Q.ltB ⟨0, 0⟩ q = true ∧ Q.leB q ⟨1000000, 0⟩ = true) :=
  ⟨by decide,
   (filter_sample_size_bounds.1 (dfTss 500) (by decide)).2 (rowTss 500) (by decide)⟩

theorem filter_partition_length {α : Type} (p : α → Bool) (l : List α) :
    (l.filter p).length + (l.filter (fun x => !(p x))).length = l.length := by
  induction l with
  | nil => rfl
  | cons x t ih =>
    by_cases hx : p x = true
    · simp [List.filter_cons, hx]
      omega
    · simp only [Bool.not_eq_true] at hx
      simp [List.filter_cons, hx]
      omega

/-- Claim C6: after a successful run the published subset is exactly the
cleaned rows whose results_posted flag is true; results_posted on a string
results_ind holds iff its uppercased, trimmed value is "YES"; and the
published and unpublished counts partition the cleaned count. -/
theorem published_subset_invariant :
    ∀ df t p, cleanPipeline df = .ok (t, p) →
      p = publishedOf t ∧
      p.rows = t.rows.filter (fun r => r.get .results_posted == Cell.bool true) ∧
      (∀ r ∈ p.rows, r.get .results_posted = Cell.bool true) ∧
      p.rows.length +
        (t.rows.filter (fun r => !(r.get .results_posted == Cell.bool true))).length =
        t.rows.length ∧
      (∀ r ∈ t.rows, r.get .results_posted = resultsPostedCell (r.get .results_ind)) ∧
      (∀ r ∈ t.rows, ∀ s, r.get .results_ind = Cell.str s →
        (r.get .results_posted = Cell.bool true ↔ stripWs (upperStr s) = strL (r"YES"))) := by
  intro df t p h
  obtain ⟨d8, d10, d11, h8, h10, h11, h12, hp⟩ := cleanPipeline_ok_destruct h
  obtain ⟨hsrc, hcols, hrows⟩ := deriveCol_ok h12
  have hposted : ∀ r ∈ t.rows, r.get .results_posted = resultsPostedCell (r.get .results_ind) := by
    intro r hr
    rw [hrows] at hr
    obtain ⟨r0, _, rfl⟩ := List.mem_map.mp hr
    rfl
  refine ⟨hp, by rw [hp]; rfl, ?_, ?_, hposted, ?_⟩
  · intro r hr
    rw [hp] at hr
    have := (List.mem_filter.mp hr).2
    simpa using this
  · have := filter_partition_length
      (fun r => r.get .results_posted == Cell.bool true) t.rows
    rw [hp]
    exact this
  · intro r hr s hs
    rw [hposted r hr, hs]
    simp [resultsPostedCell]

theorem published_subset_invariant_witness :
    (runClean dfEx).2 = publishedOf (runClean dfEx).1 ∧
    (runClean dfEx).2.rows.length +
      ((runClean dfEx).1.rows.filter
        (fun r => !(r.get .results_posted == Cell.bool true))).length =
      (runClean dfEx).1.rows.length :=
  have h := published_subset_invariant dfEx (runClean dfEx).1 (runClean dfEx).2 rfl
  ⟨h.1, h.2.2.2.1⟩

/-! ### Row get/set algebra -/

theorem Row.get_set_self (r : Row) (c : Col) (v : Cell) : (r.set c v).get c = v := by
  cases c <;> rfl

theorem Row.set_get_self (r : Row) (c : Col) : r.set c (r.get c) = r := by
  cases c <;> rfl

theorem Row.get_set_ne (r : Row) (v : Cell) {c c' : Col} (h : c ≠ c') :
    (r.set c v).get c' = r.get c' := by
  cases c <;> cases c' <;> first | rfl | exact absurd rfl h

/-! ### Median imputation (claims C8 and C10) -/

theorem rowsProp_mapColIfPresent (P : Row → Prop) {d : DataFrame} {c : Col} {f : Cell → Cell}
    (hP : ∀ r, P r → P (r.set c (f (r.get c))))
    (h : ∀ r ∈ d.rows, P r) : ∀ r ∈ (mapColIfPresent d c f).rows, P r := by
  intro r hr
  unfold mapColIfPresent at hr
  by_cases hc : c ∈ d.cols
  · rw [if_pos hc] at hr
    simp only [List.mem_map] at hr
    obtain ⟨r0, hr0, rfl⟩ := hr
    exact hP r0 (h r0 hr0)
  · rw [if_neg hc] at hr
    exact h r hr

theorem presentTss_map (g : Row → Row)
    (hg : ∀ r, (g r).get .target_sample_size = r.get .target_sample_size)
    (rows : List Row) : presentTss (rows.map g) = presentTss rows := by
  unfold presentTss
  rw [List.filterMap_map]
  congr 1
  funext r
  simp only [Function.comp_apply, hg r]

theorem presentTss_mapColIfPresent {d : DataFrame} {c : Col} {f : Cell → Cell}
    (hc : c ≠ Col.target_sample_size) :
    presentTss ((mapColIfPresent d c f).rows) = presentTss d.rows := by
  unfold mapColIfPresent
  by_cases hm : c ∈ d.cols
  · rw [if_pos hm]
    exact presentTss_map _ (fun r => Row.get_set_ne r _ hc) d.rows
  · rw [if_neg hm]

theorem fillUnknownStep_eq (d : DataFrame) :
    fillUnknownStep d =
      mapColIfPresent (mapColIfPresent (mapColIfPresent (mapColIfPresent (mapColIfPresent d
        .standardised_condition (fun v => fillCell v (.str (strL (r"Unknown")))))
        .countries (fun v => fillCell v (.str (strL (r"Unknown")))))
        .primary_sponsor (fun v => fillCell v (.str (strL (r"Unknown")))))
        .phase (fun v => fillCell v (.str (strL (r"Unknown")))))
        .study_type (fun v => fillCell v (.str (strL (r"Unknown")))) := rfl

theorem fill_preserves_presentTss (d : DataFrame) :
    presentTss ((fillResultsIndStep (fillUnknownStep d)).rows) = presentTss d.rows := by
  rw [fillResultsIndStep, fillUnknownStep_eq]
  rw [presentTss_mapColIfPresent (by decide), presentTss_mapColIfPresent (by decide),
    presentTss_mapColIfPresent (by decide), presentTss_mapColIfPresent (by decide),
    presentTss_mapColIfPresent (by decide), presentTss_mapColIfPresent (by decide)]

/-- Claim C8: with the column present, the imputation step gives every row
whose target_sample_size is absent the median of the values present in
its input table and leaves rows with a present value unchanged; the
preceding default fills do not change the pool of present values, and the
pipeline runs this step exactly once, between the fill stage and the
category derivations. -/
theorem median_imputation :
    (∀ df : DataFrame, Col.target_sample_size ∈ df.cols →
      ∀ i r, df.rows.get? i = some r →
        (∀ m, medianQ (presentTss df.rows) = some m →
          r.get .target_sample_size = Cell.na →
          (imputeMedianStep df).rows.get? i =
            some (r.set .target_sample_size (Cell.num m))) ∧
        (∀ q, r.get .target_sample_size = Cell.num q →
          (imputeMedianStep df).rows.get? i = some r)) ∧
    (∀ df : DataFrame, presentTss ((fillResultsIndStep (fillUnknownStep df)).rows) =
      presentTss df.rows) ∧
    (cleanPipeline = fun df => (postFillStage df).bind fun d8 =>
      (sponsorStep (imputeMedianStep d8)).bind fun d10 =>
      (incomeStep d10).bind fun d11 =>
      (resultsPostedStep d11).bind fun d12 => Except.ok (d12, publishedOf d12)) := by
  refine ⟨?_, fill_preserves_presentTss, rfl⟩
  intro df hcol i r hi
  have hrows : (imputeMedianStep df).rows = df.rows.map (fun r =>
      r.set .target_sample_size
        (match r.get .target_sample_size, medianQ (presentTss df.rows) with
         | Cell.na, some q => Cell.num q
         | c, _ => c)) := by
    simp [imputeMedianStep, hcol]
  constructor
  · intro m hm hna
    rw [hrows, List.get?_map, hi]
    simp only [Option.map_some']
    rw [hna, hm]
  · intro q hq
    rw [hrows, List.get?_map, hi]
    simp only [Option.map_some']
    rw [hq]
    have : (match Cell.num q, medianQ (presentTss df.rows) with
       | Cell.na, some q => Cell.num q
       | c, _ => c) = Cell.num q := by
      cases medianQ (presentTss df.rows) <;> rfl
    rw [this, ← hq, Row.set_get_self]

def dfMedEx : DataFrame := ⟨[.target_sample_size], [rowTss 10, {}]⟩

theorem median_imputation_witness :
    (imputeMedianStep dfMedEx).rows.get? 1 =
      some (Row.set {} .target_sample_size (Cell.num ⟨10, 0⟩)) ∧
    (imputeMedianStep dfMedEx).rows.get? 0 = some (rowTss 10) :=
  ⟨((median_imputation.1 dfMedEx (by decide) 1 {} (by decide)).1 ⟨10, 0⟩ (by decide) rfl),
   ((median_imputation.1 dfMedEx (by decide) 0 (rowTss 10) (by decide)).2 ⟨10, 0⟩ rfl)⟩

theorem presentTss_eq_nil {rows : List Row}
    (h : ∀ r ∈ rows, r.get .target_sample_size = Cell.na) : presentTss rows = [] := by
  unfold presentTss
  rw [List.filterMap_eq_nil]
  intro r hr
  rw [h r hr]

theorem mem_ageFilter {d : DataFrame} {r : Row} (hr : r ∈ (ageFilterStep d).rows) :
    r ∈ d.rows := by
  unfold ageFilterStep at hr
  by_cases hc : Col.inclusion_age_min ∈ d.cols ∧ Col.inclusion_age_max ∈ d.cols
  · rw [if_pos hc] at hr
    exact (List.mem_filter.mp ((List.mem_filter.mp hr).1)).1
  · rw [if_neg hc] at hr
    exact hr

/-- The tss-is-absent property survives the fill steps. -/
theorem tssNa_fills {d : DataFrame}
    (h : ∀ r ∈ d.rows, r.get .target_sample_size = Cell.na) :
    ∀ r ∈ (fillResultsIndStep (fillUnknownStep d)).rows,
      r.get .target_sample_size = Cell.na := by
  rw [fillResultsIndStep, fillUnknownStep_eq]
  have step : ∀ (c : Col) (f : Cell → Cell), c ≠ Col.target_sample_size →
      ∀ (d0 : DataFrame), (∀ r ∈ d0.rows, r.get .target_sample_size = Cell.na) →
      ∀ r ∈ (mapColIfPresent d0 c f).rows, r.get .target_sample_size = Cell.na := by
    intro c f hc d0 h0
    refine rowsProp_mapColIfPresent (fun r => r.get .target_sample_size = Cell.na)
      (fun r hr => ?_) h0
    show (r.set c (f (r.get c))).get .target_sample_size = Cell.na
    rw [Row.get_set_ne r _ hc]
    exact hr
  exact step _ _ (by decide) _ (step _ _ (by decide) _ (step _ _ (by decide) _
    (step _ _ (by decide) _ (step _ _ (by decide) _ (step _ _ (by decide) _ h)))))

/-- Claim C10: if no row has a present target_sample_size, the median is
undefined and the imputation step changes nothing; consequently, when
after outlier filtering no present value exists, every row of the cleaned
output still has an absent target_sample_size. -/
theorem median_all_absent_noop :
    (∀ df : DataFrame, (∀ r ∈ df.rows, r.get .target_sample_size = Cell.na) →
      imputeMedianStep df = df) ∧
    (∀ df d4 t p, postFilterStage df = .ok d4 →
      (∀ r ∈ d4.rows, r.get .target_sample_size = Cell.na) →
      cleanPipeline df = .ok (t, p) →
      ∀ r ∈ t.rows, r.get .target_sample_size = Cell.na) := by
  have part1 : ∀ df : DataFrame, (∀ r ∈ df.rows, r.get .target_sample_size = Cell.na) →
      imputeMedianStep df = df := by
    intro df h
    unfold imputeMedianStep
    by_cases hc : Col.target_sample_size ∈ df.cols
    · rw [if_pos hc]
      obtain ⟨cols, rows⟩ := df
      simp only [DataFrame.mk.injEq, true_and]
      rw [presentTss_eq_nil h]
      have : ∀ r ∈ rows, (r.set Col.target_sample_size
          (match r.get Col.target_sample_size, medianQ [] with
           | Cell.na, some q => Cell.num q
           | c, _ => c)) = r := by
        intro r _
        have hmatch : (match r.get Col.target_sample_size, medianQ [] with
           | Cell.na, some q => Cell.num q
           | c, _ => c) = r.get Col.target_sample_size := by
          cases r.get Col.target_sample_size <;> rfl
        rw [hmatch, Row.set_get_self]
      rw [List.map_congr_left this]
      exact List.map_id rows
    · rw [if_neg hc]
  refine ⟨part1, ?_⟩
  intro df d4 t p h4 hna h
  obtain ⟨d8, d10, d11, h8, h10, h11, h12, hp⟩ := cleanPipeline_ok_destruct h
  have hd8 : d8 = fillResultsIndStep (fillUnknownStep (dropFieldsStep (ageFilterStep d4))) := by
    unfold postFillStage at h8
    rw [h4] at h8
    simp only [Except.map, Except.ok.injEq] at h8
    exact h8.symm
  have hna8 : ∀ r ∈ d8.rows, r.get .target_sample_size = Cell.na := by
    rw [hd8]
    apply tssNa_fills
    intro r hr
    have hr2 : r ∈ (ageFilterStep d4).rows := hr
    exact hna r (mem_ageFilter hr2)
  have himp : imputeMedianStep d8 = d8 := part1 d8 hna8
  obtain ⟨_, _, hrows10⟩ := deriveCol_ok h10
  rw [himp] at hrows10
  have hna10 : ∀ r ∈ d10.rows, r.get .target_sample_size = Cell.na := by
    rw [hrows10]
    intro r hr
    obtain ⟨r0, hr0, rfl⟩ := List.mem_map.mp hr
    rw [Row.get_set_ne r0 _ (by decide)]
    exact hna8 r0 hr0
  obtain ⟨_, _, hrows11⟩ := deriveCol_ok h11
  have hna11 : ∀ r ∈ d11.rows, r.get .target_sample_size = Cell.na := by
    rw [hrows11]
    intro r hr
    obtain ⟨r0, hr0, rfl⟩ := List.mem_map.mp hr
    rw [Row.get_set_ne r0 _ (by decide)]
    exact hna10 r0 hr0
  obtain ⟨_, _, hrows12⟩ := deriveCol_ok h12
  rw [hrows12]
  intro r hr
  obtain ⟨r0, hr0, rfl⟩ := List.mem_map.mp hr
  rw [Row.get_set_ne r0 _ (by decide)]
  exact hna11 r0 hr0

def dfAllNaTss : DataFrame :=
  ⟨[.date_registration, .primary_sponsor, .country_codes, .results_ind, .target_sample_size],
   [{}]⟩

def runPostFilter (df : DataFrame) : DataFrame :=
  match postFilterStage df with
  | .ok d => d
  | .error _ => ⟨[], []⟩

theorem median_all_absent_noop_witness :
    imputeMedianStep ⟨[Col.target_sample_size], [{}]⟩ = ⟨[Col.target_sample_size], [{}]⟩ ∧
    ((runClean dfAllNaTss).1.rows.headD {}).get .target_sample_size = Cell.na :=
  ⟨median_all_absent_noop.1 _ (by decide),
   median_all_absent_noop.2 dfAllNaTss (runPostFilter dfAllNaTss) (runClean dfAllNaTss).1
     (runClean dfAllNaTss).2 rfl (by decide) rfl _ (by decide)⟩

/-! ### Idempotence of the pipeline (claim C9): median bounds -/

theorem mem_insertQ {x y : Q} : ∀ {l : List Q}, x ∈ insertQ y l → x = y ∨ x ∈ l := by
  intro l
  induction l with
  | nil => intro h; simp [insertQ] at h; exact Or.inl h
  | cons z t ih =>
    intro h
    simp only [insertQ] at h
    by_cases hle : Q.leB y z = true
    · rw [if_pos hle] at h
      rcases List.mem_cons.mp h with h | h
      · exact Or.inl h
      · exact Or.inr h
    · rw [if_neg hle] at h
      rcases List.mem_cons.mp h with h | h
      · exact Or.inr (by simp [h])
      · rcases ih h with h | h
        · exact Or.inl h
        · exact Or.inr (by simp [h])

theorem mem_sortQ {x : Q} : ∀ {l : List Q}, x ∈ sortQ l → x ∈ l := by
  intro l
  induction l with
  | nil => intro h; simp [sortQ] at h
  | cons z t ih =>
    intro h
    simp only [sortQ] at h
    rcases mem_insertQ h with h | h
    · simp [h]
    · exact List.mem_cons.mpr (Or.inr (ih h))

theorem getDQ_mem : ∀ (l : List Q) (i : Nat) (d : Q), i < l.length → l.getD i d ∈ l := by
  intro l
  induction l with
  | nil => intro i d h; simp at h
  | cons x t ih =>
    intro i d h
    cases i with
    | zero => simp [List.getD]
    | succ j =>
      have : t.getD j d ∈ t := ih j d (by simp at h; omega)
      simp only [List.getD_cons_succ]
      exact List.mem_cons.mpr (Or.inr this)

theorem length_insertQ (x : Q) : ∀ (l : List Q), (insertQ x l).length = l.length + 1 := by
  intro l
  induction l with
  | nil => rfl
  | cons y t ih =>
    simp only [insertQ]
    by_cases h : Q.leB x y = true
    · rw [if_pos h]
      rfl
    · rw [if_neg h]
      simp [ih]

theorem length_sortQ : ∀ (l : List Q), (sortQ l).length = l.length := by
  intro l
  induction l with
  | nil => rfl
  | cons x t ih =>
    simp only [sortQ, length_insertQ, ih, List.length_cons]

theorem avg_bounds {a b : Q}
    (ha0 : Q.ltB ⟨0, 0⟩ a = true) (haM : Q.leB a ⟨1000000, 0⟩ = true)
    (hb0 : Q.ltB ⟨0, 0⟩ b = true) (hbM : Q.leB b ⟨1000000, 0⟩ = true) :
    Q.ltB ⟨0, 0⟩ (Q.div2 (Q.add a b)) = true ∧
    Q.leB (Q.div2 (Q.add a b)) ⟨1000000, 0⟩ = true := by
  simp only [Q.ltB, Q.leB, Q.den, Q.add, Q.div2, decide_eq_true_eq] at *
  have hden : ((2 * ((a.dp + 1) * (b.dp + 1) - 1) + 1 : Nat) : Int) + 1 =
      2 * ((a.dp : Int) + 1) * ((b.dp : Int) + 1) := by
    have h1 : 1 ≤ (a.dp + 1) * (b.dp + 1) := Nat.one_le_iff_ne_zero.mpr (by positivity)
    have h2 : (2 * ((a.dp + 1) * (b.dp + 1) - 1) + 1 + 1 : Nat) =
        2 * ((a.dp + 1) * (b.dp + 1)) := by omega
    have hInt := congrArg (fun n : Nat => (n : Int)) h2
    push_cast at hInt
    push_cast
    linear_combination hInt
  rw [hden]
  have hda : (0 : Int) < (a.dp : Int) + 1 := by positivity
  have hdb : (0 : Int) < (b.dp : Int) + 1 := by positivity
  simp only [zero_mul, mul_one] at ha0 haM hb0 hbM ⊢
  constructor
  · nlinarith
  · nlinarith

theorem medianQ_bounds {l : List Q} {m : Q}
    (h : ∀ x ∈ l, Q.ltB ⟨0, 0⟩ x = true ∧ Q.leB x ⟨1000000, 0⟩ = true)
    (hm : medianQ l = some m) :
    Q.ltB ⟨0, 0⟩ m = true ∧ Q.leB m ⟨1000000, 0⟩ = true := by
  match l with
  | [] => simp [medianQ] at hm
  | x :: t =>
    have hsmem : ∀ y ∈ sortQ (x :: t), Q.ltB ⟨0, 0⟩ y = true ∧ Q.leB y ⟨1000000, 0⟩ = true :=
      fun y hy => h y (mem_sortQ hy)
    have hslen : 0 < (sortQ (x :: t)).length := by
      rw [length_sortQ]
      simp
    simp only [medianQ] at hm
    by_cases hpar : (sortQ (x :: t)).length % 2 = 1
    · rw [if_pos hpar] at hm
      injection hm with hm
      rw [← hm]
      exact hsmem _ (getDQ_mem _ _ _ (by omega))
    · rw [if_neg hpar] at hm
      injection hm with hm
      rw [← hm]
      have h1 := hsmem _ (getDQ_mem (sortQ (x :: t)) ((sortQ (x :: t)).length / 2 - 1) ⟨0, 0⟩
        (by omega))
      have h2 := hsmem _ (getDQ_mem (sortQ (x :: t)) ((sortQ (x :: t)).length / 2) ⟨0, 0⟩
        (by omega))
      exact avg_bounds h1.1 h1.2 h2.1 h2.2

/-! ### Idempotence: date normalization round-trip -/

theorem digitsToNat_append (a b : List Nat) :
    digitsToNat (a ++ b) = b.foldl (fun x c => x * 10 + (c - 48)) (digitsToNat a) := by
  unfold digitsToNat
  rw [List.foldl_append]

theorem natDigitsF_spec : ∀ (fuel n : Nat), n ≤ fuel →
    digitsToNat (natDigitsF fuel n) = n ∧
    (∀ c ∈ natDigitsF fuel n, isDigitN c = true) := by
  intro fuel
  induction fuel with
  | zero =>
    intro n h
    have : n = 0 := by omega
    subst this
    exact ⟨rfl, by simp [natDigitsF]⟩
  | succ f ih =>
    intro n h
    by_cases h0 : n = 0
    · subst h0
      exact ⟨rfl, by simp [natDigitsF]⟩
    · have hdiv : n / 10 ≤ f := by
        have h10 : (1 : Nat) < 10 := by omega
        have hlt := Nat.div_lt_self (Nat.pos_of_ne_zero h0) h10
        omega
      obtain ⟨ihv, ihd⟩ := ih (n / 10) hdiv
      simp only [natDigitsF, h0, if_false]
      constructor
      · rw [digitsToNat_append, ihv]
        simp only [List.foldl_cons, List.foldl_nil]
        omega
      · intro c hc
        rcases List.mem_append.mp hc with hc | hc
        · exact ihd c hc
        · simp only [List.mem_singleton] at hc
          subst hc
          simp only [isDigitN, decide_eq_true_eq]
          omega

theorem natDigitsF_length : ∀ (fuel n k : Nat), n ≤ fuel → n < 10 ^ k →
    (natDigitsF fuel n).length ≤ k := by
  intro fuel
  induction fuel with
  | zero =>
    intro n k h _
    have : n = 0 := by omega
    subst this
    simp [natDigitsF]
  | succ f ih =>
    intro n k h hk
    by_cases h0 : n = 0
    · subst h0
      simp [natDigitsF]
    · have hk1 : 1 ≤ k := by
        by_contra hc
        have : k = 0 := by omega
        subst this
        simp at hk
        omega
      have h10 : (1 : Nat) < 10 := by omega
      have hdiv : n / 10 ≤ f := by
        have hlt := Nat.div_lt_self (Nat.pos_of_ne_zero h0) h10
        omega
      have hdivk : n / 10 < 10 ^ (k - 1) := by
        rw [Nat.div_lt_iff_lt_mul (by omega)]
        have : 10 ^ (k - 1) * 10 = 10 ^ k := by
          rw [← pow_succ]
          congr 1
          omega
        omega
      have := ih (n / 10) (k - 1) hdiv hdivk
      simp only [natDigitsF, h0, if_false, List.length_append, List.length_cons,
        List.length_nil]
      omega

theorem natDigits_spec (n : Nat) :
    digitsToNat (natDigits n) = n ∧ (∀ c ∈ natDigits n, isDigitN c = true) := by
  unfold natDigits
  by_cases h0 : n = 0
  · subst h0
    exact ⟨rfl, by decide⟩
  · rw [if_neg h0]
    exact natDigitsF_spec (n + 1) n (by omega)

theorem natDigits_length_le {n k : Nat} (hk : 1 ≤ k) (h : n < 10 ^ k) :
    (natDigits n).length ≤ k := by
  unfold natDigits
  by_cases h0 : n = 0
  · subst h0
    simp only [if_pos rfl, List.length_singleton]
    exact hk
  · rw [if_neg h0]
    exact natDigitsF_length (n + 1) n k (by omega) h

theorem digitsToNat_replicate_zeros (j : Nat) (ds : List Nat) :
    digitsToNat (List.replicate j 48 ++ ds) = digitsToNat ds := by
  have hz : digitsToNat (List.replicate j 48) = 0 := by
    induction j with
    | zero => rfl
    | succ i ihj =>
      have hstep : digitsToNat (List.replicate (i + 1) 48) = digitsToNat (List.replicate i 48) := by
        rw [List.replicate_succ]
        unfold digitsToNat
        simp only [List.foldl_cons]
      rw [hstep, ihj]
  rw [digitsToNat_append, hz]
  rfl

theorem padDigits_spec {n k : Nat} (hk : 1 ≤ k) (h : n < 10 ^ k) :
    digitsToNat (padDigits k n) = n ∧ (∀ c ∈ padDigits k n, isDigitN c = true) ∧
    (padDigits k n).length = k := by
  unfold padDigits
  refine ⟨?_, ?_, ?_⟩
  · rw [digitsToNat_replicate_zeros]
    exact (natDigits_spec n).1
  · intro c hc
    rcases List.mem_append.mp hc with hc | hc
    · have := List.eq_of_mem_replicate hc
      subst this
      decide
    · exact (natDigits_spec n).2 c hc
  · have := natDigits_length_le hk h
    simp only [List.length_append, List.length_replicate]
    omega

theorem takeWhile_all {p : Nat → Bool} : ∀ {a : List Nat}, (∀ c ∈ a, p c = true) →
    a.takeWhile p = a := by
  intro a
  induction a with
  | nil => intro _; rfl
  | cons c t ih =>
    intro h
    rw [List.takeWhile_cons, if_pos (h c (by simp))]
    rw [ih (fun x hx => h x (by simp [hx]))]

theorem takeWhile_append_stop {p : Nat → Bool} {x : Nat} (a rest : List Nat)
    (ha : ∀ c ∈ a, p c = true) (hx : p x = false) :
    (a ++ x :: rest).takeWhile p = a := by
  induction a with
  | nil => simp [List.takeWhile_cons, hx]
  | cons c t ih =>
    rw [List.cons_append, List.takeWhile_cons, if_pos (ha c (by simp))]
    rw [ih (fun y hy => ha y (by simp [hy]))]

theorem foldl_digits_lt : ∀ (ds : List Nat), (∀ c ∈ ds, isDigitN c = true) →
    ∀ a, List.foldl (fun x c => x * 10 + (c - 48)) a ds < (a + 1) * 10 ^ ds.length := by
  intro ds
  induction ds with
  | nil =>
    intro _ a
    simp
  | cons c t ih =>
    intro h a
    simp only [List.foldl_cons, List.length_cons]
    have hc : isDigitN c = true := h c (by simp)
    simp only [isDigitN, decide_eq_true_eq] at hc
    have h1 := ih (fun x hx => h x (by simp [hx])) (a * 10 + (c - 48))
    have h2 : (a * 10 + (c - 48) + 1) * 10 ^ t.length ≤ (a + 1) * 10 ^ (t.length + 1) := by
      have hle : a * 10 + (c - 48) + 1 ≤ (a + 1) * 10 := by omega
      calc (a * 10 + (c - 48) + 1) * 10 ^ t.length
          ≤ (a + 1) * 10 * 10 ^ t.length := Nat.mul_le_mul_right _ hle
        _ = (a + 1) * 10 ^ (t.length + 1) := by ring
    omega

theorem digitsToNat_lt_pow {ds : List Nat} (h : ∀ c ∈ ds, isDigitN c = true) :
    digitsToNat ds < 10 ^ ds.length := by
  have := foldl_digits_lt ds h 0
  simpa [digitsToNat] using this

theorem daysInMonth_le (y m : Nat) : daysInMonth y m ≤ 31 := by
  unfold daysInMonth
  split
  · split <;> omega
  · split <;> omega

theorem parseDate_format {y m d : Nat} (hy1 : 1 ≤ y) (hy2 : y ≤ 9999) (hm1 : 1 ≤ m)
    (hm2 : m ≤ 12) (hd1 : 1 ≤ d) (hd2 : d ≤ daysInMonth y m) :
    parseDate (formatDate (y, m, d)) = some (y, m, d) := by
  have h4 : (10 : Nat) ^ 4 = 10000 := by norm_num
  have h2 : (10 : Nat) ^ 2 = 100 := by norm_num
  obtain ⟨hyv, hyd, hyl⟩ := padDigits_spec (show (1 : Nat) ≤ 4 by omega)
    (show y < 10 ^ 4 by rw [h4]; omega)
  obtain ⟨hmv, hmd, hml⟩ := padDigits_spec (show (1 : Nat) ≤ 2 by omega)
    (show m < 10 ^ 2 by rw [h2]; omega)
  have hd31 := daysInMonth_le y m
  obtain ⟨hdv, hdd, hdl⟩ := padDigits_spec (show (1 : Nat) ≤ 2 by omega)
    (show d < 10 ^ 2 by rw [h2]; omega)
  simp only [parseDate, formatDate]
  rw [takeWhile_append_stop _ _ hyd (by decide), List.drop_left]
  simp only []
  rw [takeWhile_append_stop _ _ hmd (by decide), List.drop_left]
  simp only []
  rw [takeWhile_all hdd, List.drop_length]
  rw [if_pos ⟨hyl, ⟨by omega, by omega⟩, ⟨by omega, by omega⟩, rfl⟩]
  rw [hyv, hmv, hdv]
  rw [if_pos ⟨hy1, hm1, hm2, hd1, hd2⟩]

theorem parseDate_ranges {s : List Nat} {y m d : Nat} (hp : parseDate s = some (y, m, d)) :
    1 ≤ y ∧ y ≤ 9999 ∧ 1 ≤ m ∧ m ≤ 12 ∧ 1 ≤ d ∧ d ≤ daysInMonth y m := by
  simp only [parseDate] at hp
  split at hp
  · split at hp
    · split at hp
      · split at hp
        · rename_i hconds hrange
          injection hp with hp
          rw [Prod.mk.injEq, Prod.mk.injEq] at hp
          obtain ⟨h1, h2, h3⟩ := hp
          subst h1
          subst h2
          subst h3
          refine ⟨hrange.1, ?_, hrange.2.1, hrange.2.2.1, hrange.2.2.2.1, hrange.2.2.2.2⟩
          have hdig : ∀ c ∈ s.takeWhile isDigitN, isDigitN c = true :=
            fun c hc => List.mem_takeWhile_imp hc
          have hlt := digitsToNat_lt_pow hdig
          rw [hconds.1] at hlt
          norm_num at hlt
          omega
        · exact absurd hp (by simp)
      · exact absurd hp (by simp)
    · exact absurd hp (by simp)
  · exact absurd hp (by simp)

theorem normDateCell_idem (c : Cell) : normDateCell (normDateCell c) = normDateCell c := by
  cases c with
  | na => rfl
  | num q => rfl
  | bool b => rfl
  | str s =>
    cases hp : parseDate s with
    | none =>
      have h1 : normDateCell (Cell.str s) = Cell.na := by
        show (match parseDate s with
          | some d => Cell.str (formatDate d)
          | none => Cell.na) = Cell.na
        rw [hp]
      rw [h1]
      rfl
    | some ymd =>
      obtain ⟨y, m, d⟩ := ymd
      obtain ⟨hy1, hy2, hm1, hm2, hd1, hd2⟩ := parseDate_ranges hp
      have h1 : normDateCell (Cell.str s) = Cell.str (formatDate (y, m, d)) := by
        show (match parseDate s with
          | some d => Cell.str (formatDate d)
          | none => Cell.na) = Cell.str (formatDate (y, m, d))
        rw [hp]
      rw [h1]
      show (match parseDate (formatDate (y, m, d)) with
        | some d => Cell.str (formatDate d)
        | none => Cell.na) = Cell.str (formatDate (y, m, d))
      rw [parseDate_format hy1 hy2 hm1 hm2 hd1 hd2]

theorem yearCell_normDate (c : Cell) : yearCell (normDateCell c) = yearCell (normDateCell (normDateCell c)) := by
  rw [normDateCell_idem]

/-! ### Idempotence: `removeTags` and its fixed points

`Inv t` says every `'<'` (60) in `t` is either immediately followed by
`'>'` (62) or has no `'>'` anywhere after it — exactly the texts on which
the regex `<[^>]+>` has no match. -/

def Inv (t : List Nat) : Prop :=
  ∀ a b, t = a ++ 60 :: b → (∃ b2, b = 62 :: b2) ∨ 62 ∉ b

theorem Inv_nil : Inv [] := by
  intro a b h
  simp at h

theorem Inv_tail {c : Nat} {l : List Nat} (h : Inv (c :: l)) : Inv l := by
  intro a b hab
  exact h (c :: a) b (by simp [hab])

theorem Inv_cons {c : Nat} {l : List Nat}
    (hc : c = 60 → (∃ b2, l = 62 :: b2) ∨ 62 ∉ l) (h : Inv l) : Inv (c :: l) := by
  intro a b hab
  match a with
  | [] =>
    simp at hab
    obtain ⟨h1, h2⟩ := hab
    subst h2
    exact hc h1
  | x :: a' =>
    simp at hab
    exact h a' b hab.2

theorem Inv_head60 {l : List Nat} (h : Inv (60 :: l)) :
    (∃ b2, l = 62 :: b2) ∨ 62 ∉ l :=
  h [] l rfl

theorem skipToClose_none_iff {l : List Nat} : skipToClose l = none ↔ 62 ∉ l := by
  induction l with
  | nil => simp [skipToClose]
  | cons c t ih =>
    simp only [skipToClose]
    by_cases hc : c = 62
    · subst hc
      simp
    · simp only [hc, if_false, if_neg]
      rw [ih]
      simp [hc]
      tauto

theorem afterTag_none_of {l : List Nat} (h : (∃ b2, l = 62 :: b2) ∨ 62 ∉ l) :
    afterTag l = none := by
  rcases h with ⟨b2, rfl⟩ | h
  · simp [afterTag]
  · match l with
    | [] => rfl
    | c :: t =>
      have hc : c ≠ 62 := fun hc => h (by simp [hc])
      simp only [afterTag, hc, if_false, if_neg]
      rw [skipToClose_none_iff]
      intro ht
      exact h (by simp [ht])

theorem mem_skipToClose {l r : List Nat} (h : skipToClose l = some r) {x : Nat}
    (hx : x ∈ r) : x ∈ l := by
  induction l with
  | nil => simp [skipToClose] at h
  | cons c t ih =>
    simp only [skipToClose] at h
    by_cases hc : c = 62
    · rw [if_pos hc] at h
      injection h with h
      subst h
      simp [hx]
    · rw [if_neg hc] at h
      simp [ih h]

theorem mem_afterTag {l r : List Nat} (h : afterTag l = some r) {x : Nat} (hx : x ∈ r) :
    x ∈ l := by
  match l with
  | [] => simp [afterTag] at h
  | c :: t =>
    simp only [afterTag] at h
    by_cases hc : c = 62
    · rw [if_pos hc] at h
      simp at h
    · rw [if_neg hc] at h
      simp [mem_skipToClose h hx]

theorem mem_removeTagsF : ∀ (fuel : Nat) (l : List Nat) (x : Nat),
    x ∈ removeTagsF fuel l → x ∈ l := by
  intro fuel
  induction fuel with
  | zero => intro l x h; exact h
  | succ f ih =>
    intro l x h
    match l with
    | [] => simp [removeTagsF] at h
    | c :: t =>
      simp only [removeTagsF] at h
      by_cases hc : c = 60
      · rw [if_pos hc] at h
        cases ha : afterTag t with
        | some r =>
          rw [ha] at h
          exact List.mem_cons.mpr (Or.inr (mem_afterTag ha (ih r x h)))
        | none =>
          rw [ha] at h
          rcases List.mem_cons.mp h with h | h
          · simp [h]
          · simp [ih t x h]
      · rw [if_neg hc] at h
        rcases List.mem_cons.mp h with h | h
        · simp [h]
        · simp [ih t x h]

theorem removeTagsF_fix : ∀ (fuel : Nat) (l : List Nat), l.length ≤ fuel → Inv l →
    removeTagsF fuel l = l := by
  intro fuel
  induction fuel with
  | zero => intro l _ _; rfl
  | succ f ih =>
    intro l hlen hinv
    match l with
    | [] => rfl
    | c :: t =>
      simp only [removeTagsF]
      by_cases hc : c = 60
      · subst hc
        rw [if_pos rfl, afterTag_none_of (Inv_head60 hinv)]
        rw [ih t (by simp at hlen; omega) (Inv_tail hinv)]
      · rw [if_neg hc, ih t (by simp at hlen; omega) (Inv_tail hinv)]

theorem removeTagsF_cons_ne60 (f : Nat) (c : Nat) (t : List Nat) (hc : c ≠ 60) :
    ∃ tl, removeTagsF f (c :: t) = c :: tl := by
  cases f with
  | zero => exact ⟨t, rfl⟩
  | succ f =>
    refine ⟨removeTagsF f t, ?_⟩
    have hstep : removeTagsF (f + 1) (c :: t) =
        if c = 60 then
          (match afterTag t with
           | some r => removeTagsF f r
           | none => c :: removeTagsF f t)
        else c :: removeTagsF f t := rfl
    rw [hstep, if_neg hc]

theorem Inv_removeTagsF : ∀ (fuel : Nat) (l : List Nat), l.length ≤ fuel →
    Inv (removeTagsF fuel l) := by
  intro fuel
  induction fuel with
  | zero =>
    intro l hlen
    have : l = [] := by
      cases l with
      | nil => rfl
      | cons c t => simp at hlen
    subst this
    exact Inv_nil
  | succ f ih =>
    intro l hlen
    match l with
    | [] => exact Inv_nil
    | c :: t =>
      simp only [removeTagsF]
      by_cases hc : c = 60
      · rw [if_pos hc]
        cases ha : afterTag t with
        | some r =>
          have hr := afterTag_length ha
          exact ih r (by simp at hlen; omega)
        | none =>
          subst hc
          apply Inv_cons
          · intro _
            match t with
            | [] =>
              right
              cases f <;> simp [removeTagsF]
            | c' :: t2 =>
              by_cases hc' : c' = 62
              · subst hc'
                left
                obtain ⟨tl, htl⟩ := removeTagsF_cons_ne60 f 62 t2 (by omega)
                exact ⟨tl, htl⟩
              · right
                intro hmem
                have h62 : (62 : Nat) ∈ c' :: t2 := mem_removeTagsF f _ 62 hmem
                simp only [afterTag] at ha
                rw [if_neg hc'] at ha
                have h62t2 : (62 : Nat) ∉ t2 := skipToClose_none_iff.mp ha
                rcases List.mem_cons.mp h62 with h | h
                · exact hc' h.symm
                · exact h62t2 h
          · exact ih t (by simp at hlen; omega)
      · rw [if_neg hc]
        apply Inv_cons (fun h60 => absurd h60 hc)
        exact ih t (by simp at hlen; omega)

theorem removeTags_idem (l : List Nat) : removeTags (removeTags l) = removeTags l :=
  removeTagsF_fix _ _ le_rfl (Inv_removeTagsF l.length l le_rfl)

/-! ### Idempotence: the two escape replacements -/

/-- `NoPair l` : `l` has no occurrence of the two-character sequence
`\n` (`[92, 110]`). -/
def NoPair (l : List Nat) : Prop := ∀ a b, l ≠ a ++ 92 :: 110 :: b

theorem NoPair_nil : NoPair [] := by
  intro a b h
  simp at h

theorem NoPair_tail {c : Nat} {l : List Nat} (h : NoPair (c :: l)) : NoPair l := by
  intro a b hab
  exact h (c :: a) b (by simp [hab])

theorem NoPair_cons {c : Nat} {l : List Nat}
    (hc : ¬(c = 92 ∧ l.head? = some 110)) (h : NoPair l) : NoPair (c :: l) := by
  intro a b hab
  match a with
  | [] =>
    simp at hab
    exact hc ⟨hab.1, by rw [hab.2]; rfl⟩
  | x :: a' =>
    simp at hab
    exact h a' b hab.2

theorem NoPair_single (c : Nat) : NoPair [c] :=
  NoPair_cons (by simp) NoPair_nil

theorem mem_replace2 (a b rep : Nat) : ∀ (n : Nat) (l : List Nat), l.length ≤ n →
    ∀ (x : Nat), x ∈ replace2 a b rep l → x = rep ∨ x ∈ l := by
  intro n
  induction n with
  | zero =>
    intro l hlen x h
    match l with
    | [] => exact Or.inr h
    | c :: t => simp at hlen
  | succ n ih =>
    intro l hlen x h
    match l with
    | [] => exact Or.inr h
    | [c] => exact Or.inr h
    | c :: d :: t =>
      by_cases hm : c = a ∧ d = b
      · simp only [replace2, if_pos hm] at h
        rcases List.mem_cons.mp h with h | h
        · exact Or.inl h
        · rcases ih t (by simp only [List.length_cons] at hlen ⊢; omega) x h with h | h
          · exact Or.inl h
          · exact Or.inr (by simp [h])
      · simp only [replace2, if_neg hm] at h
        rcases List.mem_cons.mp h with h | h
        · exact Or.inr (by simp [h])
        · rcases ih (d :: t) (by simp only [List.length_cons] at hlen ⊢; omega) x h with h | h
          · exact Or.inl h
          · exact Or.inr (by simp [h])

theorem replace2_cons_ne (a b rep c : Nat) (t : List Nat) (hc : c ≠ a) :
    replace2 a b rep (c :: t) = c :: replace2 a b rep t := by
  match t with
  | [] => rfl
  | d :: t' =>
    simp only [replace2]
    rw [if_neg (fun hm => hc hm.1)]

theorem Inv_replace2 : ∀ (n : Nat) (l : List Nat), l.length ≤ n → Inv l →
    Inv (replace2 92 110 32 l) := by
  intro n
  induction n with
  | zero =>
    intro l hlen _
    match l with
    | [] => exact Inv_nil
    | c :: t => simp at hlen
  | succ n ih =>
    intro l hlen hinv
    match l with
    | [] => exact Inv_nil
    | [c] => exact fun a b hab => hinv a b hab
    | c :: d :: t =>
      by_cases hm : c = 92 ∧ d = 110
      · simp only [replace2, if_pos hm]
        refine Inv_cons (fun h32 => absurd h32 (by omega)) ?_
        exact ih t (by simp only [List.length_cons] at hlen ⊢; omega) (Inv_tail (Inv_tail hinv))
      · simp only [replace2, if_neg hm]
        refine Inv_cons ?_
          (ih (d :: t) (by simp only [List.length_cons] at hlen ⊢; omega) (Inv_tail hinv))
        intro hc
        subst hc
        rcases Inv_head60 hinv with ⟨b2, hb2⟩ | h62
        · left
          have hd : d = 62 := by
            have := congrArg List.head? hb2
            simpa using this
          subst hd
          rw [replace2_cons_ne _ _ _ _ _ (by omega)]
          exact ⟨_, rfl⟩
        · right
          intro hmem
          rcases mem_replace2 _ _ _ _ (d :: t) le_rfl _ hmem with h | h
          · omega
          · exact h62 h

theorem replace2_fix : ∀ (n : Nat) (l : List Nat), l.length ≤ n → NoPair l →
    replace2 92 110 32 l = l := by
  intro n
  induction n with
  | zero =>
    intro l hlen _
    match l with
    | [] => rfl
    | c :: t => simp at hlen
  | succ n ih =>
    intro l hlen hnp
    match l with
    | [] => rfl
    | [c] => rfl
    | c :: d :: t =>
      have hm : ¬(c = 92 ∧ d = 110) := by
        intro ⟨h1, h2⟩
        exact hnp [] t (by rw [h1, h2]; rfl)
      simp only [replace2, if_neg hm]
      rw [ih (d :: t) (by simp only [List.length_cons] at hlen ⊢; omega) (NoPair_tail hnp)]

theorem replace2_head_ne (d : Nat) (t : List Nat) (hd : d ≠ 110) :
    (replace2 92 110 32 (d :: t)).head? ≠ some 110 := by
  match t with
  | [] =>
    simp [replace2, hd]
  | e :: t' =>
    by_cases hm : d = 92 ∧ e = 110
    · simp only [replace2, if_pos hm]
      simp
    · simp only [replace2, if_neg hm]
      simp [hd]

theorem NoPair_replace2 : ∀ (n : Nat) (l : List Nat), l.length ≤ n →
    NoPair (replace2 92 110 32 l) := by
  intro n
  induction n with
  | zero =>
    intro l hlen
    match l with
    | [] => exact NoPair_nil
    | c :: t => simp at hlen
  | succ n ih =>
    intro l hlen
    match l with
    | [] => exact NoPair_nil
    | [c] => exact NoPair_single c
    | c :: d :: t =>
      by_cases hm : c = 92 ∧ d = 110
      · simp only [replace2, if_pos hm]
        refine NoPair_cons ?_ (ih t (by simp only [List.length_cons] at hlen ⊢; omega))
        intro ⟨h32, _⟩
        omega
      · simp only [replace2, if_neg hm]
        refine NoPair_cons ?_
          (ih (d :: t) (by simp only [List.length_cons] at hlen ⊢; omega))
        intro ⟨hc92, hhead⟩
        subst hc92
        have hd : d ≠ 110 := fun hd => hm ⟨rfl, hd⟩
        exact replace2_head_ne d t hd hhead

theorem replace4_short (a b c d rep : Nat) (l : List Nat) (hlen : l.length ≤ 3) :
    replace4 a b c d rep l = l := by
  match l with
  | [] => rfl
  | [x1] => rfl
  | [x1, x2] => rfl
  | [x1, x2, x3] => rfl
  | x1 :: x2 :: x3 :: x4 :: t => simp at hlen

theorem replace4_cons_ne (a b c d rep x : Nat) (t : List Nat) (hx : x ≠ a) :
    replace4 a b c d rep (x :: t) = x :: replace4 a b c d rep t := by
  match t with
  | [] => rfl
  | [y1] => rfl
  | [y1, y2] => rfl
  | y1 :: y2 :: y3 :: t' =>
    simp only [replace4]
    rw [if_neg (fun hm => hx hm.1)]

theorem mem_replace4 (a b c d rep : Nat) : ∀ (n : Nat) (l : List Nat), l.length ≤ n →
    ∀ (x : Nat), x ∈ replace4 a b c d rep l → x = rep ∨ x ∈ l := by
  intro n
  induction n with
  | zero =>
    intro l hlen x h
    match l with
    | [] => exact Or.inr h
    | c :: t => simp at hlen
  | succ n ih =>
    intro l hlen x h
    match l with
    | [] => exact Or.inr h
    | [x1] => exact Or.inr h
    | [x1, x2] => exact Or.inr h
    | [x1, x2, x3] => exact Or.inr h
    | x1 :: x2 :: x3 :: x4 :: t =>
      by_cases hm : x1 = a ∧ x2 = b ∧ x3 = c ∧ x4 = d
      · simp only [replace4, if_pos hm] at h
        rcases List.mem_cons.mp h with h | h
        · exact Or.inl h
        · rcases ih t (by simp only [List.length_cons] at hlen ⊢; omega) x h with h | h
          · exact Or.inl h
          · exact Or.inr (by simp [h])
      · simp only [replace4, if_neg hm] at h
        rcases List.mem_cons.mp h with h | h
        · exact Or.inr (by simp [h])
        · rcases ih (x2 :: x3 :: x4 :: t) (by simp only [List.length_cons] at hlen ⊢; omega)
            x h with h | h
          · exact Or.inl h
          · exact Or.inr (by simp [h])

theorem Inv_replace4 : ∀ (n : Nat) (l : List Nat), l.length ≤ n → Inv l →
    Inv (replace4 92 114 92 110 32 l) := by
  intro n
  induction n with
  | zero =>
    intro l hlen _
    match l with
    | [] => exact Inv_nil
    | c :: t => simp at hlen
  | succ n ih =>
    intro l hlen hinv
    match l with
    | [] => exact Inv_nil
    | [x1] => rw [replace4_short _ _ _ _ _ _ (by simp)]; exact hinv
    | [x1, x2] => rw [replace4_short _ _ _ _ _ _ (by simp)]; exact hinv
    | [x1, x2, x3] => rw [replace4_short _ _ _ _ _ _ (by simp)]; exact hinv
    | x1 :: x2 :: x3 :: x4 :: t =>
      by_cases hm : x1 = 92 ∧ x2 = 114 ∧ x3 = 92 ∧ x4 = 110
      · simp only [replace4, if_pos hm]
        refine Inv_cons (fun h32 => absurd h32 (by omega)) ?_
        exact ih t (by simp only [List.length_cons] at hlen ⊢; omega)
          (Inv_tail (Inv_tail (Inv_tail (Inv_tail hinv))))
      · simp only [replace4, if_neg hm]
        refine Inv_cons ?_ (ih (x2 :: x3 :: x4 :: t)
          (by simp only [List.length_cons] at hlen ⊢; omega) (Inv_tail hinv))
        intro hc
        subst hc
        rcases Inv_head60 hinv with ⟨b2, hb2⟩ | h62
        · left
          have hd : x2 = 62 := by
            have := congrArg List.head? hb2
            simpa using this
          subst hd
          rw [replace4_cons_ne _ _ _ _ _ _ _ (by omega)]
          exact ⟨_, rfl⟩
        · right
          intro hmem
          rcases mem_replace4 _ _ _ _ _ _ (x2 :: x3 :: x4 :: t) le_rfl _ hmem with h | h
          · omega
          · exact h62 h

/-- No occurrence of the four-character escape `\r\n`. -/
def NoQuad (l : List Nat) : Prop := ∀ a b, l ≠ a ++ 92 :: 114 :: 92 :: 110 :: b

theorem NoQuad_of_NoPair {l : List Nat} (h : NoPair l) : NoQuad l := by
  intro a b hab
  exact h (a ++ [92, 114]) b (by simp [hab])

theorem NoQuad_tail {c : Nat} {l : List Nat} (h : NoQuad (c :: l)) : NoQuad l := by
  intro a b hab
  exact h (c :: a) b (by simp [hab])

theorem replace4_fix : ∀ (n : Nat) (l : List Nat), l.length ≤ n → NoQuad l →
    replace4 92 114 92 110 32 l = l := by
  intro n
  induction n with
  | zero =>
    intro l hlen _
    match l with
    | [] => rfl
    | c :: t => simp at hlen
  | succ n ih =>
    intro l hlen hnq
    match l with
    | [] => rfl
    | [x1] => exact replace4_short _ _ _ _ _ _ (by simp)
    | [x1, x2] => exact replace4_short _ _ _ _ _ _ (by simp)
    | [x1, x2, x3] => exact replace4_short _ _ _ _ _ _ (by simp)
    | x1 :: x2 :: x3 :: x4 :: t =>
      have hm : ¬(x1 = 92 ∧ x2 = 114 ∧ x3 = 92 ∧ x4 = 110) := by
        intro ⟨h1, h2, h3, h4⟩
        exact hnq [] t (by rw [h1, h2, h3, h4]; rfl)
      simp only [replace4, if_neg hm]
      rw [ih (x2 :: x3 :: x4 :: t) (by simp only [List.length_cons] at hlen ⊢; omega)
        (NoQuad_tail hnq)]

/-! ### Idempotence: whitespace collapse and trim -/

theorem mem_collapseGo : ∀ (l : List Nat) (flag : Bool) (x : Nat),
    x ∈ collapseGo flag l → x = 32 ∨ (x ∈ l ∧ isSpaceN x = false) := by
  intro l
  induction l with
  | nil => intro flag x h; simp [collapseGo] at h
  | cons c t ih =>
    intro flag x h
    simp only [collapseGo] at h
    by_cases hsp : isSpaceN c = true
    · rw [if_pos hsp] at h
      cases flag with
      | true =>
        rcases ih true x h with h | h
        · exact Or.inl h
        · exact Or.inr ⟨by simp [h.1], h.2⟩
      | false =>
        rcases List.mem_cons.mp h with h | h
        · exact Or.inl h
        · rcases ih true x h with h | h
          · exact Or.inl h
          · exact Or.inr ⟨by simp [h.1], h.2⟩
    · rw [if_neg hsp] at h
      rcases List.mem_cons.mp h with h | h
      · subst h
        exact Or.inr ⟨by simp, by simpa using hsp⟩
      · rcases ih false x h with h | h
        · exact Or.inl h
        · exact Or.inr ⟨by simp [h.1], h.2⟩

theorem collapseGo_false_head (t : List Nat) :
    (collapseGo false t).head? = t.head?.map (fun d => if isSpaceN d = true then 32 else d) := by
  match t with
  | [] => rfl
  | d :: t' =>
    simp only [collapseGo]
    by_cases hsp : isSpaceN d = true
    · rw [if_pos hsp]
      simp [hsp]
    · rw [if_neg hsp]
      simp only [Bool.not_eq_true] at hsp
      simp [hsp]

theorem Inv_collapseGo : ∀ (l : List Nat) (flag : Bool), Inv l →
    Inv (collapseGo flag l) := by
  intro l
  induction l with
  | nil => intro flag _; exact Inv_nil
  | cons c t ih =>
    intro flag hinv
    simp only [collapseGo]
    by_cases hsp : isSpaceN c = true
    · rw [if_pos hsp]
      cases flag with
      | true => exact ih true (Inv_tail hinv)
      | false =>
        refine Inv_cons (fun h32 => absurd h32 (by omega)) ?_
        exact ih true (Inv_tail hinv)
    · rw [if_neg hsp]
      refine Inv_cons ?_ (ih false (Inv_tail hinv))
      intro hc
      subst hc
      rcases Inv_head60 hinv with ⟨b2, hb2⟩ | h62
      · left
        subst hb2
        have h62sp : isSpaceN 62 = false := by decide
        simp only [collapseGo, h62sp, Bool.false_eq_true, if_false]
        exact ⟨_, rfl⟩
      · right
        intro hmem
        rcases mem_collapseGo t false 62 hmem with h | h
        · omega
        · exact h62 h.1

theorem NoPair_collapseGo : ∀ (l : List Nat) (flag : Bool), NoPair l →
    NoPair (collapseGo flag l) := by
  intro l
  induction l with
  | nil => intro flag _; exact NoPair_nil
  | cons c t ih =>
    intro flag hnp
    simp only [collapseGo]
    by_cases hsp : isSpaceN c = true
    · rw [if_pos hsp]
      cases flag with
      | true => exact ih true (NoPair_tail hnp)
      | false =>
        refine NoPair_cons ?_ (ih true (NoPair_tail hnp))
        intro ⟨h32, _⟩
        omega
    · rw [if_neg hsp]
      refine NoPair_cons ?_ (ih false (NoPair_tail hnp))
      intro ⟨hc92, hhead⟩
      subst hc92
      rw [collapseGo_false_head] at hhead
      match ht : t with
      | [] => simp [ht] at hhead
      | d :: t' =>
        simp only [List.head?_cons, Option.map_some'] at hhead
        by_cases hd : isSpaceN d = true
        · rw [if_pos hd] at hhead
          injection hhead with hhead
          omega
        · rw [if_neg hd] at hhead
          injection hhead with hhead
          subst hhead
          exact hnp [] t' rfl

theorem Inv_of_append_right {x y : List Nat} (h : Inv (x ++ y)) : Inv y := by
  intro a b hab
  exact h (x ++ a) b (by simp [hab])

theorem Inv_append_left {x y : List Nat} (h : Inv (x ++ y)) : Inv x := by
  intro a b hab
  rcases h a (b ++ y) (by simp [hab]) with ⟨b2, hb2⟩ | h62
  · match b with
    | [] => exact Or.inr (by simp)
    | c :: b' =>
      left
      have : c = 62 := by
        have := congrArg List.head? hb2
        simpa using this
      exact ⟨b', by rw [this]⟩
  · right
    intro hb
    exact h62 (by simp [hb])

theorem NoPair_of_append_right {x y : List Nat} (h : NoPair (x ++ y)) : NoPair y := by
  intro a b hab
  exact h (x ++ a) b (by simp [hab])

theorem NoPair_append_left {x y : List Nat} (h : NoPair (x ++ y)) : NoPair x := by
  intro a b hab
  exact h a (b ++ y) (by simp [hab])

theorem dropTrailingWs_prefix (l : List Nat) : ∃ suf, dropTrailingWs l ++ suf = l := by
  induction l with
  | nil => exact ⟨[], rfl⟩
  | cons c t ih =>
    obtain ⟨suf, hsuf⟩ := ih
    simp only [dropTrailingWs]
    by_cases hc : dropTrailingWs t = [] ∧ isSpaceN c = true
    · rw [if_pos hc]
      exact ⟨c :: t, rfl⟩
    · rw [if_neg hc]
      exact ⟨suf, by simp [hsuf]⟩

theorem Inv_dropLeadingWs {l : List Nat} (h : Inv l) : Inv (dropLeadingWs l) := by
  have heq : List.takeWhile isSpaceN l ++ dropLeadingWs l = l :=
    List.takeWhile_append_dropWhile isSpaceN l
  have h2 : Inv (List.takeWhile isSpaceN l ++ dropLeadingWs l) := by
    rw [heq]
    exact h
  exact Inv_of_append_right h2

theorem Inv_dropTrailingWs {l : List Nat} (h : Inv l) : Inv (dropTrailingWs l) := by
  obtain ⟨suf, hsuf⟩ := dropTrailingWs_prefix l
  have h2 : Inv (dropTrailingWs l ++ suf) := by
    rw [hsuf]
    exact h
  exact Inv_append_left h2

theorem NoPair_dropLeadingWs {l : List Nat} (h : NoPair l) : NoPair (dropLeadingWs l) := by
  have heq : List.takeWhile isSpaceN l ++ dropLeadingWs l = l :=
    List.takeWhile_append_dropWhile isSpaceN l
  have h2 : NoPair (List.takeWhile isSpaceN l ++ dropLeadingWs l) := by
    rw [heq]
    exact h
  exact NoPair_of_append_right h2

theorem NoPair_dropTrailingWs {l : List Nat} (h : NoPair l) : NoPair (dropTrailingWs l) := by
  obtain ⟨suf, hsuf⟩ := dropTrailingWs_prefix l
  have h2 : NoPair (dropTrailingWs l ++ suf) := by
    rw [hsuf]
    exact h
  exact NoPair_append_left h2

/-- No two adjacent whitespace characters. -/
def noRunB : List Nat → Bool
  | x :: y :: t => (!(isSpaceN x && isSpaceN y)) && noRunB (y :: t)
  | _ => true

theorem noRunB_tail {c : Nat} {l : List Nat} (h : noRunB (c :: l) = true) :
    noRunB l = true := by
  match l with
  | [] => rfl
  | y :: t =>
    simp only [noRunB, Bool.and_eq_true] at h
    exact h.2

theorem noRunB_cons_of {c : Nat} {X : List Nat}
    (h : isSpaceN c = false ∨ ∀ x, X.head? = some x → isSpaceN x = false)
    (hX : noRunB X = true) : noRunB (c :: X) = true := by
  match X with
  | [] => rfl
  | x :: X' =>
    simp only [noRunB, Bool.and_eq_true]
    refine ⟨?_, hX⟩
    rcases h with h | h
    · simp [h]
    · simp [h x rfl]

theorem collapseGo_true_head : ∀ (t : List Nat) (x : Nat),
    (collapseGo true t).head? = some x → isSpaceN x = false := by
  intro t
  induction t with
  | nil => intro x h; simp [collapseGo] at h
  | cons d t' ih =>
    intro x h
    simp only [collapseGo] at h
    by_cases hd : isSpaceN d = true
    · rw [if_pos hd] at h
      exact ih x h
    · rw [if_neg hd] at h
      simp only [List.head?_cons, Option.some_inj] at h
      subst h
      simpa using hd

theorem noRunB_collapseGo : ∀ (l : List Nat) (flag : Bool),
    noRunB (collapseGo flag l) = true := by
  intro l
  induction l with
  | nil => intro flag; rfl
  | cons c t ih =>
    intro flag
    simp only [collapseGo]
    by_cases hsp : isSpaceN c = true
    · rw [if_pos hsp]
      cases flag with
      | true => exact ih true
      | false =>
        refine noRunB_cons_of (Or.inr ?_) (ih true)
        intro x hx
        exact collapseGo_true_head t x hx
    · rw [if_neg hsp]
      refine noRunB_cons_of (Or.inl (by simpa using hsp)) (ih false)

theorem noRunB_append_left : ∀ (x y : List Nat), noRunB (x ++ y) = true →
    noRunB x = true := by
  intro x
  induction x with
  | nil => intro y _; rfl
  | cons c x' ih =>
    intro y h
    match x' with
    | [] => rfl
    | d :: x'' =>
      simp only [List.cons_append, noRunB, Bool.and_eq_true] at h ⊢
      exact ⟨h.1, ih y h.2⟩

theorem noRunB_dropWhile (p : Nat → Bool) : ∀ (l : List Nat), noRunB l = true →
    noRunB (l.dropWhile p) = true := by
  intro l
  induction l with
  | nil => intro _; rfl
  | cons c t ih =>
    intro h
    rw [List.dropWhile_cons]
    by_cases hc : p c = true
    · rw [if_pos hc]
      exact ih (noRunB_tail h)
    · rw [if_neg hc]
      exact h

theorem noRunB_dropTrailingWs {l : List Nat} (h : noRunB l = true) :
    noRunB (dropTrailingWs l) = true := by
  obtain ⟨suf, hsuf⟩ := dropTrailingWs_prefix l
  exact noRunB_append_left _ suf (by rw [hsuf]; exact h)

theorem collapseGo_true_eq_false {t : List Nat}
    (h : ∀ x, t.head? = some x → isSpaceN x = false) :
    collapseGo true t = collapseGo false t := by
  match t with
  | [] => rfl
  | d :: t' =>
    have hd : isSpaceN d = false := h d rfl
    simp only [collapseGo, hd, Bool.false_eq_true, if_false]

theorem collapse_fix : ∀ (n : Nat) (l : List Nat), l.length ≤ n →
    (∀ x ∈ l, isSpaceN x = true → x = 32) → noRunB l = true →
    collapseGo false l = l := by
  intro n
  induction n with
  | zero =>
    intro l hlen _ _
    match l with
    | [] => rfl
    | c :: t => simp at hlen
  | succ n ih =>
    intro l hlen hsp32 hrun
    match l with
    | [] => rfl
    | c :: t =>
      simp only [collapseGo]
      by_cases hsp : isSpaceN c = true
      · rw [if_pos hsp]
        have hc32 : c = 32 := hsp32 c (by simp) hsp
        subst hc32
        have hhead : ∀ x, t.head? = some x → isSpaceN x = false := by
          intro x hx
          match t with
          | [] => simp at hx
          | d :: t' =>
            simp only [List.head?_cons, Option.some_inj] at hx
            subst hx
            simp only [noRunB, Bool.and_eq_true, Bool.not_eq_true'] at hrun
            have h1 := hrun.1
            rw [Bool.and_eq_false_iff] at h1
            rcases h1 with h1 | h1
            · exact absurd h1 (by simp [hsp])
            · exact h1
        rw [collapseGo_true_eq_false hhead]
        rw [ih t (by simp only [List.length_cons] at hlen ⊢; omega)
          (fun x hx hs => hsp32 x (by simp [hx]) hs) (noRunB_tail hrun)]
        simp
      · rw [if_neg hsp]
        rw [ih t (by simp only [List.length_cons] at hlen ⊢; omega)
          (fun x hx hs => hsp32 x (by simp [hx]) hs) (noRunB_tail hrun)]

theorem head_dropWhile_false (p : Nat → Bool) : ∀ (l : List Nat) (x : Nat),
    (l.dropWhile p).head? = some x → p x = false := by
  intro l
  induction l with
  | nil => intro x h; simp at h
  | cons c t ih =>
    intro x h
    rw [List.dropWhile_cons] at h
    by_cases hc : p c = true
    · rw [if_pos hc] at h
      exact ih x h
    · rw [if_neg hc] at h
      simp only [List.head?_cons, Option.some_inj] at h
      subst h
      simpa using hc

theorem dropLeadingWs_fix {l : List Nat}
    (h : ∀ x, l.head? = some x → isSpaceN x = false) : dropLeadingWs l = l := by
  match l with
  | [] => rfl
  | c :: t =>
    have hc : isSpaceN c = false := h c rfl
    simp [dropLeadingWs, List.dropWhile_cons, hc]

theorem dropTrailingWs_head {l : List Nat} {x : Nat}
    (h : (dropTrailingWs l).head? = some x) : l.head? = some x := by
  match l with
  | [] => simp [dropTrailingWs] at h
  | c :: t =>
    simp only [dropTrailingWs] at h
    by_cases hc : dropTrailingWs t = [] ∧ isSpaceN c = true
    · rw [if_pos hc] at h
      simp at h
    · rw [if_neg hc] at h
      simp only [List.head?_cons, Option.some_inj] at h
      simp [h]

theorem dropTrailingWs_last : ∀ (l : List Nat) (x : Nat),
    (dropTrailingWs l).getLast? = some x → isSpaceN x = false := by
  intro l
  induction l with
  | nil => intro x h; simp [dropTrailingWs] at h
  | cons c t ih =>
    intro x h
    simp only [dropTrailingWs] at h
    by_cases hc : dropTrailingWs t = [] ∧ isSpaceN c = true
    · rw [if_pos hc] at h
      simp at h
    · rw [if_neg hc] at h
      cases hdt : dropTrailingWs t with
      | nil =>
        rw [hdt] at h
        simp only [List.getLast?_singleton, Option.some_inj] at h
        subst h
        rw [Classical.not_and_iff_or_not_not] at hc
        rcases hc with hc | hc
        · exact absurd hdt hc
        · simpa using hc
      | cons d t' =>
        rw [hdt] at h
        rw [List.getLast?_cons_cons] at h
        rw [← hdt] at h
        exact ih x h

theorem dropTrailingWs_fix : ∀ (l : List Nat),
    (∀ x, l.getLast? = some x → isSpaceN x = false) → dropTrailingWs l = l := by
  intro l
  induction l with
  | nil => intro _; rfl
  | cons c t ih =>
    intro h
    simp only [dropTrailingWs]
    match t with
    | [] =>
      have hc : isSpaceN c = false := h c (by simp)
      simp [dropTrailingWs, hc]
    | d :: t' =>
      have ht : dropTrailingWs (d :: t') = d :: t' := by
        apply ih
        intro x hx
        apply h
        rw [List.getLast?_cons_cons]
        exact hx
      rw [ht]
      have hne : d :: t' ≠ [] := by simp
      simp [hne]

theorem mem_dropTrailingWs {l : List Nat} {x : Nat} (h : x ∈ dropTrailingWs l) : x ∈ l := by
  obtain ⟨suf, hsuf⟩ := dropTrailingWs_prefix l
  rw [← hsuf]
  simp [h]

theorem cleanHtmlStr_fix {u : List Nat} (hInv : Inv u) (hNP : NoPair u)
    (hsp32 : ∀ x ∈ u, isSpaceN x = true → x = 32) (hrun : noRunB u = true)
    (hhead : ∀ x, u.head? = some x → isSpaceN x = false)
    (hlast : ∀ x, u.getLast? = some x → isSpaceN x = false) :
    cleanHtmlStr u = u := by
  unfold cleanHtmlStr
  rw [show removeTags u = u from removeTagsF_fix _ _ le_rfl hInv]
  rw [replace4_fix u.length u le_rfl (NoQuad_of_NoPair hNP)]
  rw [replace2_fix u.length u le_rfl hNP]
  show stripWs (collapseGo false u) = u
  rw [collapse_fix u.length u le_rfl hsp32 hrun]
  show dropTrailingWs (dropLeadingWs u) = u
  rw [dropLeadingWs_fix hhead]
  exact dropTrailingWs_fix u hlast

theorem cleanHtmlStr_idem (s : List Nat) :
    cleanHtmlStr (cleanHtmlStr s) = cleanHtmlStr s := by
  apply cleanHtmlStr_fix
  · show Inv (dropTrailingWs (dropLeadingWs (collapseGo false
      (replace2 92 110 32 (replace4 92 114 92 110 32 (removeTags s))))))
    exact Inv_dropTrailingWs (Inv_dropLeadingWs (Inv_collapseGo _ false
      (Inv_replace2 _ _ le_rfl (Inv_replace4 _ _ le_rfl (Inv_removeTagsF _ _ le_rfl)))))
  · show NoPair (dropTrailingWs (dropLeadingWs (collapseGo false
      (replace2 92 110 32 (replace4 92 114 92 110 32 (removeTags s))))))
    exact NoPair_dropTrailingWs (NoPair_dropLeadingWs (NoPair_collapseGo _ false
      (NoPair_replace2 _ _ le_rfl)))
  · intro x hx hspx
    have hx2 : x ∈ dropLeadingWs (collapseGo false
        (replace2 92 110 32 (replace4 92 114 92 110 32 (removeTags s)))) :=
      mem_dropTrailingWs hx
    have hx3 : x ∈ collapseGo false
        (replace2 92 110 32 (replace4 92 114 92 110 32 (removeTags s))) :=
      (List.dropWhile_sublist isSpaceN).subset hx2
    rcases mem_collapseGo _ false x hx3 with h | h
    · exact h
    · rw [h.2] at hspx
      exact absurd hspx (by simp)
  · show noRunB (dropTrailingWs (dropLeadingWs (collapseGo false
      (replace2 92 110 32 (replace4 92 114 92 110 32 (removeTags s)))))) = true
    exact noRunB_dropTrailingWs (noRunB_dropWhile _ _ (noRunB_collapseGo _ false))
  · intro x hx
    have hx2 := dropTrailingWs_head hx
    exact head_dropWhile_false isSpaceN _ x hx2
  · intro x hx
    exact dropTrailingWs_last _ x hx

theorem cleanHtmlCell_str (s : List Nat) :
    cleanHtmlCell (Cell.str s) =
      (if cleanHtmlStr s = [] then Cell.na else Cell.str (cleanHtmlStr s)) := by
  unfold cleanHtmlCell clean_html_tags
  by_cases hE : cleanHtmlStr s = []
  · simp [hE]
  · simp [hE]

theorem cleanHtmlCell_idem (c : Cell) : cleanHtmlCell (cleanHtmlCell c) = cleanHtmlCell c := by
  cases c with
  | na => rfl
  | num q => rfl
  | bool b => rfl
  | str s =>
    rw [cleanHtmlCell_str]
    by_cases hE : cleanHtmlStr s = []
    · rw [if_pos hE]
      rfl
    · rw [if_neg hE, cleanHtmlCell_str, cleanHtmlStr_idem, if_neg hE]

/-! ### Idempotence: the clean-table invariant -/

/-- Everything that holds of the cleaned table a successful pipeline run
produces, and that makes a second run the identity. -/
structure CleanTable (t : DataFrame) : Prop where
  dr_mem : Col.date_registration ∈ t.cols
  year_mem : Col.Year ∈ t.cols
  ps_mem : Col.primary_sponsor ∈ t.cols
  cc_mem : Col.country_codes ∈ t.cols
  ri_mem : Col.results_ind ∈ t.cols
  sc_mem : Col.sponsor_category ∈ t.cols
  il_mem : Col.income_level ∈ t.cols
  rp_mem : Col.results_posted ∈ t.cols
  sens_not_mem : ∀ c ∈ sensitive_fields, c ∉ t.cols
  dates_norm : ∀ c ∈ date_fields, c ∈ t.cols →
    ∀ r ∈ t.rows, r.get c = normDateCell (r.get c)
  year_eq : ∀ r ∈ t.rows, r.get .Year = yearCell (r.get .date_registration)
  html_norm : ∀ c ∈ html_fields, c ∈ t.cols →
    ∀ r ∈ t.rows, r.get c = cleanHtmlCell (r.get c)
  tss_num : Col.target_sample_size ∈ t.cols →
    ∀ r ∈ t.rows, r.get .target_sample_size = toNumericCell (r.get .target_sample_size)
  tss_keep : Col.target_sample_size ∈ t.cols →
    ∀ r ∈ t.rows, keepSS (r.get .target_sample_size) = true
  age_valid : Col.inclusion_age_min ∈ t.cols ∧ Col.inclusion_age_max ∈ t.cols →
    ∀ r ∈ t.rows, validateAgeCell (r.get .inclusion_age_min) = true ∧
      validateAgeCell (r.get .inclusion_age_max) = true
  fills_filled : ∀ c ∈ fill_fields, c ∈ t.cols → ∀ r ∈ t.rows, r.get c ≠ Cell.na
  ri_filled : ∀ r ∈ t.rows, r.get .results_ind ≠ Cell.na
  tss_split : Col.target_sample_size ∈ t.cols →
    (∀ r ∈ t.rows, r.get .target_sample_size ≠ Cell.na) ∨
    (∀ r ∈ t.rows, r.get .target_sample_size = Cell.na)
  sc_eq : ∀ r ∈ t.rows, r.get .sponsor_category = classifyCell (r.get .primary_sponsor)
  il_eq : ∀ r ∈ t.rows, r.get .income_level = mapIncomeCell (r.get .country_codes)
  rp_eq : ∀ r ∈ t.rows, r.get .results_posted = resultsPostedCell (r.get .results_ind)

theorem mapColIfPresent_cols (d : DataFrame) (c : Col) (f : Cell → Cell) :
    (mapColIfPresent d c f).cols = d.cols := by
  unfold mapColIfPresent
  by_cases hc : c ∈ d.cols
  · rw [if_pos hc]
  · rw [if_neg hc]

theorem mapColIfPresent_fix {d : DataFrame} {c : Col} {f : Cell → Cell}
    (h : c ∈ d.cols → ∀ r ∈ d.rows, f (r.get c) = r.get c) :
    mapColIfPresent d c f = d := by
  unfold mapColIfPresent
  by_cases hc : c ∈ d.cols
  · rw [if_pos hc]
    obtain ⟨cols, rows⟩ := d
    simp only [DataFrame.mk.injEq, true_and]
    have : ∀ r ∈ rows, r.set c (f (r.get c)) = r := by
      intro r hr
      rw [h hc r hr, Row.set_get_self]
    rw [List.map_congr_left this]
    exact List.map_id rows
  · rw [if_neg hc]

theorem deriveCol_fix {d : DataFrame} {src tgt : Col} {f : Cell → Cell}
    (hs : src ∈ d.cols) (ht : tgt ∈ d.cols)
    (h : ∀ r ∈ d.rows, r.get tgt = f (r.get src)) : deriveCol d src tgt f = .ok d := by
  unfold deriveCol
  rw [if_pos hs, if_pos ht]
  obtain ⟨cols, rows⟩ := d
  simp only [Except.ok.injEq, DataFrame.mk.injEq, true_and]
  have : ∀ r ∈ rows, r.set tgt (f (r.get src)) = r := by
    intro r hr
    rw [← h r hr, Row.set_get_self]
  rw [List.map_congr_left this]
  exact List.map_id rows

theorem fillCell_ne_na {c : Cell} (h : c ≠ Cell.na) (v : Cell) : fillCell c v = c := by
  cases c with
  | na => exact absurd rfl h
  | str s => rfl
  | num q => rfl
  | bool b => rfl

theorem fillCell_ne_na_out (c v : Cell) (hv : v ≠ Cell.na) : fillCell c v ≠ Cell.na := by
  cases c with
  | na => exact hv
  | str s => simp [fillCell]
  | num q => simp [fillCell]
  | bool b => simp [fillCell]

theorem filterSampleSizeOutliers_cols (d : DataFrame) :
    (filterSampleSizeOutliers d).1.cols = d.cols := by
  unfold filterSampleSizeOutliers
  by_cases hc : Col.target_sample_size ∈ d.cols
  · rw [if_pos hc]
  · rw [if_neg hc]

theorem ageFilterStep_cols (d : DataFrame) : (ageFilterStep d).cols = d.cols := by
  unfold ageFilterStep
  by_cases hc : Col.inclusion_age_min ∈ d.cols ∧ Col.inclusion_age_max ∈ d.cols
  · rw [if_pos hc]
  · rw [if_neg hc]

theorem imputeMedianStep_cols (d : DataFrame) : (imputeMedianStep d).cols = d.cols := by
  unfold imputeMedianStep
  by_cases hc : Col.target_sample_size ∈ d.cols
  · rw [if_pos hc]
  · rw [if_neg hc]

theorem normalizeDatesStep_cols (d : DataFrame) : (normalizeDatesStep d).cols = d.cols := by
  show (mapColIfPresent (mapColIfPresent d .date_registration normDateCell)
    .date_enrollment normDateCell).cols = d.cols
  rw [mapColIfPresent_cols, mapColIfPresent_cols]

theorem markupStep_cols (d : DataFrame) : (markupStep d).cols = d.cols := by
  show (mapColIfPresent (mapColIfPresent (mapColIfPresent (mapColIfPresent (mapColIfPresent d
    .inclusion_criteria cleanHtmlCell) .exclusion_criteria cleanHtmlCell)
    .primary_outcome cleanHtmlCell) .secondary_outcome cleanHtmlCell)
    .intervention cleanHtmlCell).cols = d.cols
  rw [mapColIfPresent_cols, mapColIfPresent_cols, mapColIfPresent_cols, mapColIfPresent_cols,
    mapColIfPresent_cols]

theorem fillStage_cols (d : DataFrame) :
    (fillResultsIndStep (fillUnknownStep d)).cols = d.cols := by
  rw [fillResultsIndStep, fillUnknownStep_eq]
  rw [mapColIfPresent_cols, mapColIfPresent_cols, mapColIfPresent_cols, mapColIfPresent_cols,
    mapColIfPresent_cols, mapColIfPresent_cols]

theorem dropFieldsStep_mem {d : DataFrame} {c : Col} :
    c ∈ (dropFieldsStep d).cols ↔ c ∈ d.cols ∧ c ∉ sensitive_fields := by
  unfold dropFieldsStep
  simp [List.mem_filter]

theorem filter_eq_self_of {p : Row → Bool} {l : List Row} (h : ∀ r ∈ l, p r = true) :
    l.filter p = l :=
  List.filter_eq_self.mpr h

/-- A table satisfying the invariant is a fixed point of the whole
pipeline: the second run returns it unchanged together with its published
subset. -/
theorem cleanPipeline_fix {t : DataFrame} (h : CleanTable t) :
    cleanPipeline t = .ok (t, publishedOf t) := by
  have h1 : normalizeDatesStep t = t := by
    show mapColIfPresent (mapColIfPresent t .date_registration normDateCell)
      .date_enrollment normDateCell = t
    rw [mapColIfPresent_fix (fun hc r hr =>
      (h.dates_norm .date_registration (by simp [date_fields]) hc r hr).symm)]
    exact mapColIfPresent_fix (fun hc r hr =>
      (h.dates_norm .date_enrollment (by simp [date_fields]) hc r hr).symm)
  have h2 : deriveYearStep t = .ok t := by
    unfold deriveYearStep
    refine deriveCol_fix h.dr_mem h.year_mem ?_
    exact h.year_eq
  have h3 : markupStep t = t := by
    show mapColIfPresent (mapColIfPresent (mapColIfPresent (mapColIfPresent (mapColIfPresent t
      .inclusion_criteria cleanHtmlCell) .exclusion_criteria cleanHtmlCell)
      .primary_outcome cleanHtmlCell) .secondary_outcome cleanHtmlCell)
      .intervention cleanHtmlCell = t
    rw [mapColIfPresent_fix (fun hc r hr =>
      (h.html_norm .inclusion_criteria (by simp [html_fields]) hc r hr).symm)]
    rw [mapColIfPresent_fix (fun hc r hr =>
      (h.html_norm .exclusion_criteria (by simp [html_fields]) hc r hr).symm)]
    rw [mapColIfPresent_fix (fun hc r hr =>
      (h.html_norm .primary_outcome (by simp [html_fields]) hc r hr).symm)]
    rw [mapColIfPresent_fix (fun hc r hr =>
      (h.html_norm .secondary_outcome (by simp [html_fields]) hc r hr).symm)]
    exact mapColIfPresent_fix (fun hc r hr =>
      (h.html_norm .intervention (by simp [html_fields]) hc r hr).symm)
  have h4 : filterSampleSizeOutliers t = (t, 0) := by
    unfold filterSampleSizeOutliers
    by_cases hc : Col.target_sample_size ∈ t.cols
    · rw [if_pos hc]
      have hco : t.rows.map (fun r =>
          r.set .target_sample_size (toNumericCell (r.get .target_sample_size))) = t.rows := by
        have : ∀ r ∈ t.rows, r.set Col.target_sample_size
            (toNumericCell (r.get Col.target_sample_size)) = r := by
          intro r hr
          rw [← h.tss_num hc r hr, Row.set_get_self]
        rw [List.map_congr_left this]
        exact List.map_id t.rows
      simp only [hco]
      rw [filter_eq_self_of (h.tss_keep hc)]
      simp
    · rw [if_neg hc]
  have h5 : ageFilterStep t = t := by
    unfold ageFilterStep
    by_cases hc : Col.inclusion_age_min ∈ t.cols ∧ Col.inclusion_age_max ∈ t.cols
    · rw [if_pos hc]
      have hf1 : t.rows.filter (fun r => validateAgeCell (r.get .inclusion_age_min)) = t.rows :=
        filter_eq_self_of (fun r hr => (h.age_valid hc r hr).1)
      have hf2 : t.rows.filter (fun r => validateAgeCell (r.get .inclusion_age_max)) = t.rows :=
        filter_eq_self_of (fun r hr => (h.age_valid hc r hr).2)
      simp only [hf1, hf2]
    · rw [if_neg hc]
  have h6 : dropFieldsStep t = t := by
    unfold dropFieldsStep
    obtain ⟨cols, rows⟩ := t
    simp only [DataFrame.mk.injEq, and_true]
    rw [List.filter_eq_self]
    intro c hc
    simp only [decide_eq_true_eq]
    intro hs
    exact h.sens_not_mem c hs hc
  have h7 : fillUnknownStep t = t := by
    rw [fillUnknownStep_eq]
    rw [mapColIfPresent_fix (fun hc r hr =>
      fillCell_ne_na (h.fills_filled .standardised_condition (by simp [fill_fields]) hc r hr) _)]
    rw [mapColIfPresent_fix (fun hc r hr =>
      fillCell_ne_na (h.fills_filled .countries (by simp [fill_fields]) hc r hr) _)]
    rw [mapColIfPresent_fix (fun hc r hr =>
      fillCell_ne_na (h.fills_filled .primary_sponsor (by simp [fill_fields]) hc r hr) _)]
    rw [mapColIfPresent_fix (fun hc r hr =>
      fillCell_ne_na (h.fills_filled .phase (by simp [fill_fields]) hc r hr) _)]
    exact mapColIfPresent_fix (fun hc r hr =>
      fillCell_ne_na (h.fills_filled .study_type (by simp [fill_fields]) hc r hr) _)
  have h8 : fillResultsIndStep t = t := by
    unfold fillResultsIndStep
    exact mapColIfPresent_fix (fun hc r hr => fillCell_ne_na (h.ri_filled r hr) _)
  have h9 : imputeMedianStep t = t := by
    unfold imputeMedianStep
    by_cases hc : Col.target_sample_size ∈ t.cols
    · rw [if_pos hc]
      obtain ⟨cols, rows⟩ := t
      simp only [DataFrame.mk.injEq, true_and]
      rcases h.tss_split hc with hall | hall
      · have : ∀ r ∈ rows, r.set Col.target_sample_size
            (match r.get Col.target_sample_size, medianQ (presentTss rows) with
             | Cell.na, some q => Cell.num q
             | c, _ => c) = r := by
          intro r hr
          have hne := hall r hr
          have hmatch : (match r.get Col.target_sample_size, medianQ (presentTss rows) with
             | Cell.na, some q => Cell.num q
             | c, _ => c) = r.get Col.target_sample_size := by
            cases hcell : r.get Col.target_sample_size with
            | na => exact absurd hcell hne
            | str s => cases medianQ (presentTss rows) <;> rfl
            | num q => cases medianQ (presentTss rows) <;> rfl
            | bool b => cases medianQ (presentTss rows) <;> rfl
          rw [hmatch, Row.set_get_self]
        rw [List.map_congr_left this]
        exact List.map_id rows
      · have hnil : presentTss rows = [] := presentTss_eq_nil hall
        rw [hnil]
        have : ∀ r ∈ rows, r.set Col.target_sample_size
            (match r.get Col.target_sample_size, medianQ [] with
             | Cell.na, some q => Cell.num q
             | c, _ => c) = r := by
          intro r hr
          have hmatch : (match r.get Col.target_sample_size, medianQ [] with
             | Cell.na, some q => Cell.num q
             | c, _ => c) = r.get Col.target_sample_size := by
            cases r.get Col.target_sample_size <;> rfl
          rw [hmatch, Row.set_get_self]
        rw [List.map_congr_left this]
        exact List.map_id rows
    · rw [if_neg hc]
  have h10 : sponsorStep t = .ok t := deriveCol_fix h.ps_mem h.sc_mem h.sc_eq
  have h11 : incomeStep t = .ok t := deriveCol_fix h.cc_mem h.il_mem h.il_eq
  have h12 : resultsPostedStep t = .ok t := deriveCol_fix h.ri_mem h.rp_mem h.rp_eq
  show (postFillStage t).bind _ = _
  have hpf : postFillStage t = .ok t := by
    unfold postFillStage postFilterStage
    rw [h1, h2]
    simp only [Except.map]
    rw [h3, h4]
    show Except.ok (fillResultsIndStep (fillUnknownStep (dropFieldsStep (ageFilterStep t)))) =
      Except.ok t
    rw [h5, h6, h7, h8]
  rw [hpf]
  simp only [Bind.bind, Except.bind]
  rw [h9, h10]
  simp only []
  rw [h11]
  simp only []
  rw [h12]
  simp only [pure, Except.pure]

theorem postFillStage_ok {df d8 : DataFrame} (h : postFillStage df = .ok d8) :
    ∃ d2, deriveYearStep (normalizeDatesStep df) = .ok d2 ∧
      d8 = fillResultsIndStep (fillUnknownStep (dropFieldsStep (ageFilterStep
        (filterSampleSizeOutliers (markupStep d2)).1))) := by
  unfold postFillStage postFilterStage at h
  cases h2 : deriveYearStep (normalizeDatesStep df) with
  | error e =>
    rw [h2] at h
    simp [Except.map] at h
  | ok d2 =>
    rw [h2] at h
    simp only [Except.map, Except.ok.injEq] at h
    exact ⟨d2, rfl, h.symm⟩

theorem pres_get_ne {c' c : Col} (hne : c' ≠ c) (g : Cell → Prop) :
    ∀ (r : Row) (v : Cell), g (r.get c) → g ((r.set c' v).get c) := by
  intro r v h
  rw [Row.get_set_ne r v hne]
  exact h

theorem pres2_get_ne {c' c1 c2 : Col} (h1 : c' ≠ c1) (h2 : c' ≠ c2) (g : Cell → Cell) :
    ∀ (r : Row) (v : Cell), r.get c1 = g (r.get c2) →
      (r.set c' v).get c1 = g ((r.set c' v).get c2) := by
  intro r v h
  rw [Row.get_set_ne r v h1, Row.get_set_ne r v h2]
  exact h

/-- Transport a row property through `mapColIfPresent` when the property is
stable under writes to the mapped column. -/
theorem step_map (P : Row → Prop) {d : DataFrame} {c : Col} {f : Cell → Cell}
    (hP : ∀ (r : Row) (v : Cell), P r → P (r.set c v))
    (h : ∀ r ∈ d.rows, P r) : ∀ r ∈ (mapColIfPresent d c f).rows, P r :=
  rowsProp_mapColIfPresent P (fun r hr => hP r _ hr) h

theorem step_ss (P : Row → Prop) {d : DataFrame}
    (hP : ∀ (r : Row) (v : Cell), P r → P (r.set .target_sample_size v))
    (h : ∀ r ∈ d.rows, P r) : ∀ r ∈ (filterSampleSizeOutliers d).1.rows, P r := by
  intro r hr
  unfold filterSampleSizeOutliers at hr
  by_cases hc : Col.target_sample_size ∈ d.cols
  · rw [if_pos hc] at hr
    have hr2 := (List.mem_filter.mp hr).1
    obtain ⟨r0, hr0, rfl⟩ := List.mem_map.mp hr2
    exact hP r0 _ (h r0 hr0)
  · rw [if_neg hc] at hr
    exact h r hr

theorem step_age (P : Row → Prop) {d : DataFrame}
    (h : ∀ r ∈ d.rows, P r) : ∀ r ∈ (ageFilterStep d).rows, P r :=
  fun r hr => h r (mem_ageFilter hr)

theorem dropFieldsStep_rows (d : DataFrame) : (dropFieldsStep d).rows = d.rows := rfl

theorem step_fills (P : Row → Prop) {d : DataFrame}
    (h1 : ∀ (r : Row) (v : Cell), P r → P (r.set .standardised_condition v))
    (h2 : ∀ (r : Row) (v : Cell), P r → P (r.set .countries v))
    (h3 : ∀ (r : Row) (v : Cell), P r → P (r.set .primary_sponsor v))
    (h4 : ∀ (r : Row) (v : Cell), P r → P (r.set .phase v))
    (h5 : ∀ (r : Row) (v : Cell), P r → P (r.set .study_type v))
    (h6 : ∀ (r : Row) (v : Cell), P r → P (r.set .results_ind v))
    (h : ∀ r ∈ d.rows, P r) :
    ∀ r ∈ (fillResultsIndStep (fillUnknownStep d)).rows, P r := by
  rw [fillResultsIndStep, fillUnknownStep_eq]
  exact step_map P h6 (step_map P h5 (step_map P h4 (step_map P h3
    (step_map P h2 (step_map P h1 h)))))

theorem step_imp (P : Row → Prop) {d : DataFrame}
    (hP : ∀ (r : Row) (v : Cell), P r → P (r.set .target_sample_size v))
    (h : ∀ r ∈ d.rows, P r) : ∀ r ∈ (imputeMedianStep d).rows, P r := by
  intro r hr
  unfold imputeMedianStep at hr
  by_cases hc : Col.target_sample_size ∈ d.cols
  · rw [if_pos hc] at hr
    obtain ⟨r0, hr0, rfl⟩ := List.mem_map.mp hr
    exact hP r0 _ (h r0 hr0)
  · rw [if_neg hc] at hr
    exact h r hr

theorem step_derive (P : Row → Prop) {df d : DataFrame} {src tgt : Col} {f : Cell → Cell}
    (hok : deriveCol df src tgt f = .ok d)
    (hP : ∀ (r : Row) (v : Cell), P r → P (r.set tgt v))
    (h : ∀ r ∈ df.rows, P r) : ∀ r ∈ d.rows, P r := by
  intro r hr
  obtain ⟨-, -, hrows⟩ := deriveCol_ok hok
  rw [hrows] at hr
  obtain ⟨r0, hr0, rfl⟩ := List.mem_map.mp hr
  exact hP r0 _ (h r0 hr0)

theorem mem_addCol {cols0 : List Col} {tgt c : Col} :
    c ∈ (if tgt ∈ cols0 then cols0 else cols0 ++ [tgt]) ↔ c ∈ cols0 ∨ c = tgt := by
  by_cases h : tgt ∈ cols0
  · rw [if_pos h]
    constructor
    · exact Or.inl
    · rintro (hc | rfl)
      · exact hc
      · exact h
  · rw [if_neg h]
    simp

/-- Establish a fixed-point fact on the mapped column (needs the cell
transform to be idempotent). -/
theorem establish_map {d : DataFrame} {c : Col} {f : Cell → Cell}
    (hidem : ∀ v, f (f v) = f v) (hc : c ∈ d.cols) :
    ∀ r ∈ (mapColIfPresent d c f).rows, r.get c = f (r.get c) := by
  intro r hr
  unfold mapColIfPresent at hr
  rw [if_pos hc] at hr
  obtain ⟨r0, hr0, rfl⟩ := List.mem_map.mp hr
  rw [Row.get_set_self, hidem]

theorem toNumericCell_idem (c : Cell) : toNumericCell (toNumericCell c) = toNumericCell c := by
  cases c with
  | na => rfl
  | num q => rfl
  | bool b => rfl
  | str s =>
    cases hp : parseDecimal s with
    | some q => simp [toNumericCell, hp]
    | none => simp [toNumericCell, hp]

theorem medianQ_eq_none {l : List Q} (h : medianQ l = none) : l = [] := by
  cases l with
  | nil => rfl
  | cons x t =>
    exfalso
    unfold medianQ at h
    dsimp only at h
    by_cases hp : (sortQ (x :: t)).length % 2 = 1
    · rw [if_pos hp] at h
      exact Option.noConfusion h
    · rw [if_neg hp] at h
      exact Option.noConfusion h

theorem mem_presentTss {rows : List Row} {q : Q} (h : q ∈ presentTss rows) :
    ∃ r ∈ rows, r.get .target_sample_size = Cell.num q := by
  unfold presentTss at h
  obtain ⟨r, hr, hf⟩ := List.mem_filterMap.mp h
  refine ⟨r, hr, ?_⟩
  cases hc : r.get .target_sample_size with
  | num q' =>
    rw [hc] at hf
    simp only [Option.some.injEq] at hf
    rw [hf]
  | na => rw [hc] at hf; exact Option.noConfusion hf
  | str s => rw [hc] at hf; exact Option.noConfusion hf
  | bool b => rw [hc] at hf; exact Option.noConfusion hf

theorem presentTss_mem {rows : List Row} {r : Row} {q : Q} (hr : r ∈ rows)
    (hq : r.get .target_sample_size = Cell.num q) : q ∈ presentTss rows := by
  unfold presentTss
  refine List.mem_filterMap.mpr ⟨r, hr, ?_⟩
  rw [hq]

theorem ssFilter_keep {d : DataFrame} (hc : Col.target_sample_size ∈ d.cols) :
    ∀ r ∈ (filterSampleSizeOutliers d).1.rows,
      keepSS (r.get .target_sample_size) = true := by
  intro r hr
  unfold filterSampleSizeOutliers at hr
  rw [if_pos hc] at hr
  dsimp only at hr
  exact (List.mem_filter.mp hr).2

theorem ssFilter_num {d : DataFrame} (hc : Col.target_sample_size ∈ d.cols) :
    ∀ r ∈ (filterSampleSizeOutliers d).1.rows,
      r.get .target_sample_size = toNumericCell (r.get .target_sample_size) := by
  intro r hr
  unfold filterSampleSizeOutliers at hr
  rw [if_pos hc] at hr
  dsimp only at hr
  obtain ⟨r0, hr0, rfl⟩ := List.mem_map.mp (List.mem_filter.mp hr).1
  rw [Row.get_set_self, toNumericCell_idem]

theorem ageFilter_valid {d : DataFrame}
    (hc : Col.inclusion_age_min ∈ d.cols ∧ Col.inclusion_age_max ∈ d.cols) :
    ∀ r ∈ (ageFilterStep d).rows,
      validateAgeCell (r.get .inclusion_age_min) = true ∧
      validateAgeCell (r.get .inclusion_age_max) = true := by
  intro r hr
  unfold ageFilterStep at hr
  rw [if_pos hc] at hr
  dsimp only at hr
  have h2 := List.mem_filter.mp hr
  have h1 := List.mem_filter.mp h2.1
  exact ⟨h1.2, h2.2⟩

theorem fillMap_filled {d : DataFrame} {c : Col} {v : Cell} (hv : v ≠ Cell.na)
    (hc : c ∈ d.cols) :
    ∀ r ∈ (mapColIfPresent d c (fun x => fillCell x v)).rows, r.get c ≠ Cell.na := by
  intro r hr
  unfold mapColIfPresent at hr
  rw [if_pos hc] at hr
  obtain ⟨r0, hr0, rfl⟩ := List.mem_map.mp hr
  rw [Row.get_set_self]
  exact fillCell_ne_na_out _ _ hv

theorem deriveCol_established {df d : DataFrame} {src tgt : Col} {f : Cell → Cell}
    (hok : deriveCol df src tgt f = .ok d) (hne : tgt ≠ src) :
    ∀ r ∈ d.rows, r.get tgt = f (r.get src) := by
  intro r hr
  obtain ⟨-, -, hrows⟩ := deriveCol_ok hok
  rw [hrows] at hr
  obtain ⟨r0, hr0, rfl⟩ := List.mem_map.mp hr
  rw [Row.get_set_self, Row.get_set_ne r0 _ hne]

theorem impute_rows {d : DataFrame} (hc : Col.target_sample_size ∈ d.cols) :
    (imputeMedianStep d).rows = d.rows.map (fun r => r.set .target_sample_size
      (match r.get .target_sample_size, medianQ (presentTss d.rows) with
       | Cell.na, some q => Cell.num q
       | c, _ => c)) := by
  simp [imputeMedianStep, hc]

theorem impute_num {d : DataFrame} (hc : Col.target_sample_size ∈ d.cols)
    (hnum : ∀ r ∈ d.rows,
      r.get .target_sample_size = toNumericCell (r.get .target_sample_size)) :
    ∀ r ∈ (imputeMedianStep d).rows,
      r.get .target_sample_size = toNumericCell (r.get .target_sample_size) := by
  intro r hr
  rw [impute_rows hc] at hr
  obtain ⟨r0, hr0, rfl⟩ := List.mem_map.mp hr
  have h0 := hnum r0 hr0
  rw [Row.get_set_self]
  cases hq : r0.get .target_sample_size with
  | na =>
    cases medianQ (presentTss d.rows) with
    | none => rfl
    | some q => rfl
  | str s => rw [hq] at h0; exact h0
  | num q => rw [hq] at h0; exact h0
  | bool b => rw [hq] at h0; exact h0

theorem impute_keep {d : DataFrame} (hc : Col.target_sample_size ∈ d.cols)
    (hkeep : ∀ r ∈ d.rows, keepSS (r.get .target_sample_size) = true) :
    ∀ r ∈ (imputeMedianStep d).rows, keepSS (r.get .target_sample_size) = true := by
  intro r hr
  rw [impute_rows hc] at hr
  obtain ⟨r0, hr0, rfl⟩ := List.mem_map.mp hr
  have h0 := hkeep r0 hr0
  rw [Row.get_set_self]
  cases hq : r0.get .target_sample_size with
  | na =>
    cases hm : medianQ (presentTss d.rows) with
    | none => rfl
    | some m =>
      have hpool : ∀ x ∈ presentTss d.rows,
          Q.ltB ⟨0, 0⟩ x = true ∧ Q.leB x ⟨1000000, 0⟩ = true := by
        intro x hx
        obtain ⟨r1, hr1, hx1⟩ := mem_presentTss hx
        have hk := hkeep r1 hr1
        rw [hx1] at hk
        simpa only [keepSS, Bool.and_eq_true] using hk
      have hb := medianQ_bounds hpool hm
      show keepSS (Cell.num m) = true
      simpa only [keepSS, Bool.and_eq_true] using hb
  | str s => rw [hq] at h0; exact h0
  | num q => rw [hq] at h0; exact h0
  | bool b => rw [hq] at h0; exact h0

theorem impute_split {d : DataFrame} (hc : Col.target_sample_size ∈ d.cols)
    (hnum : ∀ r ∈ d.rows,
      r.get .target_sample_size = toNumericCell (r.get .target_sample_size)) :
    (∀ r ∈ (imputeMedianStep d).rows, r.get .target_sample_size ≠ Cell.na) ∨
    (∀ r ∈ (imputeMedianStep d).rows, r.get .target_sample_size = Cell.na) := by
  cases hm : medianQ (presentTss d.rows) with
  | none =>
    right
    intro r hr
    rw [impute_rows hc] at hr
    obtain ⟨r0, hr0, rfl⟩ := List.mem_map.mp hr
    have h0 := hnum r0 hr0
    rw [Row.get_set_self]
    cases hq : r0.get .target_sample_size with
    | na => rw [hm]
    | num q =>
      exfalso
      have hmem := presentTss_mem hr0 hq
      rw [medianQ_eq_none hm] at hmem
      exact absurd hmem (List.not_mem_nil q)
    | str s =>
      exfalso
      rw [hq] at h0
      cases hp : parseDecimal s with
      | some q => simp [toNumericCell, hp] at h0
      | none => simp [toNumericCell, hp] at h0
    | bool b =>
      exfalso
      rw [hq] at h0
      simp [toNumericCell] at h0
  | some m =>
    left
    intro r hr
    rw [impute_rows hc] at hr
    obtain ⟨r0, hr0, rfl⟩ := List.mem_map.mp hr
    have h0 := hnum r0 hr0
    rw [Row.get_set_self]
    cases hq : r0.get .target_sample_size with
    | na =>
      rw [hm]
      show Cell.num m ≠ Cell.na
      simp
    | num q =>
      show Cell.num q ≠ Cell.na
      simp
    | str s =>
      exfalso
      rw [hq] at h0
      cases hp : parseDecimal s with
      | some q => simp [toNumericCell, hp] at h0
      | none => simp [toNumericCell, hp] at h0
    | bool b =>
      exfalso
      rw [hq] at h0
      simp [toNumericCell] at h0

theorem presAge {c' : Col} (h1 : c' ≠ Col.inclusion_age_min)
    (h2 : c' ≠ Col.inclusion_age_max) :
    ∀ (r : Row) (v : Cell),
      (validateAgeCell (r.get .inclusion_age_min) = true ∧
       validateAgeCell (r.get .inclusion_age_max) = true) →
      validateAgeCell ((r.set c' v).get .inclusion_age_min) = true ∧
      validateAgeCell ((r.set c' v).get .inclusion_age_max) = true := by
  intro r v h
  rw [Row.get_set_ne r v h1, Row.get_set_ne r v h2]
  exact h

theorem markupStep_eq (d : DataFrame) : markupStep d =
    mapColIfPresent (mapColIfPresent (mapColIfPresent (mapColIfPresent (mapColIfPresent d
      .inclusion_criteria cleanHtmlCell) .exclusion_criteria cleanHtmlCell)
      .primary_outcome cleanHtmlCell) .secondary_outcome cleanHtmlCell)
      .intervention cleanHtmlCell := rfl

theorem markup_transport (P : Row → Prop)
    (g1 : ∀ (r : Row) (v : Cell), P r → P (r.set .inclusion_criteria v))
    (g2 : ∀ (r : Row) (v : Cell), P r → P (r.set .exclusion_criteria v))
    (g3 : ∀ (r : Row) (v : Cell), P r → P (r.set .primary_outcome v))
    (g4 : ∀ (r : Row) (v : Cell), P r → P (r.set .secondary_outcome v))
    (g5 : ∀ (r : Row) (v : Cell), P r → P (r.set .intervention v))
    {d : DataFrame} (hP : ∀ r ∈ d.rows, P r) : ∀ r ∈ (markupStep d).rows, P r := by
  rw [markupStep_eq]
  exact step_map P g5 (step_map P g4 (step_map P g3 (step_map P g2 (step_map P g1 hP))))

theorem drop_fills_transport (P : Row → Prop)
    (f1 : ∀ (r : Row) (v : Cell), P r → P (r.set .standardised_condition v))
    (f2 : ∀ (r : Row) (v : Cell), P r → P (r.set .countries v))
    (f3 : ∀ (r : Row) (v : Cell), P r → P (r.set .primary_sponsor v))
    (f4 : ∀ (r : Row) (v : Cell), P r → P (r.set .phase v))
    (f5 : ∀ (r : Row) (v : Cell), P r → P (r.set .study_type v))
    (f6 : ∀ (r : Row) (v : Cell), P r → P (r.set .results_ind v))
    {d : DataFrame} (hP : ∀ r ∈ d.rows, P r) :
    ∀ r ∈ (fillResultsIndStep (fillUnknownStep (dropFieldsStep d))).rows, P r :=
  step_fills P f1 f2 f3 f4 f5 f6 hP

theorem derive3_transport {d9 d10 d11 t : DataFrame}
    (h10 : deriveCol d9 .primary_sponsor .sponsor_category classifyCell = .ok d10)
    (h11 : deriveCol d10 .country_codes .income_level mapIncomeCell = .ok d11)
    (h12 : deriveCol d11 .results_ind .results_posted resultsPostedCell = .ok t)
    (P : Row → Prop)
    (hsc : ∀ (r : Row) (v : Cell), P r → P (r.set .sponsor_category v))
    (hil : ∀ (r : Row) (v : Cell), P r → P (r.set .income_level v))
    (hrp : ∀ (r : Row) (v : Cell), P r → P (r.set .results_posted v))
    (hP : ∀ r ∈ d9.rows, P r) : ∀ r ∈ t.rows, P r :=
  step_derive P h12 hrp (step_derive P h11 hil (step_derive P h10 hsc hP))

theorem pipe_transport3 {d2 d10 d11 t : DataFrame}
    (h10 : deriveCol (imputeMedianStep (fillResultsIndStep (fillUnknownStep (dropFieldsStep
      (ageFilterStep (filterSampleSizeOutliers (markupStep d2)).1)))))
      .primary_sponsor .sponsor_category classifyCell = .ok d10)
    (h11 : deriveCol d10 .country_codes .income_level mapIncomeCell = .ok d11)
    (h12 : deriveCol d11 .results_ind .results_posted resultsPostedCell = .ok t)
    (P : Row → Prop)
    (f1 : ∀ (r : Row) (v : Cell), P r → P (r.set .standardised_condition v))
    (f2 : ∀ (r : Row) (v : Cell), P r → P (r.set .countries v))
    (f3 : ∀ (r : Row) (v : Cell), P r → P (r.set .primary_sponsor v))
    (f4 : ∀ (r : Row) (v : Cell), P r → P (r.set .phase v))
    (f5 : ∀ (r : Row) (v : Cell), P r → P (r.set .study_type v))
    (f6 : ∀ (r : Row) (v : Cell), P r → P (r.set .results_ind v))
    (htss : ∀ (r : Row) (v : Cell), P r → P (r.set .target_sample_size v))
    (hsc : ∀ (r : Row) (v : Cell), P r → P (r.set .sponsor_category v))
    (hil : ∀ (r : Row) (v : Cell), P r → P (r.set .income_level v))
    (hrp : ∀ (r : Row) (v : Cell), P r → P (r.set .results_posted v))
    (hP : ∀ r ∈ (markupStep d2).rows, P r) : ∀ r ∈ t.rows, P r :=
  derive3_transport h10 h11 h12 P hsc hil hrp (step_imp P htss
    (drop_fills_transport P f1 f2 f3 f4 f5 f6 (step_age P (step_ss P htss hP))))

theorem pipe_transport2 {d2 d10 d11 t : DataFrame}
    (h10 : deriveCol (imputeMedianStep (fillResultsIndStep (fillUnknownStep (dropFieldsStep
      (ageFilterStep (filterSampleSizeOutliers (markupStep d2)).1)))))
      .primary_sponsor .sponsor_category classifyCell = .ok d10)
    (h11 : deriveCol d10 .country_codes .income_level mapIncomeCell = .ok d11)
    (h12 : deriveCol d11 .results_ind .results_posted resultsPostedCell = .ok t)
    (P : Row → Prop)
    (g1 : ∀ (r : Row) (v : Cell), P r → P (r.set .inclusion_criteria v))
    (g2 : ∀ (r : Row) (v : Cell), P r → P (r.set .exclusion_criteria v))
    (g3 : ∀ (r : Row) (v : Cell), P r → P (r.set .primary_outcome v))
    (g4 : ∀ (r : Row) (v : Cell), P r → P (r.set .secondary_outcome v))
    (g5 : ∀ (r : Row) (v : Cell), P r → P (r.set .intervention v))
    (f1 : ∀ (r : Row) (v : Cell), P r → P (r.set .standardised_condition v))
    (f2 : ∀ (r : Row) (v : Cell), P r → P (r.set .countries v))
    (f3 : ∀ (r : Row) (v : Cell), P r → P (r.set .primary_sponsor v))
    (f4 : ∀ (r : Row) (v : Cell), P r → P (r.set .phase v))
    (f5 : ∀ (r : Row) (v : Cell), P r → P (r.set .study_type v))
    (f6 : ∀ (r : Row) (v : Cell), P r → P (r.set .results_ind v))
    (htss : ∀ (r : Row) (v : Cell), P r → P (r.set .target_sample_size v))
    (hsc : ∀ (r : Row) (v : Cell), P r → P (r.set .sponsor_category v))
    (hil : ∀ (r : Row) (v : Cell), P r → P (r.set .income_level v))
    (hrp : ∀ (r : Row) (v : Cell), P r → P (r.set .results_posted v))
    (hP : ∀ r ∈ d2.rows, P r) : ∀ r ∈ t.rows, P r :=
  pipe_transport3 h10 h11 h12 P f1 f2 f3 f4 f5 f6 htss hsc hil hrp
    (markup_transport P g1 g2 g3 g4 g5 hP)

theorem normalizeDatesStep_eq (d : DataFrame) : normalizeDatesStep d =
    mapColIfPresent (mapColIfPresent d .date_registration normDateCell)
      .date_enrollment normDateCell := rfl

theorem dates_establish_dr {d : DataFrame} (hdr : Col.date_registration ∈ d.cols) :
    ∀ r ∈ (normalizeDatesStep d).rows,
      r.get .date_registration = normDateCell (r.get .date_registration) := by
  rw [normalizeDatesStep_eq]
  exact step_map (fun r => r.get Col.date_registration = normDateCell (r.get Col.date_registration))
    (pres_get_ne (by decide) (fun x => x = normDateCell x))
    (establish_map normDateCell_idem hdr)

theorem dates_establish_de {d : DataFrame} (hde : Col.date_enrollment ∈ d.cols) :
    ∀ r ∈ (normalizeDatesStep d).rows,
      r.get .date_enrollment = normDateCell (r.get .date_enrollment) := by
  rw [normalizeDatesStep_eq]
  exact establish_map normDateCell_idem (by rw [mapColIfPresent_cols]; exact hde)

theorem markup_establish_ic {d : DataFrame} (hc : Col.inclusion_criteria ∈ d.cols) :
    ∀ r ∈ (markupStep d).rows,
      r.get .inclusion_criteria = cleanHtmlCell (r.get .inclusion_criteria) := by
  rw [markupStep_eq]
  exact step_map (fun r => r.get Col.inclusion_criteria = cleanHtmlCell (r.get Col.inclusion_criteria)) (pres_get_ne (by decide) (fun x => x = cleanHtmlCell x))
    (step_map (fun r => r.get Col.inclusion_criteria = cleanHtmlCell (r.get Col.inclusion_criteria)) (pres_get_ne (by decide) (fun x => x = cleanHtmlCell x))
    (step_map (fun r => r.get Col.inclusion_criteria = cleanHtmlCell (r.get Col.inclusion_criteria)) (pres_get_ne (by decide) (fun x => x = cleanHtmlCell x))
    (step_map (fun r => r.get Col.inclusion_criteria = cleanHtmlCell (r.get Col.inclusion_criteria)) (pres_get_ne (by decide) (fun x => x = cleanHtmlCell x))
    (establish_map cleanHtmlCell_idem hc))))

theorem markup_establish_ec {d : DataFrame} (hc : Col.exclusion_criteria ∈ d.cols) :
    ∀ r ∈ (markupStep d).rows,
      r.get .exclusion_criteria = cleanHtmlCell (r.get .exclusion_criteria) := by
  rw [markupStep_eq]
  exact step_map (fun r => r.get Col.exclusion_criteria = cleanHtmlCell (r.get Col.exclusion_criteria)) (pres_get_ne (by decide) (fun x => x = cleanHtmlCell x))
    (step_map (fun r => r.get Col.exclusion_criteria = cleanHtmlCell (r.get Col.exclusion_criteria)) (pres_get_ne (by decide) (fun x => x = cleanHtmlCell x))
    (step_map (fun r => r.get Col.exclusion_criteria = cleanHtmlCell (r.get Col.exclusion_criteria)) (pres_get_ne (by decide) (fun x => x = cleanHtmlCell x))
    (establish_map cleanHtmlCell_idem (by rw [mapColIfPresent_cols]; exact hc))))

theorem markup_establish_po {d : DataFrame} (hc : Col.primary_outcome ∈ d.cols) :
    ∀ r ∈ (markupStep d).rows,
      r.get .primary_outcome = cleanHtmlCell (r.get .primary_outcome) := by
  rw [markupStep_eq]
  exact step_map (fun r => r.get Col.primary_outcome = cleanHtmlCell (r.get Col.primary_outcome)) (pres_get_ne (by decide) (fun x => x = cleanHtmlCell x))
    (step_map (fun r => r.get Col.primary_outcome = cleanHtmlCell (r.get Col.primary_outcome)) (pres_get_ne (by decide) (fun x => x = cleanHtmlCell x))
    (establish_map cleanHtmlCell_idem (by rw [mapColIfPresent_cols, mapColIfPresent_cols]; exact hc)))

theorem markup_establish_so {d : DataFrame} (hc : Col.secondary_outcome ∈ d.cols) :
    ∀ r ∈ (markupStep d).rows,
      r.get .secondary_outcome = cleanHtmlCell (r.get .secondary_outcome) := by
  rw [markupStep_eq]
  exact step_map (fun r => r.get Col.secondary_outcome = cleanHtmlCell (r.get Col.secondary_outcome)) (pres_get_ne (by decide) (fun x => x = cleanHtmlCell x))
    (establish_map cleanHtmlCell_idem (by rw [mapColIfPresent_cols, mapColIfPresent_cols, mapColIfPresent_cols]; exact hc))

theorem markup_establish_iv {d : DataFrame} (hc : Col.intervention ∈ d.cols) :
    ∀ r ∈ (markupStep d).rows,
      r.get .intervention = cleanHtmlCell (r.get .intervention) := by
  rw [markupStep_eq]
  exact establish_map cleanHtmlCell_idem (by rw [mapColIfPresent_cols, mapColIfPresent_cols, mapColIfPresent_cols, mapColIfPresent_cols]; exact hc)

theorem fills_establish_stc {d : DataFrame} (hc : Col.standardised_condition ∈ d.cols) :
    ∀ r ∈ (fillResultsIndStep (fillUnknownStep d)).rows,
      r.get .standardised_condition ≠ Cell.na := by
  rw [fillResultsIndStep, fillUnknownStep_eq]
  exact step_map (fun r => r.get Col.standardised_condition ≠ Cell.na) (pres_get_ne (by decide) (fun x => x ≠ Cell.na))
    (step_map (fun r => r.get Col.standardised_condition ≠ Cell.na) (pres_get_ne (by decide) (fun x => x ≠ Cell.na))
    (step_map (fun r => r.get Col.standardised_condition ≠ Cell.na) (pres_get_ne (by decide) (fun x => x ≠ Cell.na))
    (step_map (fun r => r.get Col.standardised_condition ≠ Cell.na) (pres_get_ne (by decide) (fun x => x ≠ Cell.na))
    (step_map (fun r => r.get Col.standardised_condition ≠ Cell.na) (pres_get_ne (by decide) (fun x => x ≠ Cell.na))
    (fillMap_filled (fun hco => Cell.noConfusion hco) hc)))))

theorem fills_establish_cou {d : DataFrame} (hc : Col.countries ∈ d.cols) :
    ∀ r ∈ (fillResultsIndStep (fillUnknownStep d)).rows,
      r.get .countries ≠ Cell.na := by
  rw [fillResultsIndStep, fillUnknownStep_eq]
  exact step_map (fun r => r.get Col.countries ≠ Cell.na) (pres_get_ne (by decide) (fun x => x ≠ Cell.na))
    (step_map (fun r => r.get Col.countries ≠ Cell.na) (pres_get_ne (by decide) (fun x => x ≠ Cell.na))
    (step_map (fun r => r.get Col.countries ≠ Cell.na) (pres_get_ne (by decide) (fun x => x ≠ Cell.na))
    (step_map (fun r => r.get Col.countries ≠ Cell.na) (pres_get_ne (by decide) (fun x => x ≠ Cell.na))
    (fillMap_filled (fun hco => Cell.noConfusion hco) (by rw [mapColIfPresent_cols]; exact hc)))))

theorem fills_establish_ps {d : DataFrame} (hc : Col.primary_sponsor ∈ d.cols) :
    ∀ r ∈ (fillResultsIndStep (fillUnknownStep d)).rows,
      r.get .primary_sponsor ≠ Cell.na := by
  rw [fillResultsIndStep, fillUnknownStep_eq]
  exact step_map (fun r => r.get Col.primary_sponsor ≠ Cell.na) (pres_get_ne (by decide) (fun x => x ≠ Cell.na))
    (step_map (fun r => r.get Col.primary_sponsor ≠ Cell.na) (pres_get_ne (by decide) (fun x => x ≠ Cell.na))
    (step_map (fun r => r.get Col.primary_sponsor ≠ Cell.na) (pres_get_ne (by decide) (fun x => x ≠ Cell.na))
    (fillMap_filled (fun hco => Cell.noConfusion hco) (by rw [mapColIfPresent_cols, mapColIfPresent_cols]; exact hc))))

theorem fills_establish_ph {d : DataFrame} (hc : Col.phase ∈ d.cols) :
    ∀ r ∈ (fillResultsIndStep (fillUnknownStep d)).rows,
      r.get .phase ≠ Cell.na := by
  rw [fillResultsIndStep, fillUnknownStep_eq]
  exact step_map (fun r => r.get Col.phase ≠ Cell.na) (pres_get_ne (by decide) (fun x => x ≠ Cell.na))
    (step_map (fun r => r.get Col.phase ≠ Cell.na) (pres_get_ne (by decide) (fun x => x ≠ Cell.na))
    (fillMap_filled (fun hco => Cell.noConfusion hco) (by rw [mapColIfPresent_cols, mapColIfPresent_cols, mapColIfPresent_cols]; exact hc)))

theorem fills_establish_sty {d : DataFrame} (hc : Col.study_type ∈ d.cols) :
    ∀ r ∈ (fillResultsIndStep (fillUnknownStep d)).rows,
      r.get .study_type ≠ Cell.na := by
  rw [fillResultsIndStep, fillUnknownStep_eq]
  exact step_map (fun r => r.get Col.study_type ≠ Cell.na) (pres_get_ne (by decide) (fun x => x ≠ Cell.na))
    (fillMap_filled (fun hco => Cell.noConfusion hco) (by rw [mapColIfPresent_cols, mapColIfPresent_cols, mapColIfPresent_cols, mapColIfPresent_cols]; exact hc))

theorem fills_establish_ri {d : DataFrame} (hc : Col.results_ind ∈ d.cols) :
    ∀ r ∈ (fillResultsIndStep (fillUnknownStep d)).rows,
      r.get .results_ind ≠ Cell.na := by
  rw [fillResultsIndStep, fillUnknownStep_eq]
  exact fillMap_filled (fun hco => Cell.noConfusion hco)
    (by rw [mapColIfPresent_cols, mapColIfPresent_cols, mapColIfPresent_cols,
        mapColIfPresent_cols, mapColIfPresent_cols]; exact hc)

set_option maxHeartbeats 1600000 in
/-- A successful pipeline run establishes the clean-table invariant on its
output table. -/
theorem cleanPipeline_clean {df t p : DataFrame} (h : cleanPipeline df = .ok (t, p)) :
    CleanTable t := by
  obtain ⟨d8, d10, d11, h8, h10, h11, h12, hpub⟩ := cleanPipeline_ok_destruct h
  obtain ⟨d2, h2, hd8⟩ := postFillStage_ok h8
  rw [hd8] at h10
  have h2' : deriveCol (normalizeDatesStep df) .date_registration .Year yearCell = .ok d2 := h2
  have h10' : deriveCol (imputeMedianStep (fillResultsIndStep (fillUnknownStep (dropFieldsStep
      (ageFilterStep (filterSampleSizeOutliers (markupStep d2)).1)))))
      .primary_sponsor .sponsor_category classifyCell = .ok d10 := h10
  have h11' : deriveCol d10 .country_codes .income_level mapIncomeCell = .ok d11 := h11
  have h12' : deriveCol d11 .results_ind .results_posted resultsPostedCell = .ok t := h12
  obtain ⟨hsrc2, hcols2, hrows2⟩ := deriveCol_ok h2'
  obtain ⟨hsrc10, hcols10, hrows10⟩ := deriveCol_ok h10'
  obtain ⟨hsrc11, hcols11, hrows11⟩ := deriveCol_ok h11'
  obtain ⟨hsrc12, hcols12, hrows12⟩ := deriveCol_ok h12'
  have hc5 : (ageFilterStep (filterSampleSizeOutliers (markupStep d2)).1).cols = d2.cols := by
    rw [ageFilterStep_cols, filterSampleSizeOutliers_cols, markupStep_cols]
  have hmem8 : ∀ c : Col, (c ∈ (fillResultsIndStep (fillUnknownStep (dropFieldsStep (ageFilterStep
      (filterSampleSizeOutliers (markupStep d2)).1)))).cols ↔
      (c ∈ d2.cols ∧ c ∉ sensitive_fields)) := by
    intro c
    rw [fillStage_cols, dropFieldsStep_mem, hc5]
  have hmemD2 : ∀ c : Col, c ∈ d2.cols ↔ (c ∈ df.cols ∨ c = Col.Year) := by
    intro c
    rw [hcols2, mem_addCol, normalizeDatesStep_cols]
  have hmemT : ∀ c : Col, c ∈ t.cols ↔
      ((c ∈ d2.cols ∧ c ∉ sensitive_fields) ∨ c = .sponsor_category ∨ c = .income_level ∨
        c = .results_posted) := by
    intro c
    rw [hcols12, mem_addCol, hcols11, mem_addCol, hcols10, mem_addCol, imputeMedianStep_cols,
      hmem8 c]
    simp only [or_assoc]
  have hup11 : ∀ c : Col, c ∈ d11.cols → c ∈ t.cols := by
    intro c hc
    rw [hcols12]
    exact mem_addCol.mpr (Or.inl hc)
  have hup10 : ∀ c : Col, c ∈ d10.cols → c ∈ t.cols := by
    intro c hc
    refine hup11 c ?_
    rw [hcols11]
    exact mem_addCol.mpr (Or.inl hc)
  have hup9 : ∀ c : Col, c ∈ (imputeMedianStep (fillResultsIndStep (fillUnknownStep
      (dropFieldsStep (ageFilterStep (filterSampleSizeOutliers (markupStep d2)).1))))).cols →
      c ∈ t.cols := by
    intro c hc
    refine hup10 c ?_
    rw [hcols10]
    exact mem_addCol.mpr (Or.inl hc)
  have hdown2 : ∀ c : Col, c ≠ .sponsor_category → c ≠ .income_level → c ≠ .results_posted →
      c ∈ t.cols → c ∈ d2.cols := by
    intro c hh1 hh2 hh3 hct
    rcases (hmemT c).mp hct with ⟨hcc, -⟩ | hcc | hcc | hcc
    · exact hcc
    · exact absurd hcc hh1
    · exact absurd hcc hh2
    · exact absurd hcc hh3
  have hmem6 : ∀ c : Col, c ∈ d2.cols → c ∉ sensitive_fields →
      c ∈ (dropFieldsStep (ageFilterStep (filterSampleSizeOutliers (markupStep d2)).1)).cols := by
    intro c hcc hns
    refine dropFieldsStep_mem.mpr ⟨?_, hns⟩
    rw [hc5]
    exact hcc
  have hdr2 : Col.date_registration ∈ d2.cols := by
    rw [hcols2]
    exact mem_addCol.mpr (Or.inl hsrc2)
  have hYear2 : Col.Year ∈ d2.cols := by
    rw [hcols2]
    exact mem_addCol.mpr (Or.inr rfl)
  refine ⟨?_, ?_, ?_, ?_, ?_, ?_, ?_, ?_, ?_, ?_, ?_, ?_, ?_, ?_, ?_, ?_, ?_, ?_, ?_, ?_, ?_⟩
  · -- dr_mem
    refine hup9 _ ?_
    rw [imputeMedianStep_cols]
    exact (hmem8 _).mpr ⟨hdr2, by decide⟩
  · -- year_mem
    refine hup9 _ ?_
    rw [imputeMedianStep_cols]
    exact (hmem8 _).mpr ⟨hYear2, by decide⟩
  · -- ps_mem
    exact hup9 _ hsrc10
  · -- cc_mem
    exact hup10 _ hsrc11
  · -- ri_mem
    exact hup11 _ hsrc12
  · -- sc_mem
    refine hup10 _ ?_
    rw [hcols10]
    exact mem_addCol.mpr (Or.inr rfl)
  · -- il_mem
    refine hup11 _ ?_
    rw [hcols11]
    exact mem_addCol.mpr (Or.inr rfl)
  · -- rp_mem
    rw [hcols12]
    exact mem_addCol.mpr (Or.inr rfl)
  · -- sens_not_mem
    intro c hcs hct
    rcases (hmemT c).mp hct with ⟨-, hns⟩ | rfl | rfl | rfl
    · exact hns hcs
    · exact absurd hcs (by decide)
    · exact absurd hcs (by decide)
    · exact absurd hcs (by decide)
  · -- dates_norm
    intro c hcd hct
    have hcd' : c = Col.date_registration ∨ c = Col.date_enrollment := by
      simpa [date_fields] using hcd
    rcases hcd' with rfl | rfl
    · have hdrdf : Col.date_registration ∈ df.cols := by
        have hh := hsrc2
        rw [normalizeDatesStep_cols] at hh
        exact hh
      exact pipe_transport2 h10' h11' h12'
        (fun r => r.get Col.date_registration = normDateCell (r.get Col.date_registration))
        (pres_get_ne (by decide) (fun x => x = normDateCell x))
        (pres_get_ne (by decide) (fun x => x = normDateCell x))
        (pres_get_ne (by decide) (fun x => x = normDateCell x))
        (pres_get_ne (by decide) (fun x => x = normDateCell x))
        (pres_get_ne (by decide) (fun x => x = normDateCell x))
        (pres_get_ne (by decide) (fun x => x = normDateCell x))
        (pres_get_ne (by decide) (fun x => x = normDateCell x))
        (pres_get_ne (by decide) (fun x => x = normDateCell x))
        (pres_get_ne (by decide) (fun x => x = normDateCell x))
        (pres_get_ne (by decide) (fun x => x = normDateCell x))
        (pres_get_ne (by decide) (fun x => x = normDateCell x))
        (pres_get_ne (by decide) (fun x => x = normDateCell x))
        (pres_get_ne (by decide) (fun x => x = normDateCell x))
        (pres_get_ne (by decide) (fun x => x = normDateCell x))
        (pres_get_ne (by decide) (fun x => x = normDateCell x))
        (step_derive (fun r => r.get Col.date_registration = normDateCell
            (r.get Col.date_registration))
          h2' (pres_get_ne (by decide) (fun x => x = normDateCell x))
          (dates_establish_dr hdrdf))
    · have hdedf : Col.date_enrollment ∈ df.cols := by
        have hh := hdown2 _ (by decide) (by decide) (by decide) hct
        rcases (hmemD2 _).mp hh with hx | hx
        · exact hx
        · exact absurd hx (by decide)
      exact pipe_transport2 h10' h11' h12'
        (fun r => r.get Col.date_enrollment = normDateCell (r.get Col.date_enrollment))
        (pres_get_ne (by decide) (fun x => x = normDateCell x))
        (pres_get_ne (by decide) (fun x => x = normDateCell x))
        (pres_get_ne (by decide) (fun x => x = normDateCell x))
        (pres_get_ne (by decide) (fun x => x = normDateCell x))
        (pres_get_ne (by decide) (fun x => x = normDateCell x))
        (pres_get_ne (by decide) (fun x => x = normDateCell x))
        (pres_get_ne (by decide) (fun x => x = normDateCell x))
        (pres_get_ne (by decide) (fun x => x = normDateCell x))
        (pres_get_ne (by decide) (fun x => x = normDateCell x))
        (pres_get_ne (by decide) (fun x => x = normDateCell x))
        (pres_get_ne (by decide) (fun x => x = normDateCell x))
        (pres_get_ne (by decide) (fun x => x = normDateCell x))
        (pres_get_ne (by decide) (fun x => x = normDateCell x))
        (pres_get_ne (by decide) (fun x => x = normDateCell x))
        (pres_get_ne (by decide) (fun x => x = normDateCell x))
        (step_derive (fun r => r.get Col.date_enrollment = normDateCell
            (r.get Col.date_enrollment))
          h2' (pres_get_ne (by decide) (fun x => x = normDateCell x))
          (dates_establish_de hdedf))
  · -- year_eq
    exact pipe_transport2 h10' h11' h12'
      (fun r => r.get Col.Year = yearCell (r.get Col.date_registration))
      (pres2_get_ne (by decide) (by decide) yearCell)
      (pres2_get_ne (by decide) (by decide) yearCell)
      (pres2_get_ne (by decide) (by decide) yearCell)
      (pres2_get_ne (by decide) (by decide) yearCell)
      (pres2_get_ne (by decide) (by decide) yearCell)
      (pres2_get_ne (by decide) (by decide) yearCell)
      (pres2_get_ne (by decide) (by decide) yearCell)
      (pres2_get_ne (by decide) (by decide) yearCell)
      (pres2_get_ne (by decide) (by decide) yearCell)
      (pres2_get_ne (by decide) (by decide) yearCell)
      (pres2_get_ne (by decide) (by decide) yearCell)
      (pres2_get_ne (by decide) (by decide) yearCell)
      (pres2_get_ne (by decide) (by decide) yearCell)
      (pres2_get_ne (by decide) (by decide) yearCell)
      (pres2_get_ne (by decide) (by decide) yearCell)
      (deriveCol_established h2' (by decide))
  · -- html_norm
    intro c hch hct
    have hch' : c = Col.inclusion_criteria ∨ c = Col.exclusion_criteria ∨
        c = Col.primary_outcome ∨ c = Col.secondary_outcome ∨ c = Col.intervention := by
      simpa [html_fields] using hch
    rcases hch' with rfl | rfl | rfl | rfl | rfl
    · exact pipe_transport3 h10' h11' h12'
        (fun r => r.get Col.inclusion_criteria = cleanHtmlCell (r.get Col.inclusion_criteria))
        (pres_get_ne (by decide) (fun x => x = cleanHtmlCell x))
        (pres_get_ne (by decide) (fun x => x = cleanHtmlCell x))
        (pres_get_ne (by decide) (fun x => x = cleanHtmlCell x))
        (pres_get_ne (by decide) (fun x => x = cleanHtmlCell x))
        (pres_get_ne (by decide) (fun x => x = cleanHtmlCell x))
        (pres_get_ne (by decide) (fun x => x = cleanHtmlCell x))
        (pres_get_ne (by decide) (fun x => x = cleanHtmlCell x))
        (pres_get_ne (by decide) (fun x => x = cleanHtmlCell x))
        (pres_get_ne (by decide) (fun x => x = cleanHtmlCell x))
        (pres_get_ne (by decide) (fun x => x = cleanHtmlCell x))
        (markup_establish_ic (hdown2 _ (by decide) (by decide) (by decide) hct))
    · exact pipe_transport3 h10' h11' h12'
        (fun r => r.get Col.exclusion_criteria = cleanHtmlCell (r.get Col.exclusion_criteria))
        (pres_get_ne (by decide) (fun x => x = cleanHtmlCell x))
        (pres_get_ne (by decide) (fun x => x = cleanHtmlCell x))
        (pres_get_ne (by decide) (fun x => x = cleanHtmlCell x))
        (pres_get_ne (by decide) (fun x => x = cleanHtmlCell x))
        (pres_get_ne (by decide) (fun x => x = cleanHtmlCell x))
        (pres_get_ne (by decide) (fun x => x = cleanHtmlCell x))
        (pres_get_ne (by decide) (fun x => x = cleanHtmlCell x))
        (pres_get_ne (by decide) (fun x => x = cleanHtmlCell x))
        (pres_get_ne (by decide) (fun x => x = cleanHtmlCell x))
        (pres_get_ne (by decide) (fun x => x = cleanHtmlCell x))
        (markup_establish_ec (hdown2 _ (by decide) (by decide) (by decide) hct))
    · exact pipe_transport3 h10' h11' h12'
        (fun r => r.get Col.primary_outcome = cleanHtmlCell (r.get Col.primary_outcome))
        (pres_get_ne (by decide) (fun x => x = cleanHtmlCell x))
        (pres_get_ne (by decide) (fun x => x = cleanHtmlCell x))
        (pres_get_ne (by decide) (fun x => x = cleanHtmlCell x))
        (pres_get_ne (by decide) (fun x => x = cleanHtmlCell x))
        (pres_get_ne (by decide) (fun x => x = cleanHtmlCell x))
        (pres_get_ne (by decide) (fun x => x = cleanHtmlCell x))
        (pres_get_ne (by decide) (fun x => x = cleanHtmlCell x))
        (pres_get_ne (by decide) (fun x => x = cleanHtmlCell x))
        (pres_get_ne (by decide) (fun x => x = cleanHtmlCell x))
        (pres_get_ne (by decide) (fun x => x = cleanHtmlCell x))
        (markup_establish_po (hdown2 _ (by decide) (by decide) (by decide) hct))
    · exact pipe_transport3 h10' h11' h12'
        (fun r => r.get Col.secondary_outcome = cleanHtmlCell (r.get Col.secondary_outcome))
        (pres_get_ne (by decide) (fun x => x = cleanHtmlCell x))
        (pres_get_ne (by decide) (fun x => x = cleanHtmlCell x))
        (pres_get_ne (by decide) (fun x => x = cleanHtmlCell x))
        (pres_get_ne (by decide) (fun x => x = cleanHtmlCell x))
        (pres_get_ne (by decide) (fun x => x = cleanHtmlCell x))
        (pres_get_ne (by decide) (fun x => x = cleanHtmlCell x))
        (pres_get_ne (by decide) (fun x => x = cleanHtmlCell x))
        (pres_get_ne (by decide) (fun x => x = cleanHtmlCell x))
        (pres_get_ne (by decide) (fun x => x = cleanHtmlCell x))
        (pres_get_ne (by decide) (fun x => x = cleanHtmlCell x))
        (markup_establish_so (hdown2 _ (by decide) (by decide) (by decide) hct))
    · exact pipe_transport3 h10' h11' h12'
        (fun r => r.get Col.intervention = cleanHtmlCell (r.get Col.intervention))
        (pres_get_ne (by decide) (fun x => x = cleanHtmlCell x))
        (pres_get_ne (by decide) (fun x => x = cleanHtmlCell x))
        (pres_get_ne (by decide) (fun x => x = cleanHtmlCell x))
        (pres_get_ne (by decide) (fun x => x = cleanHtmlCell x))
        (pres_get_ne (by decide) (fun x => x = cleanHtmlCell x))
        (pres_get_ne (by decide) (fun x => x = cleanHtmlCell x))
        (pres_get_ne (by decide) (fun x => x = cleanHtmlCell x))
        (pres_get_ne (by decide) (fun x => x = cleanHtmlCell x))
        (pres_get_ne (by decide) (fun x => x = cleanHtmlCell x))
        (pres_get_ne (by decide) (fun x => x = cleanHtmlCell x))
        (markup_establish_iv (hdown2 _ (by decide) (by decide) (by decide) hct))
  · -- tss_num
    intro htss
    have htss2 : Col.target_sample_size ∈ d2.cols :=
      hdown2 _ (by decide) (by decide) (by decide) htss
    have htss3 : Col.target_sample_size ∈ (markupStep d2).cols := by
      rw [markupStep_cols]
      exact htss2
    have htss8 : Col.target_sample_size ∈ (fillResultsIndStep (fillUnknownStep (dropFieldsStep
        (ageFilterStep (filterSampleSizeOutliers (markupStep d2)).1)))).cols :=
      (hmem8 _).mpr ⟨htss2, by decide⟩
    exact derive3_transport h10' h11' h12'
      (fun r => r.get Col.target_sample_size = toNumericCell (r.get Col.target_sample_size))
      (pres_get_ne (by decide) (fun x => x = toNumericCell x))
      (pres_get_ne (by decide) (fun x => x = toNumericCell x))
      (pres_get_ne (by decide) (fun x => x = toNumericCell x))
      (impute_num htss8 (drop_fills_transport
        (fun r => r.get Col.target_sample_size = toNumericCell (r.get Col.target_sample_size))
        (pres_get_ne (by decide) (fun x => x = toNumericCell x))
        (pres_get_ne (by decide) (fun x => x = toNumericCell x))
        (pres_get_ne (by decide) (fun x => x = toNumericCell x))
        (pres_get_ne (by decide) (fun x => x = toNumericCell x))
        (pres_get_ne (by decide) (fun x => x = toNumericCell x))
        (pres_get_ne (by decide) (fun x => x = toNumericCell x))
        (step_age _ (ssFilter_num htss3))))
  · -- tss_keep
    intro htss
    have htss2 : Col.target_sample_size ∈ d2.cols :=
      hdown2 _ (by decide) (by decide) (by decide) htss
    have htss3 : Col.target_sample_size ∈ (markupStep d2).cols := by
      rw [markupStep_cols]
      exact htss2
    have htss8 : Col.target_sample_size ∈ (fillResultsIndStep (fillUnknownStep (dropFieldsStep
        (ageFilterStep (filterSampleSizeOutliers (markupStep d2)).1)))).cols :=
      (hmem8 _).mpr ⟨htss2, by decide⟩
    exact derive3_transport h10' h11' h12'
      (fun r => keepSS (r.get Col.target_sample_size) = true)
      (pres_get_ne (by decide) (fun x => keepSS x = true))
      (pres_get_ne (by decide) (fun x => keepSS x = true))
      (pres_get_ne (by decide) (fun x => keepSS x = true))
      (impute_keep htss8 (drop_fills_transport
        (fun r => keepSS (r.get Col.target_sample_size) = true)
        (pres_get_ne (by decide) (fun x => keepSS x = true))
        (pres_get_ne (by decide) (fun x => keepSS x = true))
        (pres_get_ne (by decide) (fun x => keepSS x = true))
        (pres_get_ne (by decide) (fun x => keepSS x = true))
        (pres_get_ne (by decide) (fun x => keepSS x = true))
        (pres_get_ne (by decide) (fun x => keepSS x = true))
        (step_age _ (ssFilter_keep htss3))))
  · -- age_valid
    intro hpair
    have hc4 : Col.inclusion_age_min ∈ (filterSampleSizeOutliers (markupStep d2)).1.cols ∧
        Col.inclusion_age_max ∈ (filterSampleSizeOutliers (markupStep d2)).1.cols := by
      rw [filterSampleSizeOutliers_cols, markupStep_cols]
      exact ⟨hdown2 _ (by decide) (by decide) (by decide) hpair.1,
        hdown2 _ (by decide) (by decide) (by decide) hpair.2⟩
    exact derive3_transport h10' h11' h12'
      (fun r => validateAgeCell (r.get Col.inclusion_age_min) = true ∧
        validateAgeCell (r.get Col.inclusion_age_max) = true)
      (presAge (by decide) (by decide)) (presAge (by decide) (by decide))
      (presAge (by decide) (by decide))
      (step_imp _ (presAge (by decide) (by decide)) (drop_fills_transport
        (fun r => validateAgeCell (r.get Col.inclusion_age_min) = true ∧
          validateAgeCell (r.get Col.inclusion_age_max) = true)
        (presAge (by decide) (by decide)) (presAge (by decide) (by decide))
        (presAge (by decide) (by decide)) (presAge (by decide) (by decide))
        (presAge (by decide) (by decide)) (presAge (by decide) (by decide))
        (ageFilter_valid hc4)))
  · -- fills_filled
    intro c hcf hct
    have hcf' : c = Col.standardised_condition ∨ c = Col.countries ∨
        c = Col.primary_sponsor ∨ c = Col.phase ∨ c = Col.study_type := by
      simpa [fill_fields] using hcf
    rcases hcf' with rfl | rfl | rfl | rfl | rfl
    · exact derive3_transport h10' h11' h12'
        (fun r => r.get Col.standardised_condition ≠ Cell.na)
        (pres_get_ne (by decide) (fun x => x ≠ Cell.na))
        (pres_get_ne (by decide) (fun x => x ≠ Cell.na))
        (pres_get_ne (by decide) (fun x => x ≠ Cell.na))
        (step_imp _ (pres_get_ne (by decide) (fun x => x ≠ Cell.na))
          (fills_establish_stc
            (hmem6 _ (hdown2 _ (by decide) (by decide) (by decide) hct) (by decide))))
    · exact derive3_transport h10' h11' h12'
        (fun r => r.get Col.countries ≠ Cell.na)
        (pres_get_ne (by decide) (fun x => x ≠ Cell.na))
        (pres_get_ne (by decide) (fun x => x ≠ Cell.na))
        (pres_get_ne (by decide) (fun x => x ≠ Cell.na))
        (step_imp _ (pres_get_ne (by decide) (fun x => x ≠ Cell.na))
          (fills_establish_cou
            (hmem6 _ (hdown2 _ (by decide) (by decide) (by decide) hct) (by decide))))
    · exact derive3_transport h10' h11' h12'
        (fun r => r.get Col.primary_sponsor ≠ Cell.na)
        (pres_get_ne (by decide) (fun x => x ≠ Cell.na))
        (pres_get_ne (by decide) (fun x => x ≠ Cell.na))
        (pres_get_ne (by decide) (fun x => x ≠ Cell.na))
        (step_imp _ (pres_get_ne (by decide) (fun x => x ≠ Cell.na))
          (fills_establish_ps
            (hmem6 _ (hdown2 _ (by decide) (by decide) (by decide) hct) (by decide))))
    · exact derive3_transport h10' h11' h12'
        (fun r => r.get Col.phase ≠ Cell.na)
        (pres_get_ne (by decide) (fun x => x ≠ Cell.na))
        (pres_get_ne (by decide) (fun x => x ≠ Cell.na))
        (pres_get_ne (by decide) (fun x => x ≠ Cell.na))
        (step_imp _ (pres_get_ne (by decide) (fun x => x ≠ Cell.na))
          (fills_establish_ph
            (hmem6 _ (hdown2 _ (by decide) (by decide) (by decide) hct) (by decide))))
    · exact derive3_transport h10' h11' h12'
        (fun r => r.get Col.study_type ≠ Cell.na)
        (pres_get_ne (by decide) (fun x => x ≠ Cell.na))
        (pres_get_ne (by decide) (fun x => x ≠ Cell.na))
        (pres_get_ne (by decide) (fun x => x ≠ Cell.na))
        (step_imp _ (pres_get_ne (by decide) (fun x => x ≠ Cell.na))
          (fills_establish_sty
            (hmem6 _ (hdown2 _ (by decide) (by decide) (by decide) hct) (by decide))))
  · -- ri_filled
    have hri2 : Col.results_ind ∈ d2.cols :=
      hdown2 _ (by decide) (by decide) (by decide) (hup11 _ hsrc12)
    exact derive3_transport h10' h11' h12'
      (fun r => r.get Col.results_ind ≠ Cell.na)
      (pres_get_ne (by decide) (fun x => x ≠ Cell.na))
      (pres_get_ne (by decide) (fun x => x ≠ Cell.na))
      (pres_get_ne (by decide) (fun x => x ≠ Cell.na))
      (step_imp _ (pres_get_ne (by decide) (fun x => x ≠ Cell.na))
        (fills_establish_ri (hmem6 _ hri2 (by decide))))
  · -- tss_split
    intro htss
    have htss2 : Col.target_sample_size ∈ d2.cols :=
      hdown2 _ (by decide) (by decide) (by decide) htss
    have htss3 : Col.target_sample_size ∈ (markupStep d2).cols := by
      rw [markupStep_cols]
      exact htss2
    have htss8 : Col.target_sample_size ∈ (fillResultsIndStep (fillUnknownStep (dropFieldsStep
        (ageFilterStep (filterSampleSizeOutliers (markupStep d2)).1)))).cols :=
      (hmem8 _).mpr ⟨htss2, by decide⟩
    have est8 : ∀ r ∈ (fillResultsIndStep (fillUnknownStep (dropFieldsStep (ageFilterStep
        (filterSampleSizeOutliers (markupStep d2)).1)))).rows,
        r.get .target_sample_size = toNumericCell (r.get .target_sample_size) :=
      drop_fills_transport
        (fun r => r.get Col.target_sample_size = toNumericCell (r.get Col.target_sample_size))
        (pres_get_ne (by decide) (fun x => x = toNumericCell x))
        (pres_get_ne (by decide) (fun x => x = toNumericCell x))
        (pres_get_ne (by decide) (fun x => x = toNumericCell x))
        (pres_get_ne (by decide) (fun x => x = toNumericCell x))
        (pres_get_ne (by decide) (fun x => x = toNumericCell x))
        (pres_get_ne (by decide) (fun x => x = toNumericCell x))
        (step_age _ (ssFilter_num htss3))
    rcases impute_split htss8 est8 with hall | hall
    · exact Or.inl (derive3_transport h10' h11' h12'
        (fun r => r.get Col.target_sample_size ≠ Cell.na)
        (pres_get_ne (by decide) (fun x => x ≠ Cell.na))
        (pres_get_ne (by decide) (fun x => x ≠ Cell.na))
        (pres_get_ne (by decide) (fun x => x ≠ Cell.na)) hall)
    · exact Or.inr (derive3_transport h10' h11' h12'
        (fun r => r.get Col.target_sample_size = Cell.na)
        (pres_get_ne (by decide) (fun x => x = Cell.na))
        (pres_get_ne (by decide) (fun x => x = Cell.na))
        (pres_get_ne (by decide) (fun x => x = Cell.na)) hall)
  · -- sc_eq
    exact step_derive _ h12' (pres2_get_ne (by decide) (by decide) classifyCell)
      (step_derive _ h11' (pres2_get_ne (by decide) (by decide) classifyCell)
        (deriveCol_established h10' (by decide)))
  · -- il_eq
    exact step_derive _ h12' (pres2_get_ne (by decide) (by decide) mapIncomeCell)
      (deriveCol_established h11' (by decide))
  · -- rp_eq
    exact deriveCol_established h12' (by decide)

/-- Claim C9: running the full normalization sequence a second time on an
already-cleaned table is the identity: when a run succeeds with cleaned
table `t` and published subset `p`, running the whole pipeline again on
`t` succeeds and returns exactly `t` and `p` — every default is already
filled, every derived category is re-derived to the same value, and no
further row is dropped. -/
theorem pipeline_idempotent {df t p : DataFrame} (h : cleanPipeline df = .ok (t, p)) :
    cleanPipeline t = .ok (t, p) := by
  obtain ⟨-, -, -, -, -, -, -, hpub⟩ := cleanPipeline_ok_destruct h
  rw [hpub]
  exact cleanPipeline_fix (cleanPipeline_clean h)

theorem pipeline_idempotent_witness :
    cleanPipeline (runClean dfEx).1 = .ok ((runClean dfEx).1, (runClean dfEx).2) :=
  @pipeline_idempotent dfEx (runClean dfEx).1 (runClean dfEx).2 rfl

end CleanData
